import Mathlib

/-!
# Invoice / bill importer: `dialog-bi-import.c`

A shallow embedding of the validation pass `gnc_bi_import_fix_bis` and of the
reconciliation pass `gnc_bi_import_create_bis`, with the properties of the
specification stated over it.

Modelling conventions.

* The `GtkListStore` is a `List Row`; the iterator `iter` is a position in
  that list, and it names a row exactly when its position is below the length
  of the list (`gtk_tree_model_get_iter_first`, `gtk_tree_model_iter_next` and
  `gtk_list_store_remove` return `FALSE` when they run off the end).
* The saved iterator `first_row_of_invoice` is a copy that
  `gtk_list_store_remove` does not update: once the row it names has been
  removed (`first_row_removed`) it names no row of the store, and
  `gtk_list_store_remove` called with it removes nothing and returns `FALSE`
  (`remove_failed`).
* In the validation pass every cell of the store holds a string (the 22 text
  columns); the strings handed out by `gtk_tree_model_get` are values and
  `g_free` has no effect. The `strcpy (id, running_id->str)` of line 485 writes
  into the block of the blank id it replaces; `overflow` records a copy that
  does not fit that block, whose size is the field `id_block_size` of `Env`.
* In `gnc_bi_import_read_file` a cell is `none` until it is set (`StoreRow`).
* `g_string_append_printf (info, ...)` appends to a `String`; `_( )` is the
  identity.
* Functions of the book, of the account tree and of the helper module that are
  not part of the translated file are fields of `Env`; the calls that change
  a document (create, add an entry, post) act on a list of `GncInvoice`.
* The variable `update` holds the response of `gtk_dialog_run`, an integer:
  `GTK_RESPONSE_YES`, `GTK_RESPONSE_NO`, or any other response of the dialog.
* Loops run on a fuel that is shown to be enough (`fix_bis_finished`,
  `create_bis_finished`).
-/

namespace BiImport

/-! ## The row table -/

/-- One line of the list store: the text columns `ID` ... `ACCU_SPLITS`. -/
structure Row where
  id : String
  date_opened : String
  owner_id : String
  billing_id : String
  notes : String
  date : String
  desc : String
  action : String
  account : String
  quantity : String
  price : String
  disc_type : String
  disc_how : String
  discount : String
  taxable : String
  taxincluded : String
  tax_table : String
  date_posted : String
  due_date : String
  account_posted : String
  memo_posted : String
  accu_splits : String
deriving DecidableEq

/-! ## The book and the helper functions -/

/-- A currency: its mnemonic and `gnc_commodity_get_fraction`. -/
structure gnc_commodity where
  mnemonic : String
  fraction : Int
deriving DecidableEq

/-- The account types the importer tells apart with `xaccAccountGetType`. -/
inductive GNCAccountType where
  | ACCT_TYPE_RECEIVABLE
  | ACCT_TYPE_PAYABLE
  | ACCT_TYPE_OTHER
deriving DecidableEq

/-- An account of the account tree, as seen by the importer. -/
structure Account where
  name : String
  type : GNCAccountType
deriving DecidableEq

/-- A customer or a vendor found by `gnc_search_customer_on_id` /
`gnc_search_vendor_on_id`; `currency` is `gncOwnerGetCurrency`. -/
structure GncOwnerData where
  id : String
  currency : Option gnc_commodity
deriving DecidableEq

/-- A `gnc_numeric`: numerator and denominator. -/
structure gnc_numeric where
  num : Int
  denom : Int
deriving DecidableEq

/-- The value `gnc_numeric_zero ()`. -/
def gnc_numeric_zero : gnc_numeric := ⟨0, 1⟩

/-- A line item (`GncEntry`): the values handed to its setters. The fields that
only the INVOICE branch sets are `none` on the entries of a bill. -/
structure GncEntry where
  /-- Set by `gncEntrySetDateGDate (entry, g_date_new_dmy (day, month, year))`. -/
  date : Int × Int × Int
  /-- Set by `gncEntrySetDateEntered`. -/
  date_entered : Int
  /-- Set by `gncEntrySetDescription`. -/
  description : String
  /-- Set by `gncEntrySetAction`. -/
  action : String
  /-- Set by `gncEntrySetQuantity`. -/
  quantity : gnc_numeric
  /-- Set by `gncEntrySetBillAccount` / `gncEntrySetInvAccount`. -/
  account : Option Account
  /-- Set by `gncEntrySetBillPrice` / `gncEntrySetInvPrice`. -/
  price : gnc_numeric
  /-- Set by `gncEntrySetBillTaxable` / `gncEntrySetInvTaxable`. -/
  taxable : Bool
  /-- Set by `gncEntrySetBillTaxIncluded` / `gncEntrySetInvTaxIncluded`. -/
  taxincluded : Bool
  /-- Set by `gncEntrySetBillTaxTable` / `gncEntrySetInvTaxTable`. -/
  tax_table : Option String
  /-- Set by `gncEntrySetNotes` (INVOICE only). -/
  notes : Option String
  /-- Set by `gncEntrySetInvDiscount` (INVOICE only). -/
  discount : Option gnc_numeric
  /-- Set by `gncEntrySetInvDiscountType` (INVOICE only). -/
  disc_type : Option Nat
  /-- Set by `gncEntrySetInvDiscountHow` (INVOICE only). -/
  disc_how : Option Nat
deriving DecidableEq

/-- The arguments of `gncInvoicePostToAccount`. -/
structure Posting where
  acc : Option Account
  post_date : Int
  due_date : Int
  memo : String
  accumulatesplits : Bool
  autopay : Bool
deriving DecidableEq

/-- A document of the book (`GncInvoice`): a bill when its owner is a vendor,
an invoice when its owner is a customer. `posted` holds the posting once
`gncInvoicePostToAccount` has been called on it. -/
structure GncInvoice where
  id : String
  is_bill : Bool
  owner : Option GncOwnerData
  currency : Option gnc_commodity
  date_opened : Int
  billing_id : String
  notes : String
  active : Bool
  entries : List GncEntry
  posted : Option Posting
deriving DecidableEq

/-- The values of the variable `update` (line 549): it is declared with
`enum update {YES = GTK_RESPONSE_YES, NO = GTK_RESPONSE_NO}` and line 676
stores in it whatever response `gtk_dialog_run` returns, so it holds an
integer. -/
abbrev update := Int

/-- The response `GTK_RESPONSE_YES`. -/
def update.YES : update := -8

/-- The response `GTK_RESPONSE_NO`. -/
def update.NO : update := -9

/-- The response `GTK_RESPONSE_DELETE_EVENT`, returned when the dialog is
closed without an answer. -/
def GTK_RESPONSE_DELETE_EVENT : update := -4

/-- The collaborators of the importer: directory look-ups, the helper module
(`isDateValid`, `text2bool`, ...), the date and number parsers, the
preferences and the answers of the confirmation dialog. -/
structure Env where
  /-- The call `gnc_search_vendor_on_id (book, id)`. -/
  gnc_search_vendor_on_id : String → Option GncOwnerData
  /-- The call `gnc_search_customer_on_id (book, id)`. -/
  gnc_search_customer_on_id : String → Option GncOwnerData
  /-- The call `gnc_account_lookup_for_register (gnc_get_current_root_account (), name)`. -/
  gnc_account_lookup_for_register : String → Option Account
  /-- The function `isDateValid` of the helper module. -/
  isDateValid : String → Bool
  /-- Today, printed by `g_date_strftime` with the user's date format. -/
  today : String
  /-- The function `qof_scan_date`: the values left in `day`, `month` and `year`. -/
  qof_scan_date : String → Int × Int × Int
  /-- The call `gnc_dmy2time64 (day, month, year)`. -/
  gnc_dmy2time64 : Int × Int × Int → Int
  /-- The call `gnc_time (NULL)`. -/
  gnc_time : Int
  /-- The function `gnc_exp_parser_parse`: the parsed value, or `none` when parsing fails. -/
  gnc_exp_parser_parse : String → Option gnc_numeric
  /-- The call `gnc_numeric_convert (value, denom, GNC_HOW_RND_NEVER)`. -/
  gnc_numeric_convert : gnc_numeric → Int → gnc_numeric
  /-- The function `text2bool` of the helper module. -/
  text2bool : String → Bool
  /-- The function `text2disc_type` of the helper module. -/
  text2disc_type : String → Nat
  /-- The function `text2disc_how` of the helper module. -/
  text2disc_how : String → Nat
  /-- The call `gncTaxTableLookupByName (book, name)`: the name of the table found. -/
  gncTaxTableLookupByName : String → Option String
  /-- The preference `gnc_prefs_get_bool (GNC_PREFS_GROUP_INVOICE, GNC_PREF_AUTO_PAY)`. -/
  auto_pay_invoice : Bool
  /-- The preference `gnc_prefs_get_bool (GNC_PREFS_GROUP_BILL, GNC_PREF_AUTO_PAY)`. -/
  auto_pay_bill : Bool
  /-- The call `gnc_account_get_currency_or_parent (acc)`. -/
  gnc_account_get_currency_or_parent : Option Account → Option gnc_commodity
  /-- The count `g_hash_table_size (gncInvoiceGetForeignCurrencies (invoice))`. -/
  curr_count : GncInvoice → Nat
  /-- The result of `gtk_dialog_run` on the update dialog: the response to the n-th request
  (counted from 0) of the run, which is `GTK_RESPONSE_YES`, `GTK_RESPONSE_NO` or any
  other response of a dialog. -/
  gtk_dialog_run : Nat → update
  /-- The number of bytes that can be written into the block that holds the copy of a blank
  id handed out by `gtk_tree_model_get` (a `g_strdup` of the empty text): one byte was asked
  for, and the allocator may hand out a larger block. -/
  id_block_size : Nat

/-- The test `g_ascii_strcasecmp (a, b) == 0`. -/
def g_ascii_strcasecmp_eq (a b : String) : Bool :=
  a.data.map Char.toLower == b.data.map Char.toLower

/-! ## `gnc_bi_import_fix_bis` -/

/-- The flags and the log that one iteration of the validation loop threads
through its checks, with `cur` the row of the store under `iter`. -/
structure Pass where
  ignore_invoice : Bool
  row_fixed : Bool
  info : String
  cur : Row
deriving DecidableEq

/-- The variables of `gnc_bi_import_fix_bis` that live across iterations. -/
structure FixState where
  store : List Row
  iter : Nat
  first_row_of_invoice : Nat
  on_first_row_of_invoice : Bool
  id : String
  date_opened : String
  date_posted : String
  due_date : String
  account_posted : String
  owner_id : String
  running_id : String
  row : Nat
  fixed_for_invoice : Nat
  fixed : Nat
  deleted : Nat
  info : String
  /-- The row that `first_row_of_invoice` names has been removed from the store: the saved
  iterator is the iterator of a row that no longer exists. -/
  first_row_removed : Bool
  /-- The variable `valid` is `FALSE` because `gtk_list_store_remove` was handed the
  iterator of a removed row and removed nothing. -/
  remove_failed : Bool
  /-- A call of `strcpy` (line 485) has written past the end of the block of `id`. -/
  overflow : Bool
deriving DecidableEq

/-- Lines 278-294: the id and the owner id of a first row must be set. -/
def check_id_owner (row : Nat) (id owner_id : String) (p : Pass) : Pass :=
  let p1 : Pass :=
    if id = "" then
      { p with ignore_invoice := true,
               info := p.info ++ "Row " ++ toString row ++
                 ": invoice ignored, invoice ID not set.\n" }
    else p
  if !p1.ignore_invoice && owner_id = "" then
    { p1 with ignore_invoice := true,
              info := p1.info ++ "Row " ++ toString row ++ ": invoice " ++ id ++
                " ignored, owner not set.\n" }
  else p1

/-- Lines 295-322: the vendor (BILL) or customer (INVOICE) must exist. -/
def check_owner_exists (env : Env) (type : String) (row : Nat) (id owner_id : String)
    (p : Pass) : Pass :=
  if !p.ignore_invoice then
    if g_ascii_strcasecmp_eq type "BILL" then
      if (env.gnc_search_vendor_on_id owner_id).isNone then
        { p with ignore_invoice := true,
                 info := p.info ++ "Row " ++ toString row ++ ": invoice " ++ id ++
                   " ignored, vendor " ++ owner_id ++ " does not exist.\n" }
      else p
    else if g_ascii_strcasecmp_eq type "INVOICE" then
      if (env.gnc_search_customer_on_id owner_id).isNone then
        { p with ignore_invoice := true,
                 info := p.info ++ "Row " ++ toString row ++ ": invoice " ++ id ++
                   " ignored, customer " ++ owner_id ++ " does not exist.\n" }
      else p
    else p
  else p

/-- Lines 326-334: a posting date that is set must be a valid date. -/
def check_date_posted (env : Env) (row : Nat) (id date_posted : String) (p : Pass) : Pass :=
  if !env.isDateValid date_posted then
    { p with ignore_invoice := true,
             info := p.info ++ "Row " ++ toString row ++ ": invoice " ++ id ++
               " ignored, " ++ date_posted ++ " is not a valid posting date.\n" }
  else p

/-- Lines 336-373: the posting account must exist and be A/P for bills, A/R for
invoices. -/
def check_account_posted (env : Env) (type : String) (row : Nat) (id account_posted : String)
    (p : Pass) : Pass :=
  if !p.ignore_invoice then
    match env.gnc_account_lookup_for_register account_posted with
    | none =>
      { p with ignore_invoice := true,
               info := p.info ++ "Row " ++ toString row ++ ": invoice " ++ id ++
                 " ignored, account " ++ account_posted ++ " does not exist.\n" }
    | some acc =>
      if g_ascii_strcasecmp_eq type "BILL" then
        if acc.type ≠ GNCAccountType.ACCT_TYPE_PAYABLE then
          { p with ignore_invoice := true,
                   info := p.info ++ "Row " ++ toString row ++ ": invoice " ++ id ++
                     " ignored, account " ++ account_posted ++
                     " is not of type Accounts Payable.\n" }
        else p
      else if g_ascii_strcasecmp_eq type "INVOICE" then
        if acc.type ≠ GNCAccountType.ACCT_TYPE_RECEIVABLE then
          { p with ignore_invoice := true,
                   info := p.info ++ "Row " ++ toString row ++ ": invoice " ++ id ++
                     " ignored, account " ++ account_posted ++
                     " is not of type Accounts Receivable.\n" }
        else p
      else p
  else p

/-- Lines 375-382: an invalid due date is replaced by the posting date. -/
def fix_due_date (env : Env) (date_posted due_date : String) (p : Pass) : Pass :=
  if !p.ignore_invoice && !env.isDateValid due_date then
    { p with cur := { p.cur with due_date := date_posted }, row_fixed := true }
  else p

/-- Lines 324-383: the checks made when `date_posted` is set. -/
def check_posting (env : Env) (type : String) (row : Nat)
    (id date_posted account_posted due_date : String) (p : Pass) : Pass :=
  if !p.ignore_invoice && date_posted ≠ "" then
    fix_due_date env date_posted due_date
      (check_account_posted env type row id account_posted
        (check_date_posted env row id date_posted p))
  else p

/-- Lines 385-397: an invalid opening date is replaced by today's date. -/
def fix_date_opened (env : Env) (date_opened : String) (p : Pass) : Pass :=
  if !p.ignore_invoice && !env.isDateValid date_opened then
    { p with cur := { p.cur with date_opened := env.today }, row_fixed := true }
  else p

/-- Lines 264-398: the header checks of the first row of an invoice, on the
values just read from that row. -/
def validate_header (env : Env) (type : String) (row : Nat) (r : Row) (p : Pass) : Pass :=
  fix_date_opened env r.date_opened
    (check_posting env type row r.id r.date_posted r.account_posted r.due_date
      (check_owner_exists env type row r.id r.owner_id
        (check_id_owner row r.id r.owner_id p)))

/-- Lines 410-418: the price must be set. -/
def check_price (row : Nat) (id price : String) (p : Pass) : Pass :=
  if price = "" then
    { p with ignore_invoice := true,
             info := p.info ++ "Row " ++ toString row ++ ": invoice " ++ id ++
               " ignored, price not set.\n" }
  else p

/-- Lines 420-432: the account of the line must exist. -/
def check_account (env : Env) (row : Nat) (id account : String) (p : Pass) : Pass :=
  if !p.ignore_invoice then
    if (env.gnc_account_lookup_for_register account).isNone then
      { p with ignore_invoice := true,
               info := p.info ++ "Row " ++ toString row ++ ": invoice " ++ id ++
                 " ignored, account " ++ account ++ " does not exist.\n" }
    else p
  else p

/-- Lines 434-455: a blank quantity becomes "1", an invalid item date becomes
the value of the variable `date_opened`. -/
def fix_item (env : Env) (date_opened quantity date : String) (p : Pass) : Pass :=
  if !p.ignore_invoice then
    let p1 : Pass :=
      if quantity = "" then
        { p with cur := { p.cur with quantity := "1" }, row_fixed := true }
      else p
    if !env.isDateValid date then
      { p1 with cur := { p1.cur with date := date_opened }, row_fixed := true }
    else p1
  else p

/-- Lines 400-455: the checks made on every row. `id` and `date_opened` are the
variables of the function, the other values are read from the row. -/
def validate_item (env : Env) (row : Nat) (id date_opened : String) (p : Pass) : Pass :=
  fix_item env date_opened p.cur.quantity p.cur.date
    (check_account env row id p.cur.account
      (check_price row id p.cur.price p))

/-- The statement `if (valid) gtk_tree_model_get (store, &iter, ID, &id, -1)`
(lines 468 and 479): the variable `id` once the iterator has moved, `rows`
being the rows from the iterator on. -/
def read_id (id : String) : List Row → String
  | [] => id
  | r :: _ => r.id

/-- Lines 464-469: the removal loop, run on the rows from `first_row_of_invoice`
on. While the variable `id` equals the running id the row under the iterator
is removed, and `id` is read again from the row that takes its place. Returns
the final `id`, the rows left from the iterator on, and `deleted`. -/
def remove_rows (running_id : String) : String → List Row → Nat → String × List Row × Nat
  | id, [], deleted => (id, [], deleted)
  | id, r :: rest, deleted =>
    if id = running_id then
      remove_rows running_id (read_id id rest) rest (deleted + 1)
    else (id, r :: rest, deleted)

/-- Lines 482-487, run when `valid` is `TRUE`: a blank id of the row now under
the iterator is replaced by the running id. The variable `id` is the block of
one byte that `gtk_tree_model_get` allocated for the blank id, and `strcpy`
copies the running id and its terminating zero into it, `running_id.length + 1`
bytes (the characters of the model are the bytes of the C text); the text is
then stored in the row. When the copy does not fit the block, `overflow`
records the write past its end: the behaviour of the program is undefined from
there on, and the fields of the state say what a copy without damage would
leave. -/
def inherit_id (env : Env) (s : FixState) : FixState :=
  if s.remove_failed then s
  else
    match s.store[s.iter]? with
    | some r =>
      if s.id = "" then
        { s with id := s.running_id,
                 store := s.store.set s.iter { r with id := s.running_id },
                 overflow := s.overflow || decide (env.id_block_size < s.running_id.length + 1) }
      else s
    | none => s

/-- Lines 489-503: when `valid` is `FALSE` (the table is exhausted, or the
removal failed) or the id changes, the invoice is closed and its fixes are
added to `fixed`. -/
def close_invoice (s : FixState) : FixState :=
  if s.remove_failed = true ∨ s.store.length ≤ s.iter ∨ s.id ≠ s.running_id then
    { s with on_first_row_of_invoice := true,
             fixed := s.fixed + s.fixed_for_invoice,
             fixed_for_invoice := 0 }
  else { s with on_first_row_of_invoice := false }

/-- Lines 458-480: either remove the rows of the ignored invoice, or step to
the next row and read its id.

The removal starts with `iter = first_row_of_invoice`, the iterator saved on
the first row of the invoice. `gtk_list_store_remove` moves the iterator it is
given to the next row, but not the saved copy: once the first row has been
removed the saved iterator names no row of the store. When the invoice is
ignored again before a new first row is met (the rows that follow a removed
group and have a blank stored id continue that group), the removal loop is
entered with that iterator: `deleted` is incremented, and
`gtk_list_store_remove`, which checks the iterator it is given before it
removes anything, is modelled as finding that the iterator names no row of the
store: it removes nothing and returns `FALSE`, so the loop ends with `valid`
`FALSE` (`remove_failed`). The loop is entered because the variable `id`
equals the running id on every row that is not the first of its invoice; were
it not entered, the iterator would still name no row, and the model ends the
pass there as well. -/
def move_on (ignore_invoice : Bool) (s : FixState) : FixState :=
  if ignore_invoice then
    if s.first_row_removed then
      { s with deleted := if s.id = s.running_id then s.deleted + 1 else s.deleted,
               remove_failed := true,
               fixed_for_invoice := 0 }
    else
      let res := remove_rows s.running_id s.id (s.store.drop s.first_row_of_invoice) s.deleted
      { s with iter := s.first_row_of_invoice,
               store := s.store.take s.first_row_of_invoice ++ res.2.1,
               id := res.1,
               deleted := res.2.2,
               fixed_for_invoice := 0,
               first_row_removed := decide (s.deleted < res.2.2),
               remove_failed := false }
  else
    { s with iter := s.iter + 1,
             id := read_id s.id (s.store.drop (s.iter + 1)),
             remove_failed := false }

/-- Lines 265-276: on the first row of an invoice the header values are read
from the row, the running id is set and the iterator is saved: the saved
iterator names the row under the iterator. -/
def start_invoice (s : FixState) (r : Row) : FixState :=
  if s.on_first_row_of_invoice then
    { s with id := r.id, date_opened := r.date_opened, date_posted := r.date_posted,
             due_date := r.due_date, account_posted := r.account_posted,
             owner_id := r.owner_id, running_id := r.id,
             first_row_of_invoice := s.iter,
             first_row_removed := false }
  else s

/-- Lines 262-456: the checks of one iteration on the row `r` under the
iterator: the header checks when the row opens an invoice, then the checks of
every row. `ignore_invoice` is `FALSE` whenever an iteration starts. -/
def row_pass (env : Env) (type : String) (s : FixState) (r : Row) : Pass :=
  let p0 : Pass := { ignore_invoice := false, row_fixed := false, info := s.info, cur := r }
  let p1 : Pass := if s.on_first_row_of_invoice then validate_header env type s.row r p0 else p0
  validate_item env s.row (start_invoice s r).id (start_invoice s r).date_opened p1

/-- The state once the checks of the row are done: the row under the iterator
as the checks rewrote it, the log, and line 456. -/
def after_checks (s1 : FixState) (p : Pass) : FixState :=
  { s1 with store := s1.store.set s1.iter p.cur,
            info := p.info,
            fixed_for_invoice :=
              if p.row_fixed then s1.fixed_for_invoice + 1 else s1.fixed_for_invoice }

/-- Lines 262-510: one iteration of the loop, on the row `r` under the
iterator. -/
def fix_body (env : Env) (type : String) (s : FixState) (r : Row) : FixState :=
  let p2 := row_pass env type s r
  let s3 := close_invoice (inherit_id env (move_on p2.ignore_invoice
    (after_checks (start_invoice s r) p2)))
  { s3 with row := s3.row + 1 }

/-- The loop `while (valid)` of lines 260-511, run for at most `fuel`
iterations: `valid` is `TRUE` when the last removal did not fail and the
iterator names a row. -/
def fix_loop (env : Env) (type : String) : Nat → FixState → FixState
  | 0, s => s
  | fuel + 1, s =>
    if s.remove_failed then s
    else
      match s.store[s.iter]? with
      | some r => fix_loop env type fuel (fix_body env type s r)
      | none => s

/-- The state at the first test of the loop (lines 250-259); `info` is the log
handed in by the caller. -/
def fix_init (store : List Row) (info : String) : FixState :=
  { store := store, iter := 0, first_row_of_invoice := 0, on_first_row_of_invoice := true,
    id := "", date_opened := "", date_posted := "", due_date := "", account_posted := "",
    owner_id := "", running_id := "", row := 1, fixed_for_invoice := 0, fixed := 0,
    deleted := 0, info := info, first_row_removed := false, remove_failed := false,
    overflow := false }

/-- The validation pass `gnc_bi_import_fix_bis (store, &fixed, &deleted, info, type)`:
the final state holds the table, `fixed`, `deleted` and `info`. The loop is
run for as many iterations as the table has rows on entry, which is enough for
the test of the loop to fail (`fix_bis_finished`, `fix_bis_fuel`). -/
def gnc_bi_import_fix_bis (env : Env) (type : String) (store : List Row) (info : String) :
    FixState :=
  fix_loop env type store.length (fix_init store info)

/-! ## `un_escape` -/

/-- The quote character of `un_escape`. -/
def quote : Char := Char.ofNat 34

/-- The loop of `un_escape` (lines 904-909) on the characters before the
terminator: a quote is skipped and the character after it is copied whatever it
is; when that character is the terminator the loop stops. -/
def un_escape_chars : List Char → List Char
  | [] => []
  | c :: rest =>
    if c = quote then
      match rest with
      | [] => []
      | c2 :: rest2 => c2 :: un_escape_chars rest2
    else c :: un_escape_chars rest

/-- The function `un_escape (str)`. -/
def un_escape (str : String) : String := ⟨un_escape_chars str.data⟩

/-! ## `gnc_bi_import_create_bis` -/

/-- The calls that a run makes on the book and on the user interface, in
program order. Documents are named by their position in the book. -/
inductive Event where
  /-- The call `gncInvoiceCreate`. -/
  | created (invoice : Nat)
  /-- A run of `gtk_dialog_run` on the update dialog, with its answer. -/
  | asked (answer : update)
  /-- The call `gncBillAddEntry` / `gncInvoiceAddEntry`. -/
  | entry_added (invoice : Nat)
  /-- The call `gncInvoicePostToAccount`. -/
  | posted (invoice : Nat)
  /-- The call `gnc_ui_invoice_edit` and `gnc_plugin_page_invoice_new`. -/
  | opened (invoice : Nat)
deriving DecidableEq

/-- The variables of `gnc_bi_import_create_bis` that live across iterations,
the book, and the record of the calls made so far. `returned` is set by the
`return` of line 703. The iterator is valid when `iter` is below the length of
the store, which this function does not change. -/
structure CreateState where
  iter : Nat
  on_first_row_of_invoice : Bool
  first_row_of_invoice : Nat
  running_id : String
  update : update
  denom : Int
  book : List GncInvoice
  n_invoices_created : Nat
  n_invoices_updated : Nat
  info : String
  n_dialogs : Nat
  trace : List Event
  returned : Bool
deriving DecidableEq

/-- Modelled from the spec: the search functions `gnc_search_bill_on_id` and
`gnc_search_invoice_on_id` are not part of the translated file; "look up an
existing document by id of the configured type" is the position of the first
document of the book of that type with that id. -/
def gnc_search_on_id (bill : Bool) (id : String) : List GncInvoice → Option Nat
  | [] => none
  | inv :: rest =>
    if inv.is_bill = bill ∧ inv.id = id then some 0
    else (gnc_search_on_id bill id rest).map (· + 1)

/-- The test `gncInvoiceIsPosted (invoice)`. -/
def gncInvoiceIsPosted (inv : GncInvoice) : Bool := inv.posted.isSome

/-- Apply a setter to the document at position `idx` of the book. -/
def update_invoice (book : List GncInvoice) (idx : Nat) (f : GncInvoice → GncInvoice) :
    List GncInvoice :=
  match book[idx]? with
  | some inv => book.set idx (f inv)
  | none => book

/-- Lines 629-654: the new document built from the row. `notes` is the text
after `notes = un_escape (notes)`. -/
def new_invoice (env : Env) (bill : Bool) (r : Row) (notes : String) : GncInvoice :=
  let owner : Option GncOwnerData :=
    if bill then env.gnc_search_vendor_on_id r.owner_id
    else env.gnc_search_customer_on_id r.owner_id
  { id := r.id, is_bill := bill, owner := owner,
    currency := owner.bind (fun o => o.currency),
    date_opened := env.gnc_dmy2time64 (env.qof_scan_date r.date_opened),
    billing_id := r.billing_id, notes := notes, active := true,
    entries := [], posted := none }

/-- The value stored for a numeric text (lines 728-731): parse into a value
that starts as zero, then convert to the denominator `denom * 100`. -/
def parse_amount (env : Env) (denom : Int) (text : String) : gnc_numeric :=
  env.gnc_numeric_convert ((env.gnc_exp_parser_parse text).getD gnc_numeric_zero) (denom * 100)

/-- Lines 711-769: the entry built from the row. `notes` is the value of the
variable `notes` when line 725 is reached. -/
def new_entry (env : Env) (bill : Bool) (denom : Int) (r : Row) (notes : String) : GncEntry :=
  let desc := un_escape r.desc
  let notes := un_escape notes
  let acc := env.gnc_account_lookup_for_register r.account
  if bill then
    { date := env.qof_scan_date r.date, date_entered := env.gnc_time,
      description := desc, action := r.action,
      quantity := parse_amount env denom r.quantity,
      account := acc,
      price := parse_amount env denom r.price,
      taxable := env.text2bool r.taxable,
      taxincluded := env.text2bool r.taxincluded,
      tax_table := env.gncTaxTableLookupByName r.tax_table,
      notes := none, discount := none, disc_type := none, disc_how := none }
  else
    { date := env.qof_scan_date r.date, date_entered := env.gnc_time,
      description := desc, action := r.action,
      quantity := parse_amount env denom r.quantity,
      account := acc,
      price := parse_amount env denom r.price,
      taxable := env.text2bool r.taxable,
      taxincluded := env.text2bool r.taxincluded,
      tax_table := env.gncTaxTableLookupByName r.tax_table,
      notes := some notes,
      discount := some (parse_amount env denom r.discount),
      disc_type := some (env.text2disc_type r.disc_type),
      disc_how := some (env.text2disc_how r.disc_how) }

/-- Lines 852-858: open the document in a tab when `open_mode` asks for it. -/
def open_tab (open_mode : String) (invoice_posted : Bool) (idx : Nat) (s : CreateState) :
    CreateState :=
  if g_ascii_strcasecmp_eq open_mode "ALL"
      ∨ (g_ascii_strcasecmp_eq open_mode "NOT_POSTED" ∧ invoice_posted = false) then
    { s with trace := s.trace ++ [Event.opened idx] }
  else s

/-- Lines 782-862: the next row is for another document (or there is none):
try to post the document `idx`, with the posting values of the row `first` at
`first_row_of_invoice`. Modelled from the spec: `gncInvoicePostToAccount` is
not part of the translated file; it marks the document posted. -/
def try_post (env : Env) (bill : Bool) (open_mode : String) (first : Row) (idx : Nat)
    (s : CreateState) : CreateState :=
  let s1 : CreateState × Bool :=
    if first.date_posted ≠ "" then
      let auto_pay := if bill then env.auto_pay_bill else env.auto_pay_invoice
      match s.book[idx]? with
      | none => (s, false)
      | some inv =>
        if env.curr_count inv = 0 then
          let acc := env.gnc_account_lookup_for_register first.account_posted
          if inv.currency = env.gnc_account_get_currency_or_parent acc then
            let posting : Posting :=
              { acc := acc,
                post_date := env.gnc_dmy2time64 (env.qof_scan_date first.date_posted),
                due_date := env.gnc_dmy2time64 (env.qof_scan_date first.due_date),
                memo := first.memo_posted,
                accumulatesplits := env.text2bool first.accu_splits,
                autopay := auto_pay }
            ({ s with book := s.book.set idx { inv with posted := some posting },
                      trace := s.trace ++ [Event.posted idx],
                      info := s.info ++ "Invoice " ++ first.id ++ " posted.\n" }, true)
          else
            ({ s with info := s.info ++ "Invoice " ++ first.id ++
                        " NOT posted because currencies don't match.\n" }, false)
        else
          ({ s with info := s.info ++ "Invoice " ++ first.id ++
                      " NOT posted because it requires currency conversion.\n" }, false)
    else (s, false)
  { open_tab open_mode s1.2 idx s1.1 with on_first_row_of_invoice := true }

/-- Lines 713-714: `denom` becomes the fraction of the currency of the document
`idx`, and keeps its value when the document has no currency. -/
def current_denom (s : CreateState) (idx : Nat) : Int :=
  match (s.book[idx]?).bind (fun inv => inv.currency) with
  | some currency => currency.fraction
  | none => s.denom

/-- Lines 710-862: add the entry of row `r` to the document `idx`, step to the
next row, and close the document when the id of the next row differs from the
running id (`g_strcmp0` of a missing next row never gives 0). -/
def add_entry (env : Env) (bill : Bool) (open_mode : String) (store : List Row)
    (idx : Nat) (r : Row) (notes : String) (s : CreateState) : CreateState :=
  let denom := current_denom s idx
  let entry := new_entry env bill denom r notes
  let s1 : CreateState :=
    { s with denom := denom,
             book := update_invoice s.book idx
               (fun inv => { inv with entries := inv.entries ++ [entry] }),
             trace := s.trace ++ [Event.entry_added idx],
             iter := s.iter + 1 }
  if (store[s1.iter]?).map (fun r2 => r2.id) = some s1.running_id then
    { s1 with on_first_row_of_invoice := false }
  else
    match store[s1.first_row_of_invoice]? with
    | some first => try_post env bill open_mode first idx s1
    | none => s1

/-- Lines 612-616: on the first row of an invoice the running id is set and
the iterator is saved. -/
def start_group (s : CreateState) (r : Row) : CreateState :=
  if s.on_first_row_of_invoice then
    { s with running_id := r.id, first_row_of_invoice := s.iter }
  else s

/-- Lines 625-655: no document carries the id of the row; a new one is created
at the end of the book, `created` is counted and `update` becomes `YES`. -/
def create_invoice (env : Env) (bill : Bool) (r : Row) (s : CreateState) : CreateState :=
  { s with book := s.book ++ [new_invoice env bill r (un_escape r.notes)],
           trace := s.trace ++ [Event.created s.book.length],
           n_invoices_created := s.n_invoices_created + 1,
           update := update.YES }

/-- Lines 670-677: the dialog is run and its answer stored in `update`. -/
def ask_update (env : Env) (s : CreateState) : CreateState :=
  { s with update := env.gtk_dialog_run s.n_dialogs,
           n_dialogs := s.n_dialogs + 1,
           trace := s.trace ++ [Event.asked (env.gtk_dialog_run s.n_dialogs)] }

/-- Lines 579-862: one iteration of the loop, on the row `r` under the
iterator. `bill` is the test `g_ascii_strcasecmp (type, "BILL") == 0`; by the
guard of line 560 the type is INVOICE when it is not BILL. -/
def create_body (env : Env) (bill : Bool) (open_mode : String) (store : List Row)
    (s : CreateState) (r : Row) : CreateState :=
  let s1 := start_group s r
  match gnc_search_on_id bill r.id s1.book with
  | none =>
    add_entry env bill open_mode store s1.book.length r (un_escape r.notes)
      (create_invoice env bill r s1)
  | some idx =>
    if (s1.book[idx]?).any gncInvoiceIsPosted then
      { s1 with iter := s1.iter + 1 }
    else if s1.update ≠ update.YES then
      let s2 := ask_update env s1
      if s2.update = update.NO then { s2 with returned := true }
      else
        add_entry env bill open_mode store idx r r.notes
          { s2 with n_invoices_updated := s2.n_invoices_updated + 1 }
    else
      add_entry env bill open_mode store idx r r.notes
        { s1 with n_invoices_updated := s1.n_invoices_updated + 1 }

/-- The loop `while (valid)` of lines 577-863, run for at most `fuel`
iterations; it also ends at the `return` of line 703. -/
def create_loop (env : Env) (bill : Bool) (open_mode : String) (store : List Row) :
    Nat → CreateState → CreateState
  | 0, s => s
  | fuel + 1, s =>
    if s.returned then s
    else
      match store[s.iter]? with
      | some r => create_loop env bill open_mode store fuel (create_body env bill open_mode store s r)
      | none => s

/-- The state at the first test of the loop (lines 568-576), on the book and
the log handed in by the caller. -/
def create_init (book : List GncInvoice) (info : String) : CreateState :=
  { iter := 0, on_first_row_of_invoice := true, first_row_of_invoice := 0,
    running_id := "", update := update.NO, denom := 0, book := book,
    n_invoices_created := 0, n_invoices_updated := 0, info := info,
    n_dialogs := 0, trace := [], returned := false }

/-- The reconciliation pass `gnc_bi_import_create_bis (store, book, &created,
&updated, type, open_mode, info, parent)`. The guard of line 560 returns at
once (`none`) when the type is neither INVOICE nor BILL. Every iteration
steps to the next row or returns, so `store.length` iterations are enough
(`create_bis_finished`). -/
def gnc_bi_import_create_bis (env : Env) (store : List Row) (book : List GncInvoice)
    (type open_mode info : String) : Option CreateState :=
  if g_ascii_strcasecmp_eq type "INVOICE" ∨ g_ascii_strcasecmp_eq type "BILL" then
    some (create_loop env (g_ascii_strcasecmp_eq type "BILL") open_mode store store.length
      (create_init book info))
  else none

/-! ## Vocabulary of the properties -/

/-- The row `b` is the row `a` with, at most, the columns `due_date` and
`date_opened` rewritten. -/
def HeaderFrame (a b : Row) : Prop :=
  b = { a with due_date := b.due_date, date_opened := b.date_opened }

/-- The row `b` is the row `a` with, at most, the columns `due_date`,
`date_opened`, `quantity` and `date` rewritten. -/
def RepairFrame (a b : Row) : Prop :=
  b = { a with due_date := b.due_date, date_opened := b.date_opened,
               quantity := b.quantity, date := b.date }

/-- The table in which every blank id has taken the id of the preceding row,
`prev` being the id that precedes the first row: a non-blank id is kept, a
blank one becomes the nearest preceding non-blank id. -/
def effective_ids (prev : String) : List Row → List Row
  | [] => []
  | r :: rs =>
    { r with id := if r.id = "" then prev else r.id } ::
      effective_ids (if r.id = "" then prev else r.id) rs

/-- The row under the iterator with its blank id replaced by the running id. -/
def inherit_head (rid : String) : List Row → List Row
  | [] => []
  | x :: xs => { x with id := if x.id = "" then rid else x.id } :: xs

/-- The invariant of the validation loop at its test, on a row that continues
an invoice: the variable `id` is the running id, the row under the iterator
carries it, and, while the first row of the invoice is still in the table, so
do the rows from that first row to the iterator. -/
def WalkInv (s : FixState) : Prop :=
  s.on_first_row_of_invoice = false →
    s.id = s.running_id ∧ (∀ r, s.store[s.iter]? = some r → r.id = s.running_id) ∧
    (s.first_row_removed = false → s.first_row_of_invoice ≤ s.iter ∧
      ∀ x ∈ (s.store.take s.iter).drop s.first_row_of_invoice, x.id = s.running_id)

/-! ## Sample data -/

/-- A row with every column blank. -/
def blank_row : Row :=
  ⟨"", "", "", "", "", "", "", "", "", "", "", "", "", "", "", "", "", "", "", "", "", ""⟩

/-- The currency of the sample book. -/
def usd : gnc_commodity := ⟨"USD", 100⟩

/-- A second currency. -/
def eur : gnc_commodity := ⟨"EUR", 100⟩

/-- A sample book: customer "cust1" and vendor "vend1" (both in USD), the
accounts "Sales", "AR" (receivable, USD), "AR-EUR" (receivable, EUR) and "AP"
(payable); a date is valid when it has ten characters, today is
"2024-02-02"; no document has a foreign currency; the dialog answers yes; the
block of a blank id takes 24 bytes. -/
def sample_env : Env where
  gnc_search_vendor_on_id := fun s => if s = "vend1" then some ⟨"vend1", some usd⟩ else none
  gnc_search_customer_on_id := fun s => if s = "cust1" then some ⟨"cust1", some usd⟩ else none
  gnc_account_lookup_for_register := fun s =>
    if s = "Sales" then some ⟨"Sales", GNCAccountType.ACCT_TYPE_OTHER⟩
    else if s = "AR" then some ⟨"AR", GNCAccountType.ACCT_TYPE_RECEIVABLE⟩
    else if s = "AR-EUR" then some ⟨"AR-EUR", GNCAccountType.ACCT_TYPE_RECEIVABLE⟩
    else if s = "AP" then some ⟨"AP", GNCAccountType.ACCT_TYPE_PAYABLE⟩
    else none
  isDateValid := fun s => s.length = 10
  today := "2024-02-02"
  qof_scan_date := fun _ => (1, 1, 2024)
  gnc_dmy2time64 := fun _ => 0
  gnc_time := 0
  gnc_exp_parser_parse := fun _ => none
  gnc_numeric_convert := fun v d => ⟨v.num * d / v.denom, d⟩
  text2bool := fun _ => false
  text2disc_type := fun _ => 0
  text2disc_how := fun _ => 0
  gncTaxTableLookupByName := fun _ => none
  auto_pay_invoice := false
  auto_pay_bill := false
  gnc_account_get_currency_or_parent := fun a =>
    a.map (fun acc => if acc.name = "AR-EUR" then eur else usd)
  curr_count := fun _ => 0
  gtk_dialog_run := fun _ => update.YES
  id_block_size := 24

/-- A valid invoice line for customer "cust1": id "INV1", price "10.00",
account "Sales", quantity "1", valid dates, no posting requested. -/
def line1 : Row :=
  { blank_row with id := "INV1", owner_id := "cust1", date_opened := "2024-01-01",
                   date := "2024-01-01", account := "Sales", quantity := "1",
                   price := "10.00" }

/-- A valid continuation line: blank id, price "5.00", account "Sales". -/
def line2 : Row :=
  { blank_row with date := "2024-01-02", account := "Sales", quantity := "2",
                   price := "5.00" }

/-- The line `line1` with its price left blank. -/
def line1_no_price : Row := { line1 with price := "" }

/-- The continuation line `line2` with its quantity left blank. -/
def line2_no_quantity : Row := { line2 with quantity := "" }

/-- The line `line1` with `date_opened` and `date` left blank. -/
def line1_no_dates : Row := { line1 with date_opened := "", date := "" }

/-- The invoice "INV1" of customer "cust1", in USD, with no entry and not
posted, as it stands in a book before a run. -/
def inv1_open : GncInvoice :=
  { id := "INV1", is_bill := false, owner := some ⟨"cust1", some usd⟩, currency := some usd,
    date_opened := 0, billing_id := "", notes := "", active := true, entries := [],
    posted := none }

/-- The invoice "INV1" already posted to the account "AR". -/
def inv1_posted : GncInvoice :=
  { inv1_open with
    posted := some { acc := some ⟨"AR", GNCAccountType.ACCT_TYPE_RECEIVABLE⟩, post_date := 0,
                     due_date := 0, memo := "", accumulatesplits := false, autopay := false } }

/-- A valid line of a new invoice "INV2" of customer "cust1". -/
def line_inv2 : Row := { line1 with id := "INV2" }

/-- The line `line1` asking for posting on "2024-01-31" to the account "AR". -/
def line1_post : Row :=
  { line1 with date_posted := "2024-01-31", due_date := "2024-02-29", account_posted := "AR" }

/-- The sample book with a dialog that answers no. -/
def sample_env_no : Env := { sample_env with gtk_dialog_run := fun _ => update.NO }

/-- The sample book with a dialog that is closed without an answer, every time
it is run. -/
def sample_env_closed : Env :=
  { sample_env with gtk_dialog_run := fun _ => GTK_RESPONSE_DELETE_EVENT }

/-- The continuation line `line2` with the id "INV1" written in, as the
validation pass leaves it. -/
def line2_inv1 : Row := { line2 with id := "INV1" }

/-- The line `line2` with its price left blank. -/
def line2_no_price : Row := { line2 with price := "" }

/-- The line `line2` with an account that the sample book does not have. -/
def line2_no_account : Row := { line2 with account := "Nowhere" }

/-- An id of 24 characters: with its terminating zero it takes 25 bytes. -/
def long_id : String := "INV-2024-000000000000001"

/-- The line `line1` with the id `long_id`. -/
def line1_long_id : Row := { line1 with id := long_id }

/-- The line `line1` with `date_opened` left blank (its `date` is valid). -/
def line1_no_opened : Row := { line1 with date_opened := "" }

/-- The continuation line `line2` with `date` left blank. -/
def line2_no_date : Row := { line2 with date := "" }

/-- The diagnostic line of the first header check that fails on the row `r`
processed as row number `row`: blank id, blank owner id, or owner not found. -/
def header_reason (type : String) (row : Nat) (r : Row) : String :=
  if r.id = "" then
    "Row " ++ toString row ++ ": invoice ignored, invoice ID not set.\n"
  else if r.owner_id = "" then
    "Row " ++ toString row ++ ": invoice " ++ r.id ++ " ignored, owner not set.\n"
  else if g_ascii_strcasecmp_eq type "BILL" then
    "Row " ++ toString row ++ ": invoice " ++ r.id ++ " ignored, vendor " ++ r.owner_id ++
      " does not exist.\n"
  else
    "Row " ++ toString row ++ ": invoice " ++ r.id ++ " ignored, customer " ++ r.owner_id ++
      " does not exist.\n"

/-- The posting checks of lines 326-373 reject the first row `r`: `date_posted`
is not a valid date, or `account_posted` does not resolve to an account, or
the account is not payable (type BILL) / not receivable (type INVOICE). -/
def posting_rejected (env : Env) (type : String) (r : Row) : Bool :=
  !env.isDateValid r.date_posted ||
  match env.gnc_account_lookup_for_register r.account_posted with
  | none => true
  | some acc =>
    (g_ascii_strcasecmp_eq type "BILL" && acc.type != GNCAccountType.ACCT_TYPE_PAYABLE) ||
    (!g_ascii_strcasecmp_eq type "BILL" && g_ascii_strcasecmp_eq type "INVOICE" &&
      acc.type != GNCAccountType.ACCT_TYPE_RECEIVABLE)

/-- The line `line1` with its owner id left blank. -/
def line1_no_owner : Row := { line1 with owner_id := "" }

/-- The line `line1_post` with a due date that is not a valid date. -/
def line1_post_no_due : Row := { line1_post with due_date := "" }

/-- The documents, by position in the book, to which the recorded calls added
an entry, in the order of the calls. -/
def entries_added : List Event → List Nat
  | [] => []
  | Event.entry_added i :: t => i :: entries_added t
  | _ :: t => entries_added t

/-- A text of one quote character. -/
def dq : String := String.mk [quote]

/-- The line `line1` with the notes `5"" pipe`, a quote escaped by doubling. -/
def line1_quoted_notes : Row := { line1 with notes := "5" ++ dq ++ dq ++ " pipe" }

/-- The line `line1_quoted_notes` as a line of a bill of vendor "vend1". -/
def bill_quoted_notes : Row := { line1_quoted_notes with owner_id := "vend1" }

/-- The result codes returned by `gnc_bi_import_read_file` (lines 102, 133,
216). -/
inductive bi_import_result where
  | RESULT_OK
  | RESULT_OPEN_FAILED
  | RESULT_ERROR_IN_REGEXP
deriving DecidableEq

/-- The statistics `bi_import_stats`, with the three fields the function
writes (lines 137-139). The counters are machine integers compared with the
unsigned `max_rows`; they count lines of the file and are modelled unbounded. -/
structure bi_import_stats where
  n_imported : Nat
  n_ignored : Nat
  ignored_lines : String
deriving DecidableEq

/-- A successful match `GMatchInfo`, seen through `g_match_info_fetch_named`:
the text of a named group, `none` (NULL) when the pattern has no group of
that name. -/
abbrev GMatchInfo := String → Option String

/-- A compiled pattern `GRegex`, seen through `g_regex_match` on a text. -/
abbrev GRegex := String → Option GMatchInfo

/-- The collaborators of `gnc_bi_import_read_file`: `g_fopen` gives the
characters of the file, or `none` when it cannot be opened; `g_regex_new` gives
the compiled pattern or the message of the error; `g_locale_to_utf8` gives the
converted text, or `none` (NULL) when the conversion fails. -/
structure ReadEnv where
  g_fopen : String → Option (List Char)
  g_regex_new : String → Except String GRegex
  g_locale_to_utf8 : String → Option String

/-- The stream `FILE`: the characters not read yet and the end-of-file
indicator tested by `feof`. -/
structure FILE where
  rest : List Char
  eof : Bool
deriving DecidableEq

/-- The newline character. -/
def newline : Char := Char.ofNat 10

/-- The size of the line buffer (line 140). -/
def buffer_size : Nat := 1000

/-- The characters `fgets` stores when it may store `n` more: it stops after a
newline, after `n` characters, or at the end of the stream. The result is the
characters stored, the characters left in the stream, and whether the end of
the stream was hit. -/
def fgets_chars : Nat → List Char → List Char × List Char × Bool
  | 0, cs => ([], cs, false)
  | _ + 1, [] => ([], [], true)
  | n + 1, c :: cs =>
    if c = newline then ([c], cs, false)
    else ((c :: (fgets_chars n cs).1), (fgets_chars n cs).2.1, (fgets_chars n cs).2.2)

/-- The call `fgets (line, size, f)`: at most `size - 1` characters; NULL
(`none`) when the end of the stream is hit before any character is stored. -/
def fgets (size : Nat) (f : FILE) : Option String × FILE :=
  let r := fgets_chars (size - 1) f.rest
  if r.1 = [] then (none, { rest := r.2.1, eof := f.eof || r.2.2 })
  else (some (String.mk r.1), { rest := r.2.1, eof := f.eof || r.2.2 })

/-- Lines 151-153: strip the newline from the end of the line. -/
def strip_newline (line : String) : String :=
  if line.data.getLast? = some newline then String.mk line.data.dropLast else line

/-- The test `g_ascii_isspace` of glib: space (32), tab (9), newline (10), form
feed (12) and carriage return (13); unlike `isspace` of the C library it is
false of the vertical tab (11). -/
def g_ascii_isspace (c : Char) : Bool :=
  c.toNat = 32 || c.toNat = 9 || c.toNat = 10 || c.toNat = 12 || c.toNat = 13

/-- The call `g_strstrip`: leading and trailing white space removed. -/
def g_strstrip (s : String) : String :=
  String.mk ((s.data.dropWhile g_ascii_isspace).reverse.dropWhile g_ascii_isspace).reverse

/-- A row of the list store as `gnc_bi_import_read_file` fills it: a cell is
unset (`none`; `gtk_tree_model_get` reads it back as NULL) until
`gtk_list_store_set` gives it a text. The columns are those of `Row`. -/
structure StoreRow where
  id : Option String
  date_opened : Option String
  owner_id : Option String
  billing_id : Option String
  notes : Option String
  date : Option String
  desc : Option String
  action : Option String
  account : Option String
  quantity : Option String
  price : Option String
  disc_type : Option String
  disc_how : Option String
  discount : Option String
  taxable : Option String
  taxincluded : Option String
  tax_table : Option String
  date_posted : Option String
  due_date : Option String
  account_posted : Option String
  memo_posted : Option String
  accu_splits : Option String
deriving DecidableEq

/-- The row that `gtk_list_store_append` adds: every cell unset. -/
def unset_row : StoreRow :=
  { id := none,
    date_opened := none,
    owner_id := none,
    billing_id := none,
    notes := none,
    date := none,
    desc := none,
    action := none,
    account := none,
    quantity := none,
    price := none,
    disc_type := none,
    disc_how := none,
    discount := none,
    taxable := none,
    taxincluded := none,
    tax_table := none,
    date_posted := none,
    due_date := none,
    account_posted := none,
    memo_posted := none,
    accu_splits := none }

/-- The row of the store whose cells are all set, to the texts of `r`. -/
def StoreRow.of_row (r : Row) : StoreRow :=
  { id := some r.id,
    date_opened := some r.date_opened,
    owner_id := some r.owner_id,
    billing_id := some r.billing_id,
    notes := some r.notes,
    date := some r.date,
    desc := some r.desc,
    action := some r.action,
    account := some r.account,
    quantity := some r.quantity,
    price := some r.price,
    disc_type := some r.disc_type,
    disc_how := some r.disc_how,
    discount := some r.discount,
    taxable := some r.taxable,
    taxincluded := some r.taxincluded,
    tax_table := some r.tax_table,
    date_posted := some r.date_posted,
    due_date := some r.due_date,
    account_posted := some r.account_posted,
    memo_posted := some r.memo_posted,
    accu_splits := some r.accu_splits }

/-- The macro `FILL_IN_HELPER` (lines 67-74) on the cell `cell` of the row
under `iter`: when the match has a group of that name the cell is set to the
stripped text of the group (an empty text included); when the pattern has no
such group (`temp` is NULL) the macro does nothing and the cell is left as it
was. -/
def FILL_IN_HELPER (match_info : GMatchInfo) (match_name : String) (cell : Option String) :
    Option String :=
  match match_info match_name with
  | some temp => some (g_strstrip temp)
  | none => cell

/-- Lines 166-190: the row appended for a match, `gtk_list_store_append` and
the twenty-two uses of the macro. -/
def fill_in (match_info : GMatchInfo) : StoreRow :=
  { id := FILL_IN_HELPER match_info "id" unset_row.id,
    date_opened := FILL_IN_HELPER match_info "date_opened" unset_row.date_opened,
    owner_id := FILL_IN_HELPER match_info "owner_id" unset_row.owner_id,
    billing_id := FILL_IN_HELPER match_info "billing_id" unset_row.billing_id,
    notes := FILL_IN_HELPER match_info "notes" unset_row.notes,
    date := FILL_IN_HELPER match_info "date" unset_row.date,
    desc := FILL_IN_HELPER match_info "desc" unset_row.desc,
    action := FILL_IN_HELPER match_info "action" unset_row.action,
    account := FILL_IN_HELPER match_info "account" unset_row.account,
    quantity := FILL_IN_HELPER match_info "quantity" unset_row.quantity,
    price := FILL_IN_HELPER match_info "price" unset_row.price,
    disc_type := FILL_IN_HELPER match_info "disc_type" unset_row.disc_type,
    disc_how := FILL_IN_HELPER match_info "disc_how" unset_row.disc_how,
    discount := FILL_IN_HELPER match_info "discount" unset_row.discount,
    taxable := FILL_IN_HELPER match_info "taxable" unset_row.taxable,
    taxincluded := FILL_IN_HELPER match_info "taxincluded" unset_row.taxincluded,
    tax_table := FILL_IN_HELPER match_info "tax_table" unset_row.tax_table,
    date_posted := FILL_IN_HELPER match_info "date_posted" unset_row.date_posted,
    due_date := FILL_IN_HELPER match_info "due_date" unset_row.due_date,
    account_posted := FILL_IN_HELPER match_info "account_posted" unset_row.account_posted,
    memo_posted := FILL_IN_HELPER match_info "memo_posted" unset_row.memo_posted,
    accu_splits := FILL_IN_HELPER match_info "accu_splits" unset_row.accu_splits }

/-- The state of the loop of lines 142-204: the stream, the table, the
statistics, and a record of the reading: the number of calls of `fgets` and
the lines it gave, newline stripped, in order. -/
structure ReadState where
  f : FILE
  store : List StoreRow
  stats : bi_import_stats
  n_fgets : Nat
  lines : List String

/-- Line 160: the match of the converted line. A line whose conversion failed
is handed to `g_regex_match` as NULL, which reports no match. -/
def line_match (env : ReadEnv) (regexpat : GRegex) (line : String) : Option GMatchInfo :=
  (env.g_locale_to_utf8 line).bind regexpat

/-- Lines 196-197: the text added to `ignored_lines` for a line that is not
matched: the converted line (nothing when the conversion failed, as
`g_string_append` does for NULL) and a newline. -/
def ignored_text (env : ReadEnv) (line : String) : String :=
  (env.g_locale_to_utf8 line).getD "" ++ "\n"

/-- Lines 150-203: the body of the loop on the line `fgets` stored. -/
def read_body (env : ReadEnv) (regexpat : GRegex) (line : String) (st : ReadState) :
    ReadState :=
  let line := strip_newline line
  match line_match env regexpat line with
  | some match_info =>
    { st with
      stats := { st.stats with n_imported := st.stats.n_imported + 1 },
      store := st.store ++ [fill_in match_info],
      lines := st.lines ++ [line] }
  | none =>
    { st with
      stats := { st.stats with
        n_ignored := st.stats.n_ignored + 1,
        ignored_lines := st.stats.ignored_lines ++ ignored_text env line },
      lines := st.lines ++ [line] }

/-- Lines 142-204: the loop. Every turn that goes on takes at least one
character from the stream; `none` when the fuel runs out. -/
def read_loop (env : ReadEnv) (regexpat : GRegex) (max_rows : Nat) :
    Nat → ReadState → Option ReadState
  | 0, _ => none
  | fuel + 1, st =>
    if st.f.eof = false ∧
        (max_rows = 0 ∨ st.stats.n_imported + st.stats.n_ignored < max_rows) then
      match (fgets buffer_size st.f).1 with
      | none => some { st with f := (fgets buffer_size st.f).2, n_fgets := st.n_fgets + 1 }
      | some line =>
        read_loop env regexpat max_rows fuel
          (read_body env regexpat line
            { st with f := (fgets buffer_size st.f).2, n_fgets := st.n_fgets + 1 })
    else some st

/-- What a call of `gnc_bi_import_read_file` leaves: the result code, the
table, the statistics of the caller (`none` when the caller passed NULL), the
message of the error dialog if one was shown, and the record of the reading. -/
structure ReadOutcome where
  result : bi_import_result
  store : List StoreRow
  stats : Option bi_import_stats
  dialog : Option String
  n_fgets : Nat
  lines : List String

/-- The apostrophe of the error message. -/
def sq : String := String.mk [Char.ofNat 39]

/-- Lines 78-217. `stats` is the statistics of the caller before the call,
`none` for a NULL pointer: the function then counts in `stats_fallback`, which
the caller never sees. -/
def gnc_bi_import_read_file (env : ReadEnv) (filename parser_regexp : String)
    (store : List StoreRow) (max_rows : Nat) (stats : Option bi_import_stats) :
    Option ReadOutcome :=
  match env.g_fopen filename with
  | none =>
    some { result := bi_import_result.RESULT_OPEN_FAILED, store := store, stats := stats,
           dialog := none, n_fgets := 0, lines := [] }
  | some content =>
    match env.g_regex_new parser_regexp with
    | Except.error message =>
      some { result := bi_import_result.RESULT_ERROR_IN_REGEXP, store := store, stats := stats,
             dialog := some ("Error in regular expression " ++ sq ++ parser_regexp ++ sq ++
               ":\n" ++ message),
             n_fgets := 0, lines := [] }
    | Except.ok regexpat =>
      (read_loop env regexpat max_rows (content.length + 1)
          { f := { rest := content, eof := false }, store := store,
            stats := { n_imported := 0, n_ignored := 0, ignored_lines := "" },
            n_fgets := 0, lines := [] }).map
        (fun st =>
          { result := bi_import_result.RESULT_OK, store := st.store,
            stats := stats.map (fun _ => st.stats), dialog := none,
            n_fgets := st.n_fgets, lines := st.lines })

/-! ### The file as a sequence of lines -/

/-- The lines `line_match` accepts give the rows, in order. -/
def rows_of (env : ReadEnv) (regexpat : GRegex) (lines : List String) : List StoreRow :=
  lines.filterMap (fun l => (line_match env regexpat l).map fill_in)

/-- The lines the pattern does not match, in order. -/
def unmatched (env : ReadEnv) (regexpat : GRegex) (lines : List String) : List String :=
  lines.filter (fun l => (line_match env regexpat l).isNone)

/-- The text of `ignored_lines` for the lines examined: the text of every
unmatched line, in order. -/
def ignored_of (env : ReadEnv) (regexpat : GRegex) (lines : List String) : String :=
  String.join ((unmatched env regexpat lines).map (ignored_text env))

/-- The characters of a file of the lines `lines`, each ended by a newline,
followed by the characters `last` after the last newline. -/
def file_of (lines : List String) (last : String) : List Char :=
  (lines.map (fun l => l.data ++ [newline])).flatten ++ last.data

/-- The lines of such a file: `lines`, and `last` when it is not empty. -/
def lines_of (lines : List String) (last : String) : List String :=
  lines ++ (if last = "" then [] else [last])

/-- A line fits the buffer: it has no newline inside and, with its newline, is
shorter than the buffer. -/
def fits_buffer (l : String) : Prop :=
  newline ∉ l.data ∧ l.length + 1 < buffer_size

instance fits_buffer_decidable (l : String) : Decidable (fits_buffer l) := by
  unfold fits_buffer
  infer_instance

/-- The lines examined with the limit `max_rows`. -/
def examined (max_rows : Nat) (lines : List String) : List String :=
  if max_rows = 0 then lines else lines.take max_rows

/-- The lines left to examine when `done` lines are counted. -/
def budget (max_rows done : Nat) (lines : List String) : List String :=
  if max_rows = 0 then lines else lines.take (max_rows - done)

/-- A sample pattern: a line starting with the letter x is not matched; any
other line is matched, and the group "id" is the whole line. -/
def sample_regex : GRegex := fun line =>
  if line.data.head? = some 'x' then none
  else some (fun name => if name = "id" then some line else none)

/-- A sample file system and pattern compiler: one file "bills.csv" of three
lines, the pattern "(" does not compile, and every line converts to itself. -/
def sample_read_env : ReadEnv :=
  { g_fopen := fun name => if name = "bills.csv" then some " INV1 \nxx\nINV2\n".data else none,
    g_regex_new := fun p =>
      if p = "(" then Except.error "missing )" else Except.ok sample_regex,
    g_locale_to_utf8 := fun s => some s }

/-- A line of 999 letters: with its newline it has the size of the line
buffer. -/
def long_line : String := String.mk (List.replicate 999 'a')

/-- The sample collaborators with one more file, "long.csv", of two lines: the
line of 999 letters and the line "b". -/
def long_read_env : ReadEnv :=
  { sample_read_env with
    g_fopen := fun name =>
      if name = "long.csv" then some (file_of [long_line, "b"] "")
      else sample_read_env.g_fopen name }

/-- Statistics left by an earlier call. -/
def old_stats : bi_import_stats := { n_imported := 3, n_ignored := 4, ignored_lines := "old\n" }

/-- The text `t` is the text `s` without the white space around it. -/
def trimmed_of (s t : String) : Prop :=
  (∃ a b : List Char, s.data = a ++ t.data ++ b ∧
    (∀ c ∈ a, g_ascii_isspace c = true) ∧ (∀ c ∈ b, g_ascii_isspace c = true)) ∧
  (∀ c, t.data.head? = some c → g_ascii_isspace c = false) ∧
  (∀ c, t.data.getLast? = some c → g_ascii_isspace c = false)

/-- The escaping that `un_escape` undoes: every quote character of the text is
replaced by two quote characters. -/
def double_quotes : List Char → List Char
  | [] => []
  | c :: cs => if c = quote then quote :: quote :: double_quotes cs else c :: double_quotes cs

/-- The answers of the update dialog in the recorded calls, in order. -/
def asked_answers : List Event → List update
  | [] => []
  | Event.asked a :: t => a :: asked_answers t
  | _ :: t => asked_answers t

/-- The invariant of the reconciliation loop on the update dialog: the dialog
was not run yet; or it was run once and answered yes, and `update` is `YES`;
or it was run once and answered no, which was the last call and made the
function return. -/
def AskInv (s : CreateState) : Prop :=
  s.n_dialogs = (asked_answers s.trace).length ∧
  ((asked_answers s.trace = [] ∧ s.returned = false) ∨
   (asked_answers s.trace = [update.YES] ∧ s.update = update.YES ∧ s.returned = false) ∨
   (asked_answers s.trace = [update.NO] ∧ s.returned = true ∧
     ∃ before, s.trace = before ++ [Event.asked update.NO]))

/-- The terminator of a C string. -/
def NUL : Char := Char.ofNat 0

/-- The byte of the string at offset `k`, for the memory `mem` that starts at
`str`: the characters of the string and then its terminator. -/
def peek (mem : List Char) (k : Nat) : Char := mem.getD k NUL

/-- The function `strlen`: the number of characters before the terminator. -/
def strlen (mem : List Char) : Nat := (mem.takeWhile (fun c => c != NUL)).length

/-- The C string held by a memory block: the characters before the terminator. -/
def c_string (mem : List Char) : List Char := mem.takeWhile (fun c => c != NUL)

/-- The variables of the loop of `un_escape` (lines 904-909): the index `i`,
the pointer `tmpstr` as an offset from `str`, the block `newStr`, and a record
of the offsets of `str` that were read and of the offsets of `newStr` that
were written. -/
structure UnEscape where
  i : Nat
  tmpstr : Nat
  newStr : List Char
  reads : List Nat
  writes : List Nat
deriving DecidableEq

/-- Lines 906-908: one turn of the loop, entered when `*tmpstr` is not the
terminator. The assignment reads `*tmpstr`, steps over a quote and reads the
next byte, and writes `newStr[i]`; the test of line 907 reads `*tmpstr` again.
The result holds the state and whether the `break` was taken. -/
def un_escape_body (mem : List Char) (s : UnEscape) : UnEscape × Bool :=
  let p : Nat := if peek mem s.tmpstr = quote then s.tmpstr + 1 else s.tmpstr
  let s1 : UnEscape :=
    { s with tmpstr := p,
             newStr := s.newStr.set s.i (peek mem p),
             reads := s.reads ++ [s.tmpstr, p, p],
             writes := s.writes ++ [s.i] }
  if peek mem p = NUL then (s1, true)
  else ({ s1 with i := s1.i + 1, tmpstr := s1.tmpstr + 1 }, false)

/-- The loop `for (i = 0; *tmpstr != '\0'; ++i, ++tmpstr)` of lines 904-909,
run for at most `fuel` turns; `none` when the fuel runs out. -/
def un_escape_loop (mem : List Char) : Nat → UnEscape → Option UnEscape
  | 0, _ => none
  | fuel + 1, s =>
    if peek mem s.tmpstr = NUL then some { s with reads := s.reads ++ [s.tmpstr] }
    else
      match un_escape_body mem { s with reads := s.reads ++ [s.tmpstr] } with
      | (s1, true) => some s1
      | (s1, false) => un_escape_loop mem fuel s1

/-- The function `un_escape` on the memory that holds the string (lines
895-912): `newStr` is a block of `n + 1` zero bytes, `n` being `strlen (str)`,
and the loop runs from `i = 0`, `tmpstr = str`. Every turn moves `tmpstr`
forward, so `n + 1` turns are enough. -/
def un_escape_run (mem : List Char) : Option UnEscape :=
  un_escape_loop mem (strlen mem + 1)
    { i := 0, tmpstr := 0, newStr := List.replicate (strlen mem + 1) NUL,
      reads := [], writes := [] }

/-! # Properties -/

theorem yes_ne_no : update.YES ≠ update.NO := by decide

theorem delete_event_ne : GTK_RESPONSE_DELETE_EVENT ≠ update.YES ∧
    GTK_RESPONSE_DELETE_EVENT ≠ update.NO := by decide

/-! ## The checks of one row -/

theorem HeaderFrame.refl (a : Row) : HeaderFrame a a := by
  cases a; simp [HeaderFrame]

theorem HeaderFrame.trans {a b c : Row} (h1 : HeaderFrame a b) (h2 : HeaderFrame b c) :
    HeaderFrame a c := by
  unfold HeaderFrame at *
  rw [h2, h1]

theorem check_id_owner_spec (row : Nat) (id owner_id : String) (p : Pass) :
    (check_id_owner row id owner_id p).cur = p.cur ∧
    ((check_id_owner row id owner_id p).ignore_invoice = false →
      p.ignore_invoice = false ∧ id ≠ "") := by
  unfold check_id_owner
  by_cases h1 : id = "" <;> by_cases h2 : owner_id = "" <;>
    cases h3 : p.ignore_invoice <;> simp [h1, h2, h3]

theorem check_owner_exists_spec (env : Env) (type : String) (row : Nat) (id owner_id : String)
    (p : Pass) :
    (check_owner_exists env type row id owner_id p).cur = p.cur ∧
    ((check_owner_exists env type row id owner_id p).ignore_invoice = false →
      p.ignore_invoice = false) := by
  unfold check_owner_exists
  cases h3 : p.ignore_invoice <;> simp [h3]
  split_ifs <;> simp [h3]

theorem check_posting_spec (env : Env) (type : String) (row : Nat)
    (id date_posted account_posted due_date : String) (p : Pass) :
    HeaderFrame p.cur (check_posting env type row id date_posted account_posted due_date p).cur ∧
    ((check_posting env type row id date_posted account_posted due_date p).ignore_invoice = false →
      p.ignore_invoice = false) := by
  unfold check_posting fix_due_date check_account_posted check_date_posted
  cases h3 : p.ignore_invoice <;> simp [h3, HeaderFrame.refl]
  split_ifs <;> (try split) <;> (try split_ifs) <;> simp_all [HeaderFrame]

theorem fix_date_opened_spec (env : Env) (date_opened : String) (p : Pass) :
    HeaderFrame p.cur (fix_date_opened env date_opened p).cur ∧
    (fix_date_opened env date_opened p).ignore_invoice = p.ignore_invoice := by
  unfold fix_date_opened
  split_ifs <;> simp [HeaderFrame]

/-- The header checks rewrite at most `due_date` and `date_opened`, and a
header that is not ignored has an id. -/
theorem validate_header_spec (env : Env) (type : String) (row : Nat) (r : Row) (p : Pass) :
    HeaderFrame p.cur (validate_header env type row r p).cur ∧
    ((validate_header env type row r p).ignore_invoice = false →
      p.ignore_invoice = false ∧ r.id ≠ "") := by
  unfold validate_header
  have h1 := check_id_owner_spec row r.id r.owner_id p
  have h2 := check_owner_exists_spec env type row r.id r.owner_id
    (check_id_owner row r.id r.owner_id p)
  have h3 := check_posting_spec env type row r.id r.date_posted r.account_posted r.due_date
    (check_owner_exists env type row r.id r.owner_id (check_id_owner row r.id r.owner_id p))
  have h4 := fix_date_opened_spec env r.date_opened
    (check_posting env type row r.id r.date_posted r.account_posted r.due_date
      (check_owner_exists env type row r.id r.owner_id (check_id_owner row r.id r.owner_id p)))
  constructor
  · have e : HeaderFrame p.cur
        (check_posting env type row r.id r.date_posted r.account_posted r.due_date
          (check_owner_exists env type row r.id r.owner_id
            (check_id_owner row r.id r.owner_id p))).cur := by
      have := h3.1
      rw [h2.1, h1.1] at this
      exact this
    exact e.trans h4.1
  · intro h
    rw [h4.2] at h
    exact h1.2 (h2.2 (h3.2 h))

/-- The checks of every row: when the row is not ignored, the price is set,
the account exists, and the row is rewritten in `quantity` (blank to "1") and
`date` only; the id is never touched. -/
theorem validate_item_spec (env : Env) (row : Nat) (id date_opened : String) (p : Pass) :
    (validate_item env row id date_opened p).cur.id = p.cur.id ∧
    ((validate_item env row id date_opened p).ignore_invoice = false →
      p.ignore_invoice = false ∧ p.cur.price ≠ "" ∧
      (env.gnc_account_lookup_for_register p.cur.account).isSome = true ∧
      (validate_item env row id date_opened p).cur =
        { p.cur with quantity := if p.cur.quantity = "" then "1" else p.cur.quantity,
                     date := (validate_item env row id date_opened p).cur.date }) := by
  unfold validate_item fix_item check_account check_price
  cases h3 : p.ignore_invoice <;> by_cases h1 : p.cur.price = "" <;>
    by_cases h2 : p.cur.quantity = "" <;>
    cases h4 : (env.gnc_account_lookup_for_register p.cur.account) <;>
    cases h5 : env.isDateValid p.cur.date <;> simp [h1, h2, h3, h4, h5]

/-! ## The removal loop and the effective ids -/

/-- The removal loop drops the leading rows that carry the running id, counts
them, and leaves in `id` the id of the first row it keeps. -/
theorem remove_rows_spec (rid : String) : ∀ (L : List Row) (id : String) (d : Nat),
    (∀ x, L.head? = some x → id = x.id) →
    (remove_rows rid id L d).2.1 = L.dropWhile (fun x => decide (x.id = rid)) ∧
    (remove_rows rid id L d).2.2 + (remove_rows rid id L d).2.1.length = d + L.length ∧
    (∀ y, (L.dropWhile (fun x => decide (x.id = rid))).head? = some y →
      (remove_rows rid id L d).1 = y.id) ∧
    (L.dropWhile (fun x => decide (x.id = rid)) = [] → L ≠ [] →
      (remove_rows rid id L d).1 = rid) := by
  intro L
  induction L with
  | nil => intro id d _; simp [remove_rows]
  | cons x rest ih =>
    intro id d h
    have hx : id = x.id := h x rfl
    subst hx
    by_cases e : x.id = rid
    · have hnext : ∀ y, rest.head? = some y → read_id x.id rest = y.id := by
        intro y hy
        cases rest with
        | nil => simp at hy
        | cons z zs => simp at hy; simp [read_id, hy]
      obtain ⟨i1, i2, i3, i4⟩ := ih (read_id x.id rest) (d + 1) hnext
      rw [e] at i1 i2 i3 i4
      simp only [remove_rows, e, if_true, List.dropWhile_cons, decide_True]
      refine ⟨i1, ?_, i3, ?_⟩
      · rw [i2]; simp; omega
      · intro h1 _
        cases rest with
        | nil => simp [remove_rows, read_id, e]
        | cons z zs => exact i4 h1 (by simp)
    · simp [remove_rows, e]

theorem effective_ids_length (prev : String) (t : List Row) :
    (effective_ids prev t).length = t.length := by
  induction t generalizing prev with
  | nil => rfl
  | cons r rs ih => simp [effective_ids, ih]

/-- Rows that carry the id `rid` keep it, and the rows after them see `rid`
as the preceding id. -/
theorem effective_ids_dropWhile (rid : String) (t : List Row) :
    effective_ids rid (t.dropWhile (fun x => decide (x.id = rid))) =
      (effective_ids rid t).drop (t.takeWhile (fun x => decide (x.id = rid))).length := by
  induction t with
  | nil => simp [effective_ids]
  | cons r rs ih =>
    by_cases e : r.id = rid
    · have e2 : (if r.id = "" then rid else r.id) = rid := by
        split_ifs <;> simp [e]
      simp [List.dropWhile_cons, List.takeWhile_cons, e, effective_ids, e2, ih]
    · simp [List.dropWhile_cons, List.takeWhile_cons, e]

theorem effective_ids_inherit_head (rid : String) (t : List Row) :
    effective_ids rid (inherit_head rid t) = effective_ids rid t := by
  cases t with
  | nil => rfl
  | cons x xs =>
    by_cases e : x.id = ""
    · by_cases e2 : rid = "" <;> simp [inherit_head, effective_ids, e, e2]
    · simp [inherit_head, effective_ids, e]

theorem inherit_head_length (rid : String) (t : List Row) :
    (inherit_head rid t).length = t.length := by
  cases t <;> simp [inherit_head]

/-! ## One iteration of the validation loop -/

theorem list_split_at {α : Type} (L : List α) (i : Nat) (r : α) (h : L[i]? = some r) :
    L = L.take i ++ r :: L.drop (i + 1) ∧ (L.take i).length = i := by
  have hi : i < L.length := by
    by_contra hc
    rw [List.getElem?_eq_none (by omega)] at h
    exact absurd h (by simp)
  have hr : L[i] = r := by
    rw [List.getElem?_eq_getElem hi] at h
    exact Option.some.inj h
  constructor
  · rw [← hr, ← List.drop_eq_getElem_cons hi, List.take_append_drop]
  · simp; omega

theorem getElem?_append_length {α : Type} (A B : List α) :
    (A ++ B)[A.length]? = B.head? := by
  cases B with
  | nil => simp
  | cons b bs => rw [List.getElem?_append_right (le_refl _)]; simp

theorem set_append_length {α : Type} (A : List α) (b c : α) (bs : List α) :
    (A ++ b :: bs).set A.length c = A ++ c :: bs := by
  induction A with
  | nil => rfl
  | cons a as ih => simp [List.set, ih]

theorem read_id_inherit_head (rid id : String) (B : List Row)
    (hid : ∀ x, B.head? = some x → id = x.id) :
    read_id id (inherit_head rid B) = if B ≠ [] ∧ id = "" then rid else id := by
  cases B with
  | nil => simp [inherit_head, read_id]
  | cons x xs =>
    have := hid x rfl
    subst this
    by_cases e : x.id = "" <;> simp [inherit_head, read_id, e]

theorem close_invoice_fields (s : FixState) :
    (close_invoice s).store = s.store ∧ (close_invoice s).iter = s.iter ∧
    (close_invoice s).running_id = s.running_id ∧
    (close_invoice s).first_row_of_invoice = s.first_row_of_invoice ∧
    (close_invoice s).deleted = s.deleted ∧ (close_invoice s).id = s.id ∧
    ((close_invoice s).on_first_row_of_invoice = false ↔
      ¬ (s.remove_failed = true ∨ s.store.length ≤ s.iter ∨ s.id ≠ s.running_id)) ∧
    (close_invoice s).first_row_removed = s.first_row_removed ∧
    (close_invoice s).remove_failed = s.remove_failed ∧
    (close_invoice s).overflow = s.overflow := by
  unfold close_invoice
  split_ifs with h <;> simp [h]

theorem inherit_id_fields (env : Env) (m : FixState) (A B : List Row) (hs : m.store = A ++ B)
    (hi : m.iter = A.length) (hid : ∀ x, B.head? = some x → m.id = x.id)
    (hrf : m.remove_failed = false) :
    (inherit_id env m).store = A ++ inherit_head m.running_id B ∧
    (inherit_id env m).iter = m.iter ∧
    (inherit_id env m).running_id = m.running_id ∧
    (inherit_id env m).first_row_of_invoice = m.first_row_of_invoice ∧
    (inherit_id env m).deleted = m.deleted ∧
    (inherit_id env m).id = read_id m.id (inherit_head m.running_id B) ∧
    (inherit_id env m).first_row_removed = m.first_row_removed ∧
    (inherit_id env m).remove_failed = false := by
  have hget : m.store[m.iter]? = B.head? := by
    rw [hs, hi]; exact getElem?_append_length A B
  cases B with
  | nil =>
    have e1 : inherit_id env m = m := by
      unfold inherit_id; rw [hget]; simp [hrf]
    rw [e1]
    simp [inherit_head, read_id, hs, hrf]
  | cons x xs =>
    have hx : m.id = x.id := hid x rfl
    by_cases e : x.id = ""
    · unfold inherit_id
      rw [hget]
      simp only [hrf, Bool.false_eq_true, if_false, List.head?_cons, hx, e, if_true]
      rw [hs, hi, set_append_length]
      simp [inherit_head, read_id, e]
    · have e1 : inherit_id env m = m := by
        unfold inherit_id
        rw [hget]
        simp [hx, e, hrf]
      rw [e1]
      have ex : ({ x with id := x.id } : Row) = x := by cases x; rfl
      simp [inherit_head, read_id, e, hs, hx, ex, hrf]

/-- Lines 482-503 on a state whose iterator stands before the rows `B`: the
blank id of the first row of `B` is filled in, and the invoice goes on exactly
when there is a row and its id is the running id. -/
theorem finish_spec (env : Env) (m : FixState) (A B : List Row) (hs : m.store = A ++ B)
    (hi : m.iter = A.length) (hid : ∀ x, B.head? = some x → m.id = x.id)
    (hrf : m.remove_failed = false) :
    (close_invoice (inherit_id env m)).store = A ++ inherit_head m.running_id B ∧
    (close_invoice (inherit_id env m)).iter = m.iter ∧
    (close_invoice (inherit_id env m)).running_id = m.running_id ∧
    (close_invoice (inherit_id env m)).first_row_of_invoice = m.first_row_of_invoice ∧
    (close_invoice (inherit_id env m)).deleted = m.deleted ∧
    (close_invoice (inherit_id env m)).id = read_id m.id (inherit_head m.running_id B) ∧
    ((close_invoice (inherit_id env m)).on_first_row_of_invoice = false ↔
      B ≠ [] ∧ read_id m.id (inherit_head m.running_id B) = m.running_id) ∧
    (close_invoice (inherit_id env m)).first_row_removed = m.first_row_removed ∧
    (close_invoice (inherit_id env m)).remove_failed = false := by
  obtain ⟨c1, c2, c3, c4, c5, c6, c7, c8, c9, -⟩ := close_invoice_fields (inherit_id env m)
  obtain ⟨i1, i2, i3, i4, i5, i6, i7, i8⟩ := inherit_id_fields env m A B hs hi hid hrf
  refine ⟨c1.trans i1, c2.trans i2, c3.trans i3, c4.trans i4, c5.trans i5, c6.trans i6, ?_,
    c8.trans i7, c9.trans i8⟩
  rw [c7, i1, i2, i3, i6, i8, hi]
  cases B with
  | nil => simp [inherit_head]
  | cons x xs => simp [inherit_head]

theorem start_invoice_fields (s : FixState) (r : Row) :
    (start_invoice s r).store = s.store ∧ (start_invoice s r).iter = s.iter ∧
    (start_invoice s r).deleted = s.deleted ∧
    (start_invoice s r).running_id = (if s.on_first_row_of_invoice then r.id else s.running_id) ∧
    (start_invoice s r).id = (if s.on_first_row_of_invoice then r.id else s.id) ∧
    (start_invoice s r).first_row_of_invoice =
      (if s.on_first_row_of_invoice then s.iter else s.first_row_of_invoice) ∧
    (start_invoice s r).first_row_removed =
      (if s.on_first_row_of_invoice then false else s.first_row_removed) := by
  unfold start_invoice
  split_ifs <;> simp

theorem fix_body_fields (env : Env) (type : String) (s : FixState) (r : Row) (m : FixState)
    (hm : m = move_on (row_pass env type s r).ignore_invoice
      (after_checks (start_invoice s r) (row_pass env type s r))) :
    (fix_body env type s r).store = (close_invoice (inherit_id env m)).store ∧
    (fix_body env type s r).iter = (close_invoice (inherit_id env m)).iter ∧
    (fix_body env type s r).running_id = (close_invoice (inherit_id env m)).running_id ∧
    (fix_body env type s r).first_row_of_invoice =
      (close_invoice (inherit_id env m)).first_row_of_invoice ∧
    (fix_body env type s r).deleted = (close_invoice (inherit_id env m)).deleted ∧
    (fix_body env type s r).id = (close_invoice (inherit_id env m)).id ∧
    (fix_body env type s r).on_first_row_of_invoice =
      (close_invoice (inherit_id env m)).on_first_row_of_invoice ∧
    (fix_body env type s r).first_row_removed =
      (close_invoice (inherit_id env m)).first_row_removed ∧
    (fix_body env type s r).remove_failed =
      (close_invoice (inherit_id env m)).remove_failed := by
  subst hm
  unfold fix_body
  simp only [and_self]

theorem move_on_accept (s1 : FixState) (p : Pass) (c : Row) (pre tail : List Row)
    (hs : s1.store = pre ++ c :: tail) (hi : s1.iter = pre.length) :
    (move_on false (after_checks s1 p)).store = (pre ++ [p.cur]) ++ tail ∧
    (move_on false (after_checks s1 p)).iter = (pre ++ [p.cur]).length ∧
    (move_on false (after_checks s1 p)).running_id = s1.running_id ∧
    (move_on false (after_checks s1 p)).first_row_of_invoice = s1.first_row_of_invoice ∧
    (move_on false (after_checks s1 p)).deleted = s1.deleted ∧
    (move_on false (after_checks s1 p)).id = read_id s1.id tail ∧
    (move_on false (after_checks s1 p)).first_row_removed = s1.first_row_removed ∧
    (move_on false (after_checks s1 p)).remove_failed = false := by
  simp [move_on, after_checks, hs, hi, set_append_length]

/-- An iteration that does not ignore the invoice: the row under the iterator
is rewritten by its repairs and the iterator steps to the next row. -/
theorem fix_body_accept (env : Env) (type : String) (s : FixState) (r : Row)
    (pre tail : List Row) (hs : s.store = pre ++ r :: tail) (hi : s.iter = pre.length)
    (hacc : (row_pass env type s r).ignore_invoice = false) :
    (fix_body env type s r).store =
      (pre ++ [(row_pass env type s r).cur]) ++
        inherit_head (start_invoice s r).running_id tail ∧
    (fix_body env type s r).iter = pre.length + 1 ∧
    (fix_body env type s r).running_id = (start_invoice s r).running_id ∧
    (fix_body env type s r).first_row_of_invoice = (start_invoice s r).first_row_of_invoice ∧
    (fix_body env type s r).deleted = s.deleted ∧
    (fix_body env type s r).id =
      read_id (read_id (start_invoice s r).id tail)
        (inherit_head (start_invoice s r).running_id tail) ∧
    ((fix_body env type s r).on_first_row_of_invoice = false ↔
      tail ≠ [] ∧ read_id (read_id (start_invoice s r).id tail)
        (inherit_head (start_invoice s r).running_id tail) = (start_invoice s r).running_id) ∧
    (fix_body env type s r).first_row_removed = (start_invoice s r).first_row_removed ∧
    (fix_body env type s r).remove_failed = false := by
  obtain ⟨t1, t2, t3, -, -, -, -⟩ := start_invoice_fields s r
  obtain ⟨b1, b2, b3, b4, b5, b6, b7, b8, b9⟩ := fix_body_fields env type s r _ rfl
  rw [b1, b2, b3, b4, b5, b6, b7, b8, b9, hacc]
  obtain ⟨a1, a2, a3, a4, a5, a6, a7, a8⟩ := move_on_accept (start_invoice s r)
    (row_pass env type s r) r pre tail (by rw [t1, hs]) (by rw [t2, hi])
  have hm := finish_spec env _ _ tail a1 a2 (by
    rw [a6]
    intro x hx
    cases tail with
    | nil => simp at hx
    | cons y ys => simp at hx; simp [read_id, hx]) a8
  rw [a3, a4, a5, a6, a2, a7] at hm
  obtain ⟨m1, m2, m3, m4, m5, m6, m7, m8, m9⟩ := hm
  refine ⟨m1, ?_, m3, m4, ?_, m6, m7, m8, m9⟩
  · rw [m2]; simp
  · rw [m5, t3]

theorem dropWhile_append_all {α : Type} (p : α → Bool) (xs ys : List α)
    (h : ∀ x ∈ xs, p x = true) : (xs ++ ys).dropWhile p = ys.dropWhile p := by
  induction xs with
  | nil => rfl
  | cons x xs ih =>
    have hx : p x = true := h x (by simp)
    simp only [List.cons_append, List.dropWhile_cons, hx, if_true]
    exact ih (fun y hy => h y (by simp [hy]))

theorem move_on_reject (s1 : FixState) (p : Pass) (c : Row) (pre tail : List Row)
    (hs : s1.store = pre ++ c :: tail) (hi : s1.iter = pre.length)
    (hfirst : s1.first_row_of_invoice ≤ pre.length)
    (hids : ∀ x ∈ pre.drop s1.first_row_of_invoice, x.id = s1.running_id)
    (hcur : p.cur.id = s1.running_id) (hid : s1.id = s1.running_id)
    (hfr : s1.first_row_removed = false) :
    (move_on true (after_checks s1 p)).store =
      pre.take s1.first_row_of_invoice ++
        tail.dropWhile (fun x => decide (x.id = s1.running_id)) ∧
    (move_on true (after_checks s1 p)).iter = (pre.take s1.first_row_of_invoice).length ∧
    (move_on true (after_checks s1 p)).running_id = s1.running_id ∧
    (move_on true (after_checks s1 p)).first_row_of_invoice = s1.first_row_of_invoice ∧
    (move_on true (after_checks s1 p)).deleted +
        (tail.dropWhile (fun x => decide (x.id = s1.running_id))).length +
        s1.first_row_of_invoice = s1.deleted + s1.store.length ∧
    (∀ y, (tail.dropWhile (fun x => decide (x.id = s1.running_id))).head? = some y →
      (move_on true (after_checks s1 p)).id = y.id) ∧
    (tail.dropWhile (fun x => decide (x.id = s1.running_id)) = [] →
      (move_on true (after_checks s1 p)).id = s1.running_id) ∧
    (move_on true (after_checks s1 p)).first_row_removed = true ∧
    (move_on true (after_checks s1 p)).remove_failed = false := by
  have hstore : (after_checks s1 p).store = pre ++ p.cur :: tail := by
    simp [after_checks, hs, hi, set_append_length]
  have hdrop : (after_checks s1 p).store.drop s1.first_row_of_invoice =
      (pre.drop s1.first_row_of_invoice ++ [p.cur]) ++ tail := by
    rw [hstore, List.drop_append_of_le_length hfirst]; simp
  have hall : ∀ x ∈ pre.drop s1.first_row_of_invoice ++ [p.cur],
      (fun x : Row => decide (x.id = s1.running_id)) x = true := by
    intro x hx
    rcases List.mem_append.1 hx with h | h
    · simpa using hids x h
    · simp at h; subst h; simpa using hcur
  have hdw := dropWhile_append_all (fun x : Row => decide (x.id = s1.running_id)) _ tail hall
  have hhead : ∀ x, ((pre.drop s1.first_row_of_invoice ++ [p.cur]) ++ tail).head? = some x →
      s1.id = x.id := by
    intro x hx
    have hmem : x ∈ pre.drop s1.first_row_of_invoice ++ [p.cur] := by
      cases hq : pre.drop s1.first_row_of_invoice with
      | nil => rw [hq] at hx; simp at hx; simp [hx]
      | cons q qs => rw [hq] at hx; simp at hx; simp [hx]
    have := hall x hmem
    simp at this
    rw [hid, this]
  obtain ⟨r1, r2, r3, r4⟩ := remove_rows_spec s1.running_id _ s1.id s1.deleted hhead
  rw [hdw] at r1 r3 r4
  have hne : (pre.drop s1.first_row_of_invoice ++ [p.cur]) ++ tail ≠ [] := by simp
  have e1 : (after_checks s1 p).running_id = s1.running_id := rfl
  have e2 : (after_checks s1 p).first_row_of_invoice = s1.first_row_of_invoice := rfl
  have e3 : (after_checks s1 p).id = s1.id := rfl
  have e4 : (after_checks s1 p).deleted = s1.deleted := rfl
  have htake : (after_checks s1 p).store.take s1.first_row_of_invoice =
      pre.take s1.first_row_of_invoice := by
    rw [hstore, List.take_append_of_le_length hfirst]
  have e5 : (after_checks s1 p).first_row_removed = false := hfr
  rw [r1] at r2
  have hlen : s1.store.length = pre.length + 1 + tail.length := by rw [hs]; simp; omega
  have hl2 : ((pre.drop s1.first_row_of_invoice ++ [p.cur]) ++ tail).length =
      pre.length - s1.first_row_of_invoice + 1 + tail.length := by simp; omega
  rw [hl2] at r2
  have htl : (tail.dropWhile (fun x => decide (x.id = s1.running_id))).length ≤ tail.length :=
    (List.dropWhile_sublist _).length_le
  unfold move_on
  simp only [if_true, e1, e2, e3, e4, e5, Bool.false_eq_true, if_false, hdrop, htake, r1]
  refine ⟨trivial, ?_, trivial, trivial, ?_, r3, fun h => r4 h hne, ?_, trivial⟩
  · rw [List.length_take]; omega
  · omega
  · simp only [decide_eq_true_eq]
    omega

theorem dropWhile_head_not {α : Type} (p : α → Bool) (xs : List α) (y : α) (ys : List α)
    (h : xs.dropWhile p = y :: ys) : p y = false := by
  induction xs with
  | nil => simp at h
  | cons x xs ih =>
    rw [List.dropWhile_cons] at h
    split_ifs at h with hx
    · exact ih h
    · simp at h; rw [← h.1]; simpa using hx

/-- An iteration that ignores the invoice: the rows from the first row of the
invoice up to the row under the iterator are removed, together with the rows
after it that carry the running id. -/
theorem fix_body_reject (env : Env) (type : String) (s : FixState) (r : Row)
    (pre tail : List Row) (hs : s.store = pre ++ r :: tail) (hi : s.iter = pre.length)
    (hrej : (row_pass env type s r).ignore_invoice = true)
    (hfirst : (start_invoice s r).first_row_of_invoice ≤ pre.length)
    (hids : ∀ x ∈ pre.drop (start_invoice s r).first_row_of_invoice,
      x.id = (start_invoice s r).running_id)
    (hcur : (row_pass env type s r).cur.id = (start_invoice s r).running_id)
    (hid : (start_invoice s r).id = (start_invoice s r).running_id)
    (hfr : (start_invoice s r).first_row_removed = false) :
    (fix_body env type s r).store =
      pre.take (start_invoice s r).first_row_of_invoice ++
        inherit_head (start_invoice s r).running_id
          (tail.dropWhile (fun x => decide (x.id = (start_invoice s r).running_id))) ∧
    (fix_body env type s r).iter = (start_invoice s r).first_row_of_invoice ∧
    (fix_body env type s r).running_id = (start_invoice s r).running_id ∧
    (fix_body env type s r).first_row_of_invoice = (start_invoice s r).first_row_of_invoice ∧
    (fix_body env type s r).deleted +
        (tail.dropWhile (fun x => decide (x.id = (start_invoice s r).running_id))).length +
        (start_invoice s r).first_row_of_invoice = s.deleted + s.store.length ∧
    ((fix_body env type s r).on_first_row_of_invoice = false →
      (fix_body env type s r).id = (start_invoice s r).running_id ∧
      (start_invoice s r).running_id ≠ "" ∧
      ∃ y ys, tail.dropWhile (fun x => decide (x.id = (start_invoice s r).running_id)) = y :: ys ∧
        y.id = "") ∧
    (fix_body env type s r).first_row_removed = true ∧
    (fix_body env type s r).remove_failed = false := by
  obtain ⟨t1, t2, t3, -, -, -, -⟩ := start_invoice_fields s r
  obtain ⟨b1, b2, b3, b4, b5, b6, b7, b8, b9⟩ := fix_body_fields env type s r _ rfl
  rw [b1, b2, b3, b4, b5, b6, b7, b8, b9, hrej]
  obtain ⟨a1, a2, a3, a4, a5, a6, a7, a8, a9⟩ := move_on_reject (start_invoice s r)
    (row_pass env type s r) r pre tail (by rw [t1, hs]) (by rw [t2, hi]) hfirst hids hcur hid hfr
  have hm := finish_spec env _ _ _ a1 a2 a6 a9
  rw [a3, a4, a2, a8] at hm
  obtain ⟨m1, m2, m3, m4, m5, m6, m7, m8, m9⟩ := hm
  have hlen : (pre.take (start_invoice s r).first_row_of_invoice).length =
      (start_invoice s r).first_row_of_invoice := by
    rw [List.length_take]; omega
  refine ⟨m1, ?_, m3, m4, ?_, ?_, m8, m9⟩
  · rw [m2, hlen]
  · rw [m5, a5, t3, t1]
  · intro hof
    rw [m6]
    obtain ⟨hR, hread⟩ := m7.1 hof
    refine ⟨hread, ?_⟩
    cases hq : tail.dropWhile (fun x => decide (x.id = (start_invoice s r).running_id)) with
    | nil => exact absurd hq hR
    | cons y ys =>
      have hy := dropWhile_head_not _ _ _ _ hq
      simp at hy
      have hmid := a6 y (by rw [hq]; rfl)
      rw [hq, hmid] at hread
      by_cases e : y.id = ""
      · exact ⟨fun hc => hy (by rw [e, hc]), y, ys, rfl, e⟩
      · simp [inherit_head, read_id, e] at hread
        exact absurd hread hy

/-- What the checks of one iteration establish of the row under the iterator. -/
theorem row_pass_spec (env : Env) (type : String) (s : FixState) (r : Row) :
    (row_pass env type s r).cur.id = r.id ∧
    ((row_pass env type s r).ignore_invoice = false →
      (s.on_first_row_of_invoice = true → r.id ≠ "") ∧ r.price ≠ "" ∧
      (env.gnc_account_lookup_for_register r.account).isSome = true ∧
      (row_pass env type s r).cur.quantity = (if r.quantity = "" then "1" else r.quantity) ∧
      RepairFrame r (row_pass env type s r).cur) := by
  unfold row_pass
  cases hof : s.on_first_row_of_invoice
  · simp only [Bool.false_eq_true, if_false]
    obtain ⟨v1, v2⟩ := validate_item_spec env s.row (start_invoice s r).id
      (start_invoice s r).date_opened
      { ignore_invoice := false, row_fixed := false, info := s.info, cur := r }
    refine ⟨v1, fun h => ?_⟩
    obtain ⟨-, w2, w3, w4⟩ := v2 h
    refine ⟨by simp, w2, w3, ?_, ?_⟩
    · rw [w4]
    · rw [w4]; simp [RepairFrame]
  · simp only [if_true]
    obtain ⟨h1, h2⟩ := validate_header_spec env type s.row r
      { ignore_invoice := false, row_fixed := false, info := s.info, cur := r }
    obtain ⟨v1, v2⟩ := validate_item_spec env s.row (start_invoice s r).id
      (start_invoice s r).date_opened (validate_header env type s.row r
        { ignore_invoice := false, row_fixed := false, info := s.info, cur := r })
    have hf : HeaderFrame r (validate_header env type s.row r
        { ignore_invoice := false, row_fixed := false, info := s.info, cur := r }).cur := h1
    have hfid : (validate_header env type s.row r
        { ignore_invoice := false, row_fixed := false, info := s.info, cur := r }).cur.id = r.id := by
      rw [hf]
    refine ⟨v1.trans hfid, fun h => ?_⟩
    obtain ⟨w1, w2, w3, w4⟩ := v2 h
    have hprice : (validate_header env type s.row r
        { ignore_invoice := false, row_fixed := false, info := s.info, cur := r }).cur.price
          = r.price := by rw [hf]
    have hacct : (validate_header env type s.row r
        { ignore_invoice := false, row_fixed := false, info := s.info, cur := r }).cur.account
          = r.account := by rw [hf]
    have hqty : (validate_header env type s.row r
        { ignore_invoice := false, row_fixed := false, info := s.info, cur := r }).cur.quantity
          = r.quantity := by rw [hf]
    rw [hprice] at w2
    rw [hacct] at w3
    refine ⟨fun _ => (h2 w1).2, w2, w3, ?_, ?_⟩
    · rw [w4]; simp [hqty]
    · rw [w4]
      unfold RepairFrame
      unfold HeaderFrame at hf
      rw [hf]

/-! ## The validation loop runs to its end -/

theorem fix_body_stale (env : Env) (type : String) (s : FixState) (r : Row)
    (hrej : (row_pass env type s r).ignore_invoice = true)
    (hfr : (start_invoice s r).first_row_removed = true) :
    (fix_body env type s r).remove_failed = true ∧
    (fix_body env type s r).store = s.store.set s.iter (row_pass env type s r).cur ∧
    (fix_body env type s r).iter = s.iter ∧
    (fix_body env type s r).deleted =
      (if (start_invoice s r).id = (start_invoice s r).running_id then s.deleted + 1
       else s.deleted) := by
  obtain ⟨t1, t2, t3, -, -, -, -⟩ := start_invoice_fields s r
  have hm : move_on true (after_checks (start_invoice s r) (row_pass env type s r)) =
      { after_checks (start_invoice s r) (row_pass env type s r) with
        deleted := if (start_invoice s r).id = (start_invoice s r).running_id
          then (start_invoice s r).deleted + 1 else (start_invoice s r).deleted,
        remove_failed := true, fixed_for_invoice := 0 } := by
    unfold move_on
    have e : (after_checks (start_invoice s r) (row_pass env type s r)).first_row_removed = true :=
      hfr
    simp only [if_true, e]
    rfl
  have hi : ∀ m : FixState, m.remove_failed = true → inherit_id env m = m := by
    intro m h
    unfold inherit_id
    simp [h]
  obtain ⟨b1, b2, -, -, b5, -, -, -, b9⟩ := fix_body_fields env type s r _ rfl
  rw [b1, b2, b5, b9, hrej, hm, hi _ rfl]
  obtain ⟨c1, c2, -, -, c5, -, -, -, c9, -⟩ := close_invoice_fields
    { after_checks (start_invoice s r) (row_pass env type s r) with
        deleted := if (start_invoice s r).id = (start_invoice s r).running_id
          then (start_invoice s r).deleted + 1 else (start_invoice s r).deleted,
        remove_failed := true, fixed_for_invoice := 0 }
  rw [c1, c2, c5, c9]
  refine ⟨rfl, ?_, ?_, ?_⟩
  · simp only [after_checks, t1, t2]
  · simp only [after_checks, t2]
  · simp only [t3]

/-- The invariant is kept by an iteration whose removal does not fail, and the
number of rows from the iterator on goes down. -/
theorem fix_body_walk (env : Env) (type : String) (s : FixState) (r : Row)
    (inv : WalkInv s) (hr : s.store[s.iter]? = some r) :
    (fix_body env type s r).remove_failed = true ∨
    ((fix_body env type s r).remove_failed = false ∧ WalkInv (fix_body env type s r) ∧
      (fix_body env type s r).store.length - (fix_body env type s r).iter <
        s.store.length - s.iter) := by
  obtain ⟨hs, hlen⟩ := list_split_at s.store s.iter r hr
  have hi : s.iter = (s.store.take s.iter).length := hlen.symm
  generalize hpre : s.store.take s.iter = pre at hs hi
  generalize htl : s.store.drop (s.iter + 1) = tail at hs
  obtain ⟨t1, t2, t3, t4, t5, t6, t7⟩ := start_invoice_fields s r
  have hcont : s.on_first_row_of_invoice = false →
      s.id = s.running_id ∧ r.id = s.running_id ∧
      (s.first_row_removed = false → s.first_row_of_invoice ≤ pre.length ∧
        ∀ x ∈ pre.drop s.first_row_of_invoice, x.id = s.running_id) := by
    intro hof
    obtain ⟨c1, c2, c3⟩ := inv hof
    refine ⟨c1, c2 r hr, fun h => ?_⟩
    have := c3 h
    rw [hpre] at this
    rw [← hi]
    exact this
  have hrid : (start_invoice s r).running_id = r.id := by
    rw [t4]
    cases hof : s.on_first_row_of_invoice
    · simpa using (hcont hof).2.1.symm
    · simp
  have hid1 : (start_invoice s r).id = r.id := by
    rw [t5]
    cases hof : s.on_first_row_of_invoice
    · obtain ⟨c1, c2, -⟩ := hcont hof
      simp [c1, c2]
    · simp
  have hfirst : (start_invoice s r).first_row_removed = false →
      (start_invoice s r).first_row_of_invoice ≤ pre.length ∧
      ∀ x ∈ pre.drop (start_invoice s r).first_row_of_invoice,
        x.id = (start_invoice s r).running_id := by
    rw [t6, t4, t7]
    cases hof : s.on_first_row_of_invoice
    · simpa using (hcont hof).2.2
    · simp [hi]
  obtain ⟨p1, -⟩ := row_pass_spec env type s r
  have hlen0 : s.store.length = pre.length + 1 + tail.length := by rw [hs]; simp; omega
  cases hp : (row_pass env type s r).ignore_invoice
  · -- the invoice is not ignored
    obtain ⟨a1, a2, a3, a4, a5, a6, a7, a8, a9⟩ :=
      fix_body_accept env type s r pre tail hs hi hp
    right
    refine ⟨a9, ?_, ?_⟩
    · intro hof
      obtain ⟨hne, hread⟩ := a7.1 hof
      rw [a3, a4, a6, a8]
      refine ⟨hread, ?_, ?_⟩
      · intro x hx
        rw [a1, a2] at hx
        have hg := getElem?_append_length (pre ++ [(row_pass env type s r).cur])
          (inherit_head (start_invoice s r).running_id tail)
        simp only [List.length_append, List.length_singleton] at hg
        rw [hg] at hx
        rw [← hread]
        cases tail with
        | nil => exact absurd rfl hne
        | cons y ys =>
          simp [inherit_head] at hx
          rw [← hx]
          simp [read_id, inherit_head]
      · intro hfr
        obtain ⟨f1, f2⟩ := hfirst hfr
        refine ⟨by rw [a2]; omega, ?_⟩
        intro x hx
        rw [a1, a2] at hx
        have e : ((pre ++ [(row_pass env type s r).cur]) ++
            inherit_head (start_invoice s r).running_id tail).take (pre.length + 1) =
            pre ++ [(row_pass env type s r).cur] := by
          rw [List.take_append_of_le_length (by simp)]
          exact List.take_of_length_le (by simp)
        rw [e, List.drop_append_of_le_length f1] at hx
        rcases List.mem_append.1 hx with h | h
        · exact f2 x h
        · simp at h; rw [h, p1, hrid]
    · rw [a1, a2, hlen0, hi]; simp [inherit_head_length]; omega
  · -- the invoice is ignored
    cases hfr : (start_invoice s r).first_row_removed
    · obtain ⟨f1, f2⟩ := hfirst hfr
      obtain ⟨a1, a2, a3, a4, a5, a6, a7, a8⟩ := fix_body_reject env type s r pre tail hs hi hp
        f1 f2 (by rw [p1, hrid]) (by rw [hid1, hrid]) hfr
      have hl : (pre.take (start_invoice s r).first_row_of_invoice).length =
          (start_invoice s r).first_row_of_invoice := by
        rw [List.length_take]; omega
      have hdw := (List.dropWhile_sublist (l := tail)
        (fun x : Row => decide (x.id = (start_invoice s r).running_id))).length_le
      right
      refine ⟨a8, ?_, ?_⟩
      · intro hof
        obtain ⟨c1, c2, y, ys, hq, ey⟩ := a6 hof
        rw [a3, a7]
        refine ⟨c1, ?_, fun h => absurd h (by simp)⟩
        intro x hx
        rw [a1, a2, hq] at hx
        have hg := getElem?_append_length (pre.take (start_invoice s r).first_row_of_invoice)
          (inherit_head (start_invoice s r).running_id (y :: ys))
        rw [hl] at hg
        rw [hg] at hx
        simp [inherit_head] at hx
        rw [← hx]
        simp [ey]
      · rw [a1, a2, hlen0, hi]; simp [inherit_head_length, hl]; omega
    · left
      exact (fix_body_stale env type s r hp hfr).1

theorem fix_loop_step (env : Env) (type : String) (n : Nat) (s : FixState) (r : Row)
    (hv : s.remove_failed = false) (h : s.store[s.iter]? = some r) :
    fix_loop env type (n + 1) s = fix_loop env type n (fix_body env type s r) := by
  simp only [fix_loop, hv, h, Bool.false_eq_true, if_false]

/-- When the test of the loop fails, the loop leaves the state as it is. -/
theorem fix_loop_done (env : Env) (type : String) (n : Nat) (s : FixState)
    (h : s.remove_failed = true ∨ s.store[s.iter]? = none) : fix_loop env type n s = s := by
  cases n with
  | zero => rfl
  | succ n =>
    rcases h with h | h
    · simp only [fix_loop, h, if_true]
    · simp only [fix_loop, h]
      split_ifs <;> rfl

theorem fix_loop_walk (env : Env) (type : String) :
    ∀ (fuel : Nat) (s : FixState), WalkInv s →
      s.remove_failed = true ∨ s.store.length - s.iter ≤ fuel →
      (fix_loop env type fuel s).remove_failed = true ∨
      (fix_loop env type fuel s).store[(fix_loop env type fuel s).iter]? = none := by
  intro fuel
  induction fuel with
  | zero =>
    intro s _ hf
    show s.remove_failed = true ∨ s.store[s.iter]? = none
    rcases hf with hf | hf
    · exact Or.inl hf
    · exact Or.inr (List.getElem?_eq_none (by omega))
  | succ n ih =>
    intro s inv hf
    cases hv : s.remove_failed
    · cases hr : s.store[s.iter]? with
      | none =>
        rw [fix_loop_done env type _ s (Or.inr hr)]
        exact Or.inr hr
      | some r =>
        rw [fix_loop_step env type n s r hv hr]
        rcases fix_body_walk env type s r inv hr with h | ⟨-, inv2, hlt⟩
        · rw [fix_loop_done env type _ _ (Or.inl h)]
          exact Or.inl h
        · rw [hv] at hf
          simp only [Bool.false_eq_true, false_or] at hf
          exact ih _ inv2 (Or.inr (by omega))
    · rw [fix_loop_done env type _ s (Or.inl hv)]
      exact Or.inl hv

theorem fix_init_walk (t0 : List Row) (info : String) : WalkInv (fix_init t0 info) := by
  intro h
  simp [fix_init] at h

/-- The validation pass runs its loop to the end: when the fuel is the number
of rows on entry, the test of the loop fails in the final state, because the
iterator is past the last row or because a removal failed. -/
theorem fix_bis_finished (env : Env) (type : String) (t0 : List Row) (info : String) :
    (gnc_bi_import_fix_bis env type t0 info).remove_failed = true ∨
    (gnc_bi_import_fix_bis env type t0 info).store[
      (gnc_bi_import_fix_bis env type t0 info).iter]? = none :=
  fix_loop_walk env type t0.length _ (fix_init_walk t0 info) (Or.inr (by simp [fix_init]))

theorem fix_loop_add (env : Env) (type : String) :
    ∀ (a b : Nat) (s : FixState),
      fix_loop env type (a + b) s = fix_loop env type b (fix_loop env type a s) := by
  intro a
  induction a with
  | zero => intro b s; simp [fix_loop]
  | succ a ih =>
    intro b s
    cases hv : s.remove_failed
    · cases hr : s.store[s.iter]? with
      | none =>
        rw [fix_loop_done env type _ s (Or.inr hr), fix_loop_done env type _ s (Or.inr hr),
          fix_loop_done env type _ s (Or.inr hr)]
      | some r =>
        have e : a + 1 + b = (a + b) + 1 := by omega
        rw [e, fix_loop_step env type _ s r hv hr, fix_loop_step env type a s r hv hr]
        exact ih b _
    · rw [fix_loop_done env type _ s (Or.inl hv), fix_loop_done env type _ s (Or.inl hv),
        fix_loop_done env type _ s (Or.inl hv)]

/-- Allowing the loop more iterations than the table has rows changes nothing. -/
theorem fix_bis_fuel (env : Env) (type : String) (t0 : List Row) (info : String) (more : Nat) :
    fix_loop env type (t0.length + more) (fix_init t0 info) =
      gnc_bi_import_fix_bis env type t0 info := by
  rw [fix_loop_add]
  exact fix_loop_done env type more _ (fix_bis_finished env type t0 info)

/-! ## The validation pass on sample tables (C1, C4, C5) -/

/-- C1, the code at the failing input: the two rows form one group (both have
the effective id "INV1"), the first row fails the price check, and yet the
second row is still in the table after the pass, now with the id "INV1". -/
theorem C1_row_of_rejected_group_remains :
    (effective_ids "" [line1_no_price, line2]).map (fun r => r.id) = ["INV1", "INV1"] ∧
    (row_pass sample_env "INVOICE" (fix_init [line1_no_price, line2] "")
      line1_no_price).ignore_invoice = true ∧
    (gnc_bi_import_fix_bis sample_env "INVOICE" [line1_no_price, line2] "").store
      = [{ line2 with id := "INV1" }] ∧
    (gnc_bi_import_fix_bis sample_env "INVOICE" [line1_no_price, line2] "").deleted = 1 ∧
    (gnc_bi_import_fix_bis sample_env "INVOICE" [line1_no_price, line2] "").info
      = "Row 1: invoice INV1 ignored, price not set.\n" := by
  decide

/-- C4, the code at the failing input: on a single valid row whose
`date_opened` and `date` are blank, the first pass stores today's date in
`date_opened` but the old, blank `date_opened` in `date`; a second pass on
that output repairs `date` again, so it changes the table and reports
`fixed = 1`. -/
theorem C4_second_pass_repairs_again :
    (gnc_bi_import_fix_bis sample_env "INVOICE" [line1_no_dates] "").store
      = [{ line1 with date_opened := "2024-02-02", date := "" }] ∧
    (gnc_bi_import_fix_bis sample_env "INVOICE" [line1_no_dates] "").fixed = 1 ∧
    (gnc_bi_import_fix_bis sample_env "INVOICE"
      (gnc_bi_import_fix_bis sample_env "INVOICE" [line1_no_dates] "").store "").store
      = [{ line1 with date_opened := "2024-02-02", date := "2024-02-02" }] ∧
    (gnc_bi_import_fix_bis sample_env "INVOICE"
      (gnc_bi_import_fix_bis sample_env "INVOICE" [line1_no_dates] "").store "").fixed = 1 ∧
    (gnc_bi_import_fix_bis sample_env "INVOICE"
      (gnc_bi_import_fix_bis sample_env "INVOICE" [line1_no_dates] "").store "").deleted = 0 := by
  decide

/-- C5, the code at the failing input: the only group of the table is
rejected (its first row has no price), and the repair of the quantity of its
second row is still counted: `fixed = 1`. -/
theorem C5_fix_counted_for_rejected_group :
    (effective_ids "" [line1_no_price, line2_no_quantity]).map (fun r => r.id)
      = ["INV1", "INV1"] ∧
    (row_pass sample_env "INVOICE" (fix_init [line1_no_price, line2_no_quantity] "")
      line1_no_price).ignore_invoice = true ∧
    (gnc_bi_import_fix_bis sample_env "INVOICE" [line1_no_price, line2_no_quantity] "").fixed
      = 1 ∧
    (gnc_bi_import_fix_bis sample_env "INVOICE" [line1_no_price, line2_no_quantity] "").deleted
      = 1 ∧
    (gnc_bi_import_fix_bis sample_env "INVOICE" [line1_no_price, line2_no_quantity] "").store
      = [{ line2 with id := "INV1", quantity := "1" }] := by
  decide

/-! ## The removal from the saved iterator of a removed row (C6, C7, C18, C26, C27) -/

/-- C6, the code at the failing input. The three rows have the effective id
"INV1"; the first and the second have no price. The first iteration removes
the first row, and the second row takes the id "INV1" and continues the
invoice. The second iteration ignores the invoice again and starts the removal
from the saved iterator, which names the removed first row: nothing is removed
and `valid` becomes `FALSE`. The pass ends there: the third row is never
visited and stays in the table with its blank id. -/
theorem C6_row_with_blank_id_remains :
    (effective_ids "" [line1_no_price, line2_no_price, line2]).map (fun r => r.id) =
      ["INV1", "INV1", "INV1"] ∧
    (gnc_bi_import_fix_bis sample_env "INVOICE" [line1_no_price, line2_no_price, line2] "").store
      = [{ line2_no_price with id := "INV1" }, line2] ∧
    (gnc_bi_import_fix_bis sample_env "INVOICE"
      [line1_no_price, line2_no_price, line2] "").store.map (fun r => r.id) = ["INV1", ""] ∧
    (gnc_bi_import_fix_bis sample_env "INVOICE"
      [line1_no_price, line2_no_price, line2] "").remove_failed = true ∧
    (gnc_bi_import_fix_bis sample_env "INVOICE"
      [line1_no_price, line2_no_price, line2] "").overflow = false := by
  decide

/-- C7, the code at the failing input. Both rows have a blank price. The first
iteration removes the first row and gives the second the id "INV1"; the second
iteration ignores the invoice for the blank price of the second row, and the
removal, started from the iterator of the removed first row, removes nothing:
the second row stays in the table with its blank price. -/
theorem C7_row_with_blank_price_remains :
    (gnc_bi_import_fix_bis sample_env "INVOICE" [line1_no_price, line2_no_price] "").store
      = [{ line2_no_price with id := "INV1" }] ∧
    (gnc_bi_import_fix_bis sample_env "INVOICE" [line1_no_price, line2_no_price] "").store.map
      (fun r => r.price) = [""] ∧
    (gnc_bi_import_fix_bis sample_env "INVOICE" [line1_no_price, line2_no_price] "").info
      = "Row 1: invoice INV1 ignored, price not set.\n" ++
        "Row 2: invoice INV1 ignored, price not set.\n" ∧
    (gnc_bi_import_fix_bis sample_env "INVOICE" [line1_no_price, line2_no_price] "").remove_failed
      = true ∧
    (gnc_bi_import_fix_bis sample_env "INVOICE" [line1_no_price, line2_no_price] "").overflow
      = false := by
  decide

/-- C18, the code at the failing input. The first row has no price and is
removed (`deleted = 1`); the second row continues the invoice and its account
does not exist, so the invoice is ignored again: `deleted` is incremented
before `gtk_list_store_remove` is called with the iterator of the removed first
row, and that call removes nothing. The pass ends with `deleted = 2`, while
one row of the two was removed. -/
theorem C18_deleted_counts_failed_removal :
    (gnc_bi_import_fix_bis sample_env "INVOICE" [line1_no_price, line2_no_account] "").deleted
      = 2 ∧
    (gnc_bi_import_fix_bis sample_env "INVOICE" [line1_no_price, line2_no_account] "").store
      = [{ line2_no_account with id := "INV1" }] ∧
    [line1_no_price, line2_no_account].length -
      (gnc_bi_import_fix_bis sample_env "INVOICE"
        [line1_no_price, line2_no_account] "").store.length = 1 ∧
    (gnc_bi_import_fix_bis sample_env "INVOICE" [line1_no_price, line2_no_account] "").info
      = "Row 1: invoice INV1 ignored, price not set.\n" ++
        "Row 2: invoice INV1 ignored, account Nowhere does not exist.\n" ∧
    (gnc_bi_import_fix_bis sample_env "INVOICE"
      [line1_no_price, line2_no_account] "").remove_failed = true ∧
    (gnc_bi_import_fix_bis sample_env "INVOICE"
      [line1_no_price, line2_no_account] "").overflow = false := by
  decide

/-- C26, the code at the failing input. After two iterations the table holds
the two rows of the invoice "INV1" that followed the removed first row, and the
row of the invoice "INV2"; the iterator is on the second row, which has no
price. The iteration on that row ignores the invoice, and the claim has it
remove the two rows of "INV1" and stop at the row of "INV2". The code starts
from the saved iterator of the removed first row: it removes no row, counts
one in `deleted`, and ends the pass with the three rows in the table. -/
theorem C26_second_rejection_removes_nothing :
    (fix_loop sample_env "INVOICE" 2
      (fix_init [line1_no_price, line2, line2_no_price, line_inv2] "")).store
      = [{ line2 with id := "INV1" }, { line2_no_price with id := "INV1" }, line_inv2] ∧
    (fix_loop sample_env "INVOICE" 2
      (fix_init [line1_no_price, line2, line2_no_price, line_inv2] "")).iter = 1 ∧
    (fix_loop sample_env "INVOICE" 2
      (fix_init [line1_no_price, line2, line2_no_price, line_inv2] "")).deleted = 1 ∧
    (fix_loop sample_env "INVOICE" 2
      (fix_init [line1_no_price, line2, line2_no_price, line_inv2] "")).running_id = "INV1" ∧
    (row_pass sample_env "INVOICE"
      (fix_loop sample_env "INVOICE" 2
        (fix_init [line1_no_price, line2, line2_no_price, line_inv2] ""))
      { line2_no_price with id := "INV1" }).ignore_invoice = true ∧
    (gnc_bi_import_fix_bis sample_env "INVOICE"
      [line1_no_price, line2, line2_no_price, line_inv2] "").store
      = [{ line2 with id := "INV1" }, { line2_no_price with id := "INV1" }, line_inv2] ∧
    (gnc_bi_import_fix_bis sample_env "INVOICE"
      [line1_no_price, line2, line2_no_price, line_inv2] "").deleted = 2 ∧
    (gnc_bi_import_fix_bis sample_env "INVOICE"
      [line1_no_price, line2, line2_no_price, line_inv2] "").remove_failed = true ∧
    (gnc_bi_import_fix_bis sample_env "INVOICE"
      [line1_no_price, line2, line2_no_price, line_inv2] "").overflow = false := by
  decide

/-- C27, the code at the failing input. The state after the first iteration
has the two rows left by the removal of the first row, and the iterator on the
first of them. The second iteration ignores the invoice; its removal loop runs
on the iterator of the removed first row, so it removes no row, and the
iterator does not step to the next row either: the table keeps its two rows.
The loop ends only because the failed removal leaves `valid` `FALSE`, with the
row of the invoice "INV2" never visited. -/
theorem C27_iteration_without_progress :
    (fix_body sample_env "INVOICE" (fix_init [line1_no_price, line2_no_price, line_inv2] "")
      line1_no_price).store = [{ line2_no_price with id := "INV1" }, line_inv2] ∧
    (fix_body sample_env "INVOICE" (fix_init [line1_no_price, line2_no_price, line_inv2] "")
      line1_no_price).iter = 0 ∧
    (fix_body sample_env "INVOICE" (fix_init [line1_no_price, line2_no_price, line_inv2] "")
      line1_no_price).first_row_removed = true ∧
    (fix_body sample_env "INVOICE"
      (fix_body sample_env "INVOICE" (fix_init [line1_no_price, line2_no_price, line_inv2] "")
        line1_no_price)
      { line2_no_price with id := "INV1" }).store
      = [{ line2_no_price with id := "INV1" }, line_inv2] ∧
    (fix_body sample_env "INVOICE"
      (fix_body sample_env "INVOICE" (fix_init [line1_no_price, line2_no_price, line_inv2] "")
        line1_no_price)
      { line2_no_price with id := "INV1" }).iter = 0 ∧
    (fix_body sample_env "INVOICE"
      (fix_body sample_env "INVOICE" (fix_init [line1_no_price, line2_no_price, line_inv2] "")
        line1_no_price)
      { line2_no_price with id := "INV1" }).remove_failed = true ∧
    gnc_bi_import_fix_bis sample_env "INVOICE" [line1_no_price, line2_no_price, line_inv2] "" =
      fix_body sample_env "INVOICE"
        (fix_body sample_env "INVOICE" (fix_init [line1_no_price, line2_no_price, line_inv2] "")
          line1_no_price)
        { line2_no_price with id := "INV1" } := by
  decide

/-! ## The copy of the running id into the block of a blank id (C28) -/

/-- C28, the code at the failing input. The first row is valid and its id has
24 characters; the second row has a blank id. When the iterator steps to the
second row, `id` is the copy of the blank id, a block for which one byte was
asked and in which 24 bytes can be written, and `strcpy` copies the 24
characters of the running id and the terminating zero into it: the last byte
is written past the end of the block, outside every column of the table. -/
theorem C28_strcpy_writes_past_id_block :
    long_id.length + 1 = 25 ∧ sample_env.id_block_size = 24 ∧
    (row_pass sample_env "INVOICE" (fix_init [line1_long_id, line2] "")
      line1_long_id).ignore_invoice = false ∧
    (fix_body sample_env "INVOICE" (fix_init [line1_long_id, line2] "") line1_long_id).overflow
      = true ∧
    (gnc_bi_import_fix_bis sample_env "INVOICE" [line1_long_id, line2] "").overflow = true := by
  decide

/-! ## The reconciliation pass: posted documents and the declined update (C2, C8) -/

/-- C2: when the id of the row resolves to a document that is posted at the
moment the row is processed, the iteration only steps to the next row (and
sets the running id when the row opens a group): the book, both counters,
the log, the record of calls and the dialog count are unchanged. -/
theorem C2_posted_document_row_skipped (env : Env) (bill : Bool) (open_mode : String)
    (store : List Row) (s : CreateState) (r : Row) (idx : Nat) (inv : GncInvoice)
    (hsearch : gnc_search_on_id bill r.id s.book = some idx)
    (hinv : s.book[idx]? = some inv) (hposted : gncInvoiceIsPosted inv = true) :
    create_body env bill open_mode store s r =
      { s with iter := s.iter + 1,
               running_id := if s.on_first_row_of_invoice then r.id else s.running_id,
               first_row_of_invoice :=
                 if s.on_first_row_of_invoice then s.iter else s.first_row_of_invoice } := by
  unfold create_body start_group
  cases hof : s.on_first_row_of_invoice <;> simp [hsearch, hinv, hposted, hof]

/-- C2 on the sample book: the row `line1` when "INV1" is already posted. -/
theorem C2_witness :
    create_body sample_env false "NONE" [line1] (create_init [inv1_posted] "") line1 =
      { create_init [inv1_posted] "" with iter := 1, running_id := "INV1" } :=
  C2_posted_document_row_skipped sample_env false "NONE" [line1] (create_init [inv1_posted] "")
    line1 0 inv1_posted (by decide) (by decide) (by decide)

/-- C8: when the row under the iterator belongs to an existing document that
is not posted, no update has been accepted yet and the dialog answers no, the
rest of the run, whatever the fuel, only records the request: the book, both
counters and the log keep their values, the iterator stays on the row, and no
call other than the request is made. -/
theorem C8_declined_update_stops_run (env : Env) (bill : Bool) (open_mode : String)
    (store : List Row) (fuel : Nat) (s : CreateState) (r : Row) (idx : Nat) (inv : GncInvoice)
    (hret : s.returned = false) (hrow : store[s.iter]? = some r)
    (hsearch : gnc_search_on_id bill r.id s.book = some idx)
    (hinv : s.book[idx]? = some inv) (hposted : gncInvoiceIsPosted inv = false)
    (hupd : s.update ≠ update.YES)
    (hans : env.gtk_dialog_run s.n_dialogs = update.NO) :
    create_loop env bill open_mode store (fuel + 1) s =
      { s with running_id := if s.on_first_row_of_invoice then r.id else s.running_id,
               first_row_of_invoice :=
                 if s.on_first_row_of_invoice then s.iter else s.first_row_of_invoice,
               update := update.NO,
               n_dialogs := s.n_dialogs + 1,
               trace := s.trace ++ [Event.asked update.NO],
               returned := true } := by
  have hbody : create_body env bill open_mode store s r =
      { s with running_id := if s.on_first_row_of_invoice then r.id else s.running_id,
               first_row_of_invoice :=
                 if s.on_first_row_of_invoice then s.iter else s.first_row_of_invoice,
               update := update.NO,
               n_dialogs := s.n_dialogs + 1,
               trace := s.trace ++ [Event.asked update.NO],
               returned := true } := by
    unfold create_body start_group ask_update
    cases hof : s.on_first_row_of_invoice <;> simp [hsearch, hinv, hposted, hupd, hans, hof]
  have hstep : create_loop env bill open_mode store (fuel + 1) s =
      create_loop env bill open_mode store fuel (create_body env bill open_mode store s r) := by
    simp only [create_loop, hret, hrow]
    simp
  rw [hstep, hbody]
  cases fuel with
  | zero => rfl
  | succ n => simp [create_loop]

/-- C8 on the sample book with a dialog that answers no: the table holds a
row of the existing, open invoice "INV1" and then a row of a new invoice; the
run stops at the first row. -/
theorem C8_witness :
    create_loop sample_env_no false "NONE" [line1, line_inv2] 2 (create_init [inv1_open] "") =
      { create_init [inv1_open] "" with running_id := "INV1", n_dialogs := 1,
                                         trace := [Event.asked update.NO], returned := true } :=
  C8_declined_update_stops_run sample_env_no false "NONE" [line1, line_inv2] 1
    (create_init [inv1_open] "") line1 0 inv1_open (by decide) (by decide) (by decide)
    (by decide) (by decide) (by decide) (by decide)

/-! ## The reconciliation pass: posting when a group closes (C9) -/

theorem open_tab_fields (open_mode : String) (posted : Bool) (idx : Nat) (s : CreateState) :
    (open_tab open_mode posted idx s).book = s.book ∧
    (open_tab open_mode posted idx s).info = s.info := by
  unfold open_tab
  split_ifs <;> simp

/-- The closing of a group (lines 782-862) on a document `inv` that is not
posted: what becomes of the document and of the log. -/
theorem try_post_spec (env : Env) (bill : Bool) (open_mode : String) (first : Row) (idx : Nat)
    (s : CreateState) (inv : GncInvoice) (hinv : s.book[idx]? = some inv)
    (hnp : gncInvoiceIsPosted inv = false) :
    ((∃ inv2, (try_post env bill open_mode first idx s).book[idx]? = some inv2 ∧
        gncInvoiceIsPosted inv2 = true) ↔
      (first.date_posted ≠ "" ∧ env.curr_count inv = 0 ∧
        inv.currency = env.gnc_account_get_currency_or_parent
          (env.gnc_account_lookup_for_register first.account_posted))) ∧
    (first.date_posted = "" → (try_post env bill open_mode first idx s).info = s.info) ∧
    (first.date_posted ≠ "" → env.curr_count inv ≠ 0 →
      (try_post env bill open_mode first idx s).info = s.info ++ "Invoice " ++ first.id ++
        " NOT posted because it requires currency conversion.\n") ∧
    (first.date_posted ≠ "" → env.curr_count inv = 0 →
      inv.currency = env.gnc_account_get_currency_or_parent
        (env.gnc_account_lookup_for_register first.account_posted) →
      (try_post env bill open_mode first idx s).info = s.info ++ "Invoice " ++ first.id ++
        " posted.\n") ∧
    (first.date_posted ≠ "" → env.curr_count inv = 0 →
      inv.currency ≠ env.gnc_account_get_currency_or_parent
        (env.gnc_account_lookup_for_register first.account_posted) →
      (try_post env bill open_mode first idx s).info = s.info ++ "Invoice " ++ first.id ++
        " NOT posted because currencies don't match.\n") := by
  have hlt : idx < s.book.length := by
    by_contra hc
    rw [List.getElem?_eq_none (by omega)] at hinv
    exact absurd hinv (by simp)
  have hnp2 : inv.posted = none := by
    unfold gncInvoiceIsPosted at hnp
    cases hq : inv.posted with
    | none => rfl
    | some v => rw [hq] at hnp; simp at hnp
  unfold try_post
  by_cases h1 : first.date_posted = ""
  · simp [h1, (open_tab_fields _ _ _ _).1, (open_tab_fields _ _ _ _).2, hinv, hnp]
  · by_cases h2 : env.curr_count inv = 0
    · by_cases h3 : inv.currency = env.gnc_account_get_currency_or_parent
          (env.gnc_account_lookup_for_register first.account_posted)
      · simp [h1, h2, h3, (open_tab_fields _ _ _ _).1, (open_tab_fields _ _ _ _).2, hinv,
          gncInvoiceIsPosted, hlt]
      · simp [h1, h2, h3, (open_tab_fields _ _ _ _).1, (open_tab_fields _ _ _ _).2, hinv, hnp]
    · simp [h1, h2, (open_tab_fields _ _ _ _).1, (open_tab_fields _ _ _ _).2, hinv, hnp]

/-- C9: when the entry of a row has been added to a document `inv` that was
not posted and the next row does not carry the running id (or there is no
next row), the document, now `inv1`, is posted if and only if the
`date_posted` of the first row of the group is non-blank, `inv1` has no
foreign currency and the currency of the account named by `account_posted` is
the currency of `inv1`. The log is unchanged when `date_posted` is blank and
otherwise gains exactly one of the three messages. -/
theorem C9_post_when_group_closes (env : Env) (bill : Bool) (open_mode : String)
    (store : List Row) (idx : Nat) (r : Row) (notes : String) (s : CreateState)
    (inv : GncInvoice) (first : Row)
    (hinv : s.book[idx]? = some inv) (hnp : gncInvoiceIsPosted inv = false)
    (hclose : (store[s.iter + 1]?).map (fun r2 => r2.id) ≠ some s.running_id)
    (hfirst : store[s.first_row_of_invoice]? = some first)
    (inv1 : GncInvoice)
    (hinv1 : inv1 = { inv with entries := inv.entries ++
      [new_entry env bill (current_denom s idx) r notes] }) :
    ((∃ inv2, (add_entry env bill open_mode store idx r notes s).book[idx]? = some inv2 ∧
        gncInvoiceIsPosted inv2 = true) ↔
      (first.date_posted ≠ "" ∧ env.curr_count inv1 = 0 ∧
        inv1.currency = env.gnc_account_get_currency_or_parent
          (env.gnc_account_lookup_for_register first.account_posted))) ∧
    (first.date_posted = "" →
      (add_entry env bill open_mode store idx r notes s).info = s.info) ∧
    (first.date_posted ≠ "" → env.curr_count inv1 ≠ 0 →
      (add_entry env bill open_mode store idx r notes s).info = s.info ++ "Invoice " ++
        first.id ++ " NOT posted because it requires currency conversion.\n") ∧
    (first.date_posted ≠ "" → env.curr_count inv1 = 0 →
      inv1.currency = env.gnc_account_get_currency_or_parent
        (env.gnc_account_lookup_for_register first.account_posted) →
      (add_entry env bill open_mode store idx r notes s).info = s.info ++ "Invoice " ++
        first.id ++ " posted.\n") ∧
    (first.date_posted ≠ "" → env.curr_count inv1 = 0 →
      inv1.currency ≠ env.gnc_account_get_currency_or_parent
        (env.gnc_account_lookup_for_register first.account_posted) →
      (add_entry env bill open_mode store idx r notes s).info = s.info ++ "Invoice " ++
        first.id ++ " NOT posted because currencies don't match.\n") := by
  have hlt : idx < s.book.length := by
    by_contra hc
    rw [List.getElem?_eq_none (by omega)] at hinv
    exact absurd hinv (by simp)
  have hbook : (update_invoice s.book idx (fun i => { i with entries := i.entries ++
      [new_entry env bill (current_denom s idx) r notes] }))[idx]? = some inv1 := by
    unfold update_invoice
    rw [hinv, hinv1]
    simp [hlt]
  have hnp1 : gncInvoiceIsPosted inv1 = false := by
    rw [hinv1]; exact hnp
  have hadd : add_entry env bill open_mode store idx r notes s =
      try_post env bill open_mode first idx
        { s with denom := current_denom s idx,
                 book := update_invoice s.book idx (fun i => { i with entries := i.entries ++
                   [new_entry env bill (current_denom s idx) r notes] }),
                 trace := s.trace ++ [Event.entry_added idx],
                 iter := s.iter + 1 } := by
    unfold add_entry
    simp [hclose, hfirst]
  rw [hadd]
  exact try_post_spec env bill open_mode first idx _ inv1 hbook hnp1

/-- C9 on the sample book (scenario D): the single row `line1_post` of the open
invoice "INV1" asks for posting to "AR", an account in the currency of the
invoice; the invoice is posted and the log says so. -/
theorem C9_witness :
    (∃ inv2, (add_entry sample_env false "NONE" [line1_post] 0 line1_post ""
        { create_init [inv1_open] "" with running_id := "INV1" }).book[0]? = some inv2 ∧
      gncInvoiceIsPosted inv2 = true) ∧
    (add_entry sample_env false "NONE" [line1_post] 0 line1_post ""
        { create_init [inv1_open] "" with running_id := "INV1" }).info
      = "Invoice INV1 posted.\n" :=
  have h := C9_post_when_group_closes sample_env false "NONE" [line1_post] 0 line1_post ""
    { create_init [inv1_open] "" with running_id := "INV1" } inv1_open line1_post
    (by decide) (by decide) (by decide) (by decide) _ rfl
  ⟨h.1.2 ⟨by decide, by decide, by decide⟩, h.2.2.2.1 (by decide) (by decide) (by decide)⟩

/-! ## The reconciliation pass: updates of existing documents (C3, C10) -/

theorem start_group_book (s : CreateState) (r : Row) : (start_group s r).book = s.book := by
  unfold start_group
  split_ifs <;> rfl

/-- C10, the code at the failing input: the table holds two rows of one new
invoice "INV1" and the book is empty. One document is created, and the second
row, which finds the document just created, is counted as an update:
`n_invoices_updated = 1`. -/
theorem C10_second_row_counted_as_update :
    (gnc_bi_import_create_bis sample_env [line1, line2_inv1] [] "INVOICE" "NONE" "").map
        (fun s => (s.n_invoices_created, s.n_invoices_updated, s.book.length, s.trace))
      = some (1, 1, 1, [Event.created 0, Event.entry_added 0, Event.entry_added 0]) := by
  decide

/-! ## The reconciliation loop visits every row -/

theorem open_tab_iter (open_mode : String) (posted : Bool) (idx : Nat) (s : CreateState) :
    (open_tab open_mode posted idx s).iter = s.iter ∧
    (open_tab open_mode posted idx s).returned = s.returned := by
  unfold open_tab
  split_ifs <;> simp

theorem try_post_iter (env : Env) (bill : Bool) (open_mode : String) (first : Row) (idx : Nat)
    (s : CreateState) :
    (try_post env bill open_mode first idx s).iter = s.iter ∧
    (try_post env bill open_mode first idx s).returned = s.returned := by
  have key : ∀ s2 : CreateState × Bool, s2.1.iter = s.iter ∧ s2.1.returned = s.returned →
      ({ open_tab open_mode s2.2 idx s2.1 with on_first_row_of_invoice := true } :
          CreateState).iter = s.iter ∧
      ({ open_tab open_mode s2.2 idx s2.1 with on_first_row_of_invoice := true } :
          CreateState).returned = s.returned := by
    intro s2 hs2
    obtain ⟨o1, o2⟩ := open_tab_iter open_mode s2.2 idx s2.1
    exact ⟨o1.trans hs2.1, o2.trans hs2.2⟩
  unfold try_post
  apply key
  by_cases c1 : first.date_posted = ""
  · simp [c1]
  · cases hb : s.book[idx]? with
    | none => simp [c1]
    | some inv =>
      by_cases c2 : env.curr_count inv = 0
      · by_cases c3 : inv.currency = env.gnc_account_get_currency_or_parent
            (env.gnc_account_lookup_for_register first.account_posted)
        · simp [c1, c2, c3]
        · simp [c1, c2, c3]
      · simp [c1, c2]

theorem add_entry_iter (env : Env) (bill : Bool) (open_mode : String) (store : List Row)
    (idx : Nat) (r : Row) (notes : String) (s : CreateState) :
    (add_entry env bill open_mode store idx r notes s).iter = s.iter + 1 ∧
    (add_entry env bill open_mode store idx r notes s).returned = s.returned := by
  unfold add_entry
  simp only
  split_ifs
  · simp
  · split
    · rw [(try_post_iter _ _ _ _ _ _).1, (try_post_iter _ _ _ _ _ _).2]; simp
    · simp

theorem start_group_iter (s : CreateState) (r : Row) :
    (start_group s r).iter = s.iter ∧ (start_group s r).returned = s.returned := by
  unfold start_group
  split_ifs <;> simp

/-- An iteration of the reconciliation loop steps to the next row, or takes
the `return` of line 703. -/
theorem create_body_iter (env : Env) (bill : Bool) (open_mode : String) (store : List Row)
    (s : CreateState) (r : Row) :
    (create_body env bill open_mode store s r).returned = true ∨
    (create_body env bill open_mode store s r).iter = s.iter + 1 := by
  obtain ⟨g1, -⟩ := start_group_iter s r
  unfold create_body
  simp only
  split
  · right; rw [(add_entry_iter _ _ _ _ _ _ _ _).1]; simp [create_invoice, g1]
  · split_ifs
    · right; simp [g1]
    · left; rfl
    · right; rw [(add_entry_iter _ _ _ _ _ _ _ _).1]; simp [ask_update, g1]
    · right; rw [(add_entry_iter _ _ _ _ _ _ _ _).1]; simp [g1]

theorem create_loop_finished (env : Env) (bill : Bool) (open_mode : String) (store : List Row) :
    ∀ (fuel : Nat) (s : CreateState), store.length - s.iter ≤ fuel →
      (create_loop env bill open_mode store fuel s).returned = true ∨
      store[(create_loop env bill open_mode store fuel s).iter]? = none := by
  intro fuel
  induction fuel with
  | zero =>
    intro s h
    right
    exact List.getElem?_eq_none (by simp [create_loop]; omega)
  | succ n ih =>
    intro s h
    unfold create_loop
    split_ifs with hr
    · left; exact hr
    · split
      · rename_i r hrow
        rcases create_body_iter env bill open_mode store s r with h1 | h1
        · left
          cases n with
          | zero => simpa [create_loop] using h1
          | succ m => simp [create_loop, h1]
        · exact ih _ (by omega)
      · rename_i hrow
        right; exact hrow

/-- The reconciliation pass runs to its end: when it returns, the `return` of
line 703 was taken or the iterator is past the last row. -/
theorem create_bis_finished (env : Env) (store : List Row) (book : List GncInvoice)
    (type open_mode info : String) (s : CreateState)
    (h : gnc_bi_import_create_bis env store book type open_mode info = some s) :
    s.returned = true ∨ store[s.iter]? = none := by
  unfold gnc_bi_import_create_bis at h
  split_ifs at h
  simp at h
  rw [← h]
  exact create_loop_finished env _ open_mode store store.length _ (by simp)

/-! ## The log and the counters of one iteration (C15, C16, C17, C18) -/

theorem close_invoice_info (s : FixState) :
    (close_invoice s).info = s.info ∧
    (close_invoice s).fixed + (close_invoice s).fixed_for_invoice =
      s.fixed + s.fixed_for_invoice := by
  unfold close_invoice
  split_ifs <;> simp

theorem inherit_id_info (env : Env) (s : FixState) :
    (inherit_id env s).info = s.info ∧ (inherit_id env s).fixed = s.fixed ∧
    (inherit_id env s).fixed_for_invoice = s.fixed_for_invoice := by
  unfold inherit_id
  cases s.remove_failed <;> cases s.store[s.iter]? <;> simp <;> split_ifs <;> simp

theorem move_on_info (ignore : Bool) (s : FixState) :
    (move_on ignore s).info = s.info ∧ (move_on ignore s).fixed = s.fixed ∧
    (ignore = false → (move_on ignore s).fixed_for_invoice = s.fixed_for_invoice) := by
  unfold move_on
  split_ifs with h <;> simp [h]

/-- The log after an iteration is the log left by the checks of the row. -/
theorem fix_body_info (env : Env) (type : String) (s : FixState) (r : Row) :
    (fix_body env type s r).info = (row_pass env type s r).info := by
  unfold fix_body
  simp only
  rw [(close_invoice_info _).1, (inherit_id_info _ _).1, (move_on_info _ _).1]
  rfl

theorem start_invoice_fixed (s : FixState) (r : Row) :
    (start_invoice s r).fixed = s.fixed ∧
    (start_invoice s r).fixed_for_invoice = s.fixed_for_invoice := by
  unfold start_invoice
  split_ifs <;> simp

/-- Line 456 and lines 489-495: when the invoice is not ignored, a repaired row
adds one to `fixed_for_invoice`, which is moved to `fixed` when the invoice
closes. -/
theorem fix_body_fixed (env : Env) (type : String) (s : FixState) (r : Row)
    (hacc : (row_pass env type s r).ignore_invoice = false) :
    (fix_body env type s r).fixed + (fix_body env type s r).fixed_for_invoice =
      s.fixed + s.fixed_for_invoice + (if (row_pass env type s r).row_fixed then 1 else 0) := by
  unfold fix_body
  simp only
  rw [(close_invoice_info _).2, (inherit_id_info _ _).2.1, (inherit_id_info _ _).2.2,
    (move_on_info _ _).2.1, (move_on_info _ _).2.2 hacc]
  unfold after_checks
  simp only
  rw [(start_invoice_fixed s r).1, (start_invoice_fixed s r).2]
  split_ifs <;> omega

/-- Lines 410-455 on a row whose price is blank: the row is ignored and the
line "price not set" is appended to the log; nothing else happens. -/
theorem validate_item_price_blank (env : Env) (row : Nat) (id date_opened : String) (p : Pass)
    (hp : p.cur.price = "") :
    validate_item env row id date_opened p =
      { p with ignore_invoice := true,
               info := p.info ++ "Row " ++ toString row ++ ": invoice " ++ id ++
                 " ignored, price not set.\n" } := by
  unfold validate_item fix_item check_account check_price
  simp [hp]

/-- Lines 410-455 on a row that a header check already ignored and whose price
is set: nothing happens. -/
theorem validate_item_ignored (env : Env) (row : Nat) (id date_opened : String) (p : Pass)
    (hi : p.ignore_invoice = true) (hp : p.cur.price ≠ "") :
    validate_item env row id date_opened p = p := by
  unfold validate_item fix_item check_account check_price
  simp [hp, hi]

/-- Lines 278-398 on a first row with a blank id, a blank owner id or an owner
that is not found: the row is ignored, the line that names the reason is added
to the log, and the row is not rewritten. -/
theorem validate_header_rejects (env : Env) (type : String) (row : Nat) (r : Row) (p : Pass)
    (hp : p.ignore_invoice = false)
    (h : r.id = "" ∨ r.owner_id = "" ∨
      (g_ascii_strcasecmp_eq type "BILL" = true ∧
        env.gnc_search_vendor_on_id r.owner_id = none) ∨
      (g_ascii_strcasecmp_eq type "BILL" = false ∧ g_ascii_strcasecmp_eq type "INVOICE" = true ∧
        env.gnc_search_customer_on_id r.owner_id = none)) :
    validate_header env type row r p =
      { p with ignore_invoice := true, info := p.info ++ header_reason type row r } := by
  unfold validate_header fix_date_opened check_posting check_owner_exists check_id_owner
    header_reason
  by_cases h1 : r.id = ""
  · simp [h1, hp, String.append_assoc]
  · by_cases h2 : r.owner_id = ""
    · simp [h1, h2, hp, String.append_assoc]
    · rcases h with h | h | ⟨hb, hv⟩ | ⟨hb, hi, hc⟩
      · exact absurd h h1
      · exact absurd h h2
      · simp [h1, h2, hp, hb, hv, String.append_assoc]
      · simp [h1, h2, hp, hb, hi, hc, String.append_assoc]

/-- C15: when an iteration processes the row `r` under the iterator as the
first row of a group and `r` has a blank id, a blank owner id, or an owner id
that does not resolve to a vendor (type BILL) or to a customer (type
INVOICE), then after the iteration the row is gone from the table (the rows
before it are followed directly by the rows after it that do not carry its
id), `deleted` has counted it (and the following rows with its id), and the
log has gained the line that names the reason. -/
theorem C15_first_row_header_rejected (env : Env) (type : String) (s : FixState) (r : Row)
    (pre tail : List Row) (hs : s.store = pre ++ r :: tail) (hi : s.iter = pre.length)
    (hof : s.on_first_row_of_invoice = true)
    (h : r.id = "" ∨ r.owner_id = "" ∨
      (g_ascii_strcasecmp_eq type "BILL" = true ∧
        env.gnc_search_vendor_on_id r.owner_id = none) ∨
      (g_ascii_strcasecmp_eq type "BILL" = false ∧ g_ascii_strcasecmp_eq type "INVOICE" = true ∧
        env.gnc_search_customer_on_id r.owner_id = none)) :
    (fix_body env type s r).store =
      pre ++ inherit_head r.id (tail.dropWhile (fun x => decide (x.id = r.id))) ∧
    (fix_body env type s r).store.length < s.store.length ∧
    (fix_body env type s r).deleted =
      s.deleted + 1 + (tail.takeWhile (fun x => decide (x.id = r.id))).length ∧
    ∃ rest, (fix_body env type s r).info = s.info ++ header_reason type s.row r ++ rest := by
  obtain ⟨t1, t2, t3, t4, t5, t6, t7⟩ := start_invoice_fields s r
  rw [hof] at t4 t5 t6 t7
  simp only [if_true] at t4 t5 t6 t7
  have hhead := validate_header_rejects env type s.row r
    { ignore_invoice := false, row_fixed := false, info := s.info, cur := r } rfl h
  have hpass : (row_pass env type s r).ignore_invoice = true ∧
      (row_pass env type s r).cur = r ∧
      ∃ rest, (row_pass env type s r).info = s.info ++ header_reason type s.row r ++ rest := by
    unfold row_pass
    simp only [hof, if_true]
    rw [hhead]
    by_cases hp : r.price = ""
    · rw [validate_item_price_blank _ _ _ _ _ hp]
      exact ⟨rfl, rfl, "Row " ++ toString s.row ++ ": invoice " ++ (start_invoice s r).id ++
        " ignored, price not set.\n", by simp [String.append_assoc]⟩
    · rw [validate_item_ignored _ _ _ _ _ rfl hp]
      exact ⟨rfl, rfl, "", by simp⟩
  obtain ⟨p1, p2, p3⟩ := hpass
  obtain ⟨a1, a2, a3, a4, a5, -⟩ := fix_body_reject env type s r pre tail hs hi p1
    (by rw [t6, hi]) (by rw [t6, hi]; simp) (by rw [p2, t4]) (by rw [t5, t4]) t7
  rw [t4, t6, hi] at a1
  rw [t4, t6, hi] at a5
  simp only [List.take_length] at a1
  have hlen : s.store.length = pre.length + 1 + tail.length := by rw [hs]; simp; omega
  have htd := congrArg List.length
    (List.takeWhile_append_dropWhile (fun x : Row => decide (x.id = r.id)) tail)
  simp only [List.length_append] at htd
  refine ⟨a1, ?_, by omega, ?_⟩
  · rw [a1, hlen]; simp [inherit_head_length]; omega
  · rw [fix_body_info]; exact p3

/-- C15 on the sample book: the single row `line1_no_owner`, whose owner id is
blank, is removed, counted in `deleted` and reported in the log. -/
theorem C15_witness :
    (fix_body sample_env "INVOICE" (fix_init [line1_no_owner] "") line1_no_owner).store = [] ∧
    (fix_body sample_env "INVOICE" (fix_init [line1_no_owner] "") line1_no_owner).store.length
      < 1 ∧
    (fix_body sample_env "INVOICE" (fix_init [line1_no_owner] "") line1_no_owner).deleted = 1 ∧
    ∃ rest, (fix_body sample_env "INVOICE" (fix_init [line1_no_owner] "") line1_no_owner).info =
      "" ++ "Row 1: invoice INV1 ignored, owner not set.\n" ++ rest :=
  C15_first_row_header_rejected sample_env "INVOICE" (fix_init [line1_no_owner] "")
    line1_no_owner [] [] rfl rfl rfl (Or.inr (Or.inl (by decide)))

/-! ## The repair of the item date (C17) -/

/-- C17, the code at the failing input: the first row of the group has a blank
`date_opened`, repaired to today's date "2024-02-02"; the second row of the
group has a blank `date`, and the pass stores in it the old, blank
`date_opened`, not the `date_opened` of the validated table. -/
theorem C17_item_date_gets_stale_date_opened :
    (gnc_bi_import_fix_bis sample_env "INVOICE" [line1_no_opened, line2_no_date] "").store
      = [{ line1 with date_opened := "2024-02-02" },
         { line2 with id := "INV1", date := "" }] ∧
    sample_env.isDateValid line2_no_date.date = false ∧
    (gnc_bi_import_fix_bis sample_env "INVOICE" [line1_no_opened, line2_no_date] "").fixed = 2 := by
  decide

/-! ## The posting checks of a first row (C16) -/

/-- The checks of every row leave the posting columns alone, keep the mark
`row_fixed`, and ignore the row exactly when it was ignored before, or its
price is blank, or its account is not found. -/
theorem validate_item_frame (env : Env) (row : Nat) (id date_opened : String) (p : Pass) :
    (validate_item env row id date_opened p).cur.date_posted = p.cur.date_posted ∧
    (validate_item env row id date_opened p).cur.account_posted = p.cur.account_posted ∧
    (validate_item env row id date_opened p).cur.due_date = p.cur.due_date ∧
    (p.row_fixed = true → (validate_item env row id date_opened p).row_fixed = true) ∧
    ((validate_item env row id date_opened p).ignore_invoice = true ↔
      p.ignore_invoice = true ∨ p.cur.price = "" ∨
        env.gnc_account_lookup_for_register p.cur.account = none) := by
  unfold validate_item fix_item check_account check_price
  cases h3 : p.ignore_invoice <;> by_cases h1 : p.cur.price = "" <;>
    by_cases h2 : p.cur.quantity = "" <;>
    cases h4 : (env.gnc_account_lookup_for_register p.cur.account) <;>
    cases h5 : env.isDateValid p.cur.date <;> simp [h1, h2, h3, h4, h5]

/-- Lines 278-322 on a first row with an id, an owner id and an owner that
is found: nothing happens. -/
theorem owner_checks_pass (env : Env) (type : String) (row : Nat) (r : Row) (p : Pass)
    (hp : p.ignore_invoice = false) (hid : r.id ≠ "") (how : r.owner_id ≠ "")
    (hv : g_ascii_strcasecmp_eq type "BILL" = true →
      (env.gnc_search_vendor_on_id r.owner_id).isSome = true)
    (hc : g_ascii_strcasecmp_eq type "BILL" = false → g_ascii_strcasecmp_eq type "INVOICE" = true →
      (env.gnc_search_customer_on_id r.owner_id).isSome = true) :
    check_owner_exists env type row r.id r.owner_id (check_id_owner row r.id r.owner_id p) = p := by
  have e1 : check_id_owner row r.id r.owner_id p = p := by
    unfold check_id_owner
    simp [hid, how, hp]
  rw [e1]
  unfold check_owner_exists
  cases hB : g_ascii_strcasecmp_eq type "BILL"
  · cases hI : g_ascii_strcasecmp_eq type "INVOICE"
    · simp [hp]
    · have := hc hB hI
      simp [hp]
      intro hn; rw [hn] at this; simp at this
  · have := hv hB
    simp [hp]
    intro hn; rw [hn] at this; simp at this

/-- Lines 324-383 on a row that is not ignored and whose `date_posted` is set:
the row is ignored exactly when the posting checks reject it; otherwise an
invalid `due_date` is replaced by `date_posted` and the row is marked fixed. -/
theorem check_posting_set (env : Env) (type : String) (row : Nat) (r : Row) (p : Pass)
    (hp : p.ignore_invoice = false) (hd : r.date_posted ≠ "") :
    (check_posting env type row r.id r.date_posted r.account_posted r.due_date p).ignore_invoice
      = posting_rejected env type r ∧
    (posting_rejected env type r = false →
      (check_posting env type row r.id r.date_posted r.account_posted r.due_date p).cur =
        (if env.isDateValid r.due_date then p.cur
         else { p.cur with due_date := r.date_posted }) ∧
      (env.isDateValid r.due_date = false →
        (check_posting env type row r.id r.date_posted r.account_posted r.due_date p).row_fixed
          = true)) := by
  unfold check_posting fix_due_date check_account_posted check_date_posted posting_rejected
  cases h1 : env.isDateValid r.date_posted
  · simp [hp, hd, h1]
  · cases h2 : env.gnc_account_lookup_for_register r.account_posted with
    | none => simp [hp, hd, h1, h2]
    | some acc =>
      cases hB : g_ascii_strcasecmp_eq type "BILL"
      · cases hI : g_ascii_strcasecmp_eq type "INVOICE"
        · cases h3 : env.isDateValid r.due_date <;> simp [hp, hd, h1, h2, hB, hI, h3]
        · by_cases hR : acc.type = GNCAccountType.ACCT_TYPE_RECEIVABLE
          · cases h3 : env.isDateValid r.due_date <;> simp [hp, hd, h1, h2, hB, hI, h3, hR]
          · simp [hp, hd, h1, h2, hB, hI, hR]
      · by_cases hP : acc.type = GNCAccountType.ACCT_TYPE_PAYABLE
        · cases h3 : env.isDateValid r.due_date <;> simp [hp, hd, h1, h2, hB, h3, hP]
        · simp [hp, hd, h1, h2, hB, hP]

theorem fix_date_opened_frame (env : Env) (date_opened : String) (p : Pass) :
    (fix_date_opened env date_opened p).ignore_invoice = p.ignore_invoice ∧
    (fix_date_opened env date_opened p).info = p.info ∧
    (fix_date_opened env date_opened p).cur.date_posted = p.cur.date_posted ∧
    (fix_date_opened env date_opened p).cur.account_posted = p.cur.account_posted ∧
    (fix_date_opened env date_opened p).cur.due_date = p.cur.due_date ∧
    (fix_date_opened env date_opened p).cur.price = p.cur.price ∧
    (fix_date_opened env date_opened p).cur.account = p.cur.account ∧
    (p.row_fixed = true → (fix_date_opened env date_opened p).row_fixed = true) := by
  unfold fix_date_opened
  split_ifs <;> simp

/-- C16: for the first row `r` of a group that passes the id and owner checks.
When `date_posted` is blank, the checks of the iteration leave `date_posted`,
`account_posted` and `due_date` as they are and ignore the row only for its
price or its line account. When `date_posted` is set, the row is ignored if
`date_posted` is not a valid date, `account_posted` does not resolve, or the
account is not payable (BILL) / receivable (INVOICE); otherwise an invalid
`due_date` is replaced by `date_posted`, the row is marked fixed, and, when
the row is not ignored for its price or line account, the fix is counted. -/
theorem C16_posting_checks_of_first_row (env : Env) (type : String) (s : FixState) (r : Row)
    (hof : s.on_first_row_of_invoice = true) (hid : r.id ≠ "") (how : r.owner_id ≠ "")
    (hv : g_ascii_strcasecmp_eq type "BILL" = true →
      (env.gnc_search_vendor_on_id r.owner_id).isSome = true)
    (hc : g_ascii_strcasecmp_eq type "BILL" = false → g_ascii_strcasecmp_eq type "INVOICE" = true →
      (env.gnc_search_customer_on_id r.owner_id).isSome = true) :
    (r.date_posted = "" →
      (row_pass env type s r).cur.date_posted = r.date_posted ∧
      (row_pass env type s r).cur.account_posted = r.account_posted ∧
      (row_pass env type s r).cur.due_date = r.due_date ∧
      ((row_pass env type s r).ignore_invoice = true ↔
        r.price = "" ∨ env.gnc_account_lookup_for_register r.account = none)) ∧
    (r.date_posted ≠ "" → posting_rejected env type r = true →
      (row_pass env type s r).ignore_invoice = true) ∧
    (r.date_posted ≠ "" → posting_rejected env type r = false →
      (row_pass env type s r).cur.date_posted = r.date_posted ∧
      (row_pass env type s r).cur.account_posted = r.account_posted ∧
      (row_pass env type s r).cur.due_date =
        (if env.isDateValid r.due_date then r.due_date else r.date_posted) ∧
      ((row_pass env type s r).ignore_invoice = true ↔
        r.price = "" ∨ env.gnc_account_lookup_for_register r.account = none) ∧
      (env.isDateValid r.due_date = false →
        (row_pass env type s r).row_fixed = true ∧
        ((row_pass env type s r).ignore_invoice = false →
          (fix_body env type s r).fixed + (fix_body env type s r).fixed_for_invoice =
            s.fixed + s.fixed_for_invoice + 1))) := by
  have hown := owner_checks_pass env type s.row r
    { ignore_invoice := false, row_fixed := false, info := s.info, cur := r } rfl hid how hv hc
  have hpass : row_pass env type s r =
      validate_item env s.row (start_invoice s r).id (start_invoice s r).date_opened
        (fix_date_opened env r.date_opened
          (check_posting env type s.row r.id r.date_posted r.account_posted r.due_date
            { ignore_invoice := false, row_fixed := false, info := s.info, cur := r })) := by
    unfold row_pass
    simp only [hof, if_true]
    unfold validate_header
    rw [hown]
  obtain ⟨v1, v2, v3, v4, v5⟩ := validate_item_frame env s.row (start_invoice s r).id
    (start_invoice s r).date_opened
    (fix_date_opened env r.date_opened
      (check_posting env type s.row r.id r.date_posted r.account_posted r.due_date
        { ignore_invoice := false, row_fixed := false, info := s.info, cur := r }))
  obtain ⟨f1, -, f3, f4, f5, f6, f7, f8⟩ := fix_date_opened_frame env r.date_opened
    (check_posting env type s.row r.id r.date_posted r.account_posted r.due_date
      { ignore_invoice := false, row_fixed := false, info := s.info, cur := r })
  rw [← hpass] at v1 v2 v3 v4 v5
  rw [f3] at v1
  rw [f4] at v2
  rw [f5] at v3
  rw [f1, f6, f7] at v5
  refine ⟨fun hd => ?_, fun hd hrej => ?_, fun hd hok => ?_⟩
  · have hq : check_posting env type s.row r.id r.date_posted r.account_posted r.due_date
        { ignore_invoice := false, row_fixed := false, info := s.info, cur := r } =
        { ignore_invoice := false, row_fixed := false, info := s.info, cur := r } := by
      unfold check_posting
      simp [hd]
    rw [hq] at v1 v2 v3 v5
    refine ⟨v1, v2, v3, ?_⟩
    rw [v5]; simp
  · obtain ⟨c1, -⟩ := check_posting_set env type s.row r
      { ignore_invoice := false, row_fixed := false, info := s.info, cur := r } rfl hd
    rw [v5, c1, hrej]; simp
  · obtain ⟨c1, c2⟩ := check_posting_set env type s.row r
      { ignore_invoice := false, row_fixed := false, info := s.info, cur := r } rfl hd
    obtain ⟨c3, c4⟩ := c2 hok
    rw [c1, hok] at v5
    rw [c3] at v1 v2 v3 v5
    refine ⟨?_, ?_, ?_, ?_, fun hdue => ?_⟩
    · rw [v1]; split_ifs <;> rfl
    · rw [v2]; split_ifs <;> rfl
    · rw [v3]; split_ifs <;> rfl
    · rw [v5]
      cases env.isDateValid r.due_date <;> simp
    · have hrf : (row_pass env type s r).row_fixed = true := v4 (f8 (c4 hdue))
      refine ⟨hrf, fun hacc => ?_⟩
      rw [fix_body_fixed env type s r hacc, hrf]
      simp

/-- C16 on the sample book: the first row `line1_post_no_due` asks for posting
to "AR" on a valid date and has a blank due date; the due date becomes the
posting date and the fix is counted. -/
theorem C16_witness :
    (row_pass sample_env "INVOICE" (fix_init [line1_post_no_due] "")
      line1_post_no_due).cur.due_date = "2024-01-31" ∧
    (fix_body sample_env "INVOICE" (fix_init [line1_post_no_due] "") line1_post_no_due).fixed +
      (fix_body sample_env "INVOICE" (fix_init [line1_post_no_due] "")
        line1_post_no_due).fixed_for_invoice = 1 :=
  have h := (C16_posting_checks_of_first_row sample_env "INVOICE"
    (fix_init [line1_post_no_due] "") line1_post_no_due rfl (by decide) (by decide)
    (by decide) (by decide)).2.2 (by decide) (by decide)
  ⟨h.2.2.1, (h.2.2.2.2 (by decide)).2 (by decide)⟩

/-! ## The entry added for a row (C11, C19, C20) -/

theorem entries_added_append (t1 t2 : List Event) :
    entries_added (t1 ++ t2) = entries_added t1 ++ entries_added t2 := by
  induction t1 with
  | nil => rfl
  | cons e t ih => cases e <;> simp [entries_added, ih]

/-- C19 fails on the row that creates its document, and on every bill row. The
invoice row with notes `5""·pipe` (two quote characters) creates a document
whose notes are the once un-escaped text (one quote left), while the entry of
the same row carries the text un-escaped twice (no quote left): the variable
`notes` is un-escaped at line 647 and again at line 725. The same row sent as
a bill gives an entry with no notes at all, since only the invoice branch sets
them. The description is un-escaped once in both cases. -/
theorem C19_entry_notes_un_escaped_twice :
    un_escape line1_quoted_notes.notes = "5" ++ dq ++ " pipe" ∧
    (gnc_bi_import_create_bis sample_env [line1_quoted_notes] [] "INVOICE" "NONE" "").map
        (fun s => s.book.map (fun inv => (inv.notes, inv.entries.map (fun e => e.notes)))) =
      some [("5" ++ dq ++ " pipe", [some "5 pipe"])] ∧
    (gnc_bi_import_create_bis sample_env [bill_quoted_notes] [] "BILL" "NONE" "").map
        (fun s => s.book.map (fun inv => (inv.notes, inv.entries.map (fun e => e.notes)))) =
      some [("5" ++ dq ++ " pipe", [none])] ∧
    (gnc_bi_import_create_bis sample_env [line1_quoted_notes] [] "INVOICE" "NONE" "").map
        (fun s => s.book.map (fun inv => inv.entries.map (fun e => e.description))) =
      some [[un_escape line1_quoted_notes.desc]] := by
  decide

theorem fgets_chars_append (n : Nat) (cs : List Char) :
    (fgets_chars n cs).1 ++ (fgets_chars n cs).2.1 = cs := by
  induction n generalizing cs with
  | zero => simp [fgets_chars]
  | succ n ih =>
    cases cs with
    | nil => simp [fgets_chars]
    | cons c cs =>
      unfold fgets_chars
      by_cases hc : c = newline
      · simp [hc]
      · simp [hc, ih cs]

theorem fgets_progress (size : Nat) (f : FILE) (line : String)
    (h : (fgets size f).1 = some line) :
    (fgets size f).2.rest.length < f.rest.length := by
  have ha := fgets_chars_append (size - 1) f.rest
  unfold fgets at h ⊢
  by_cases he : (fgets_chars (size - 1) f.rest).1 = []
  · simp [he] at h
  · simp only [he, if_false]
    have hl : 0 < (fgets_chars (size - 1) f.rest).1.length := List.length_pos.mpr he
    have := congrArg List.length ha
    rw [List.length_append] at this
    omega

theorem read_body_f (env : ReadEnv) (regexpat : GRegex) (line : String) (st : ReadState) :
    (read_body env regexpat line st).f = st.f := by
  unfold read_body
  cases hm : line_match env regexpat (strip_newline line) <;> simp [hm]

/-- The loop returns: every turn that goes on shortens the stream. -/
theorem read_loop_total (env : ReadEnv) (regexpat : GRegex) (max_rows : Nat) (fuel : Nat)
    (st : ReadState) (h : st.f.rest.length < fuel) :
    (read_loop env regexpat max_rows fuel st).isSome = true := by
  induction fuel generalizing st with
  | zero => omega
  | succ fuel ih =>
    unfold read_loop
    split
    · cases hg : (fgets buffer_size st.f).1 with
      | none => simp
      | some line =>
        simp only
        apply ih
        rw [read_body_f]
        have := fgets_progress buffer_size st.f line hg
        simp only
        omega
    · simp

theorem rows_of_append (env : ReadEnv) (regexpat : GRegex) (a b : List String) :
    rows_of env regexpat (a ++ b) = rows_of env regexpat a ++ rows_of env regexpat b := by
  simp [rows_of, List.filterMap_append]

theorem unmatched_append (env : ReadEnv) (regexpat : GRegex) (a b : List String) :
    unmatched env regexpat (a ++ b) = unmatched env regexpat a ++ unmatched env regexpat b := by
  simp [unmatched]

theorem String_join_append (a b : List String) :
    String.join (a ++ b) = String.join a ++ String.join b := by
  apply String.ext
  simp [String.join_eq]

theorem ignored_of_append (env : ReadEnv) (regexpat : GRegex) (a b : List String) :
    ignored_of env regexpat (a ++ b) =
      ignored_of env regexpat a ++ ignored_of env regexpat b := by
  simp [ignored_of, unmatched_append, String_join_append]

/-- Every examined line is counted once: as a row or as an ignored line. -/
theorem rows_unmatched_length (env : ReadEnv) (regexpat : GRegex) (lines : List String) :
    (rows_of env regexpat lines).length + (unmatched env regexpat lines).length =
      lines.length := by
  induction lines with
  | nil => rfl
  | cons l ls ih =>
    unfold rows_of unmatched at *
    cases hm : line_match env regexpat l with
    | none => simp [List.filterMap_cons, List.filter_cons, hm] at *; omega
    | some m => simp [List.filterMap_cons, List.filter_cons, hm] at *; omega

/-- The effect of the loop body on one line. -/
theorem read_body_spec (env : ReadEnv) (regexpat : GRegex) (line : String) (st : ReadState) :
    (read_body env regexpat line st).lines = st.lines ++ [strip_newline line] ∧
    (read_body env regexpat line st).store =
      st.store ++ rows_of env regexpat [strip_newline line] ∧
    (read_body env regexpat line st).stats.n_imported =
      st.stats.n_imported + (rows_of env regexpat [strip_newline line]).length ∧
    (read_body env regexpat line st).stats.n_ignored =
      st.stats.n_ignored + (unmatched env regexpat [strip_newline line]).length ∧
    (read_body env regexpat line st).stats.ignored_lines =
      st.stats.ignored_lines ++ ignored_of env regexpat [strip_newline line] ∧
    (read_body env regexpat line st).n_fgets = st.n_fgets := by
  unfold read_body
  cases hm : line_match env regexpat (strip_newline line) with
  | none =>
    simp [rows_of, unmatched, ignored_of, hm, String.join]
  | some m =>
    simp [rows_of, unmatched, ignored_of, hm, String.join]

/-- The loop, whatever the file: the lines examined give the rows appended,
the counters and the ignored text. -/
theorem read_loop_spec (env : ReadEnv) (regexpat : GRegex) (max_rows : Nat) (fuel : Nat)
    (st st2 : ReadState) (h : read_loop env regexpat max_rows fuel st = some st2) :
    ∃ examined_now : List String,
      st2.lines = st.lines ++ examined_now ∧
      st2.store = st.store ++ rows_of env regexpat examined_now ∧
      st2.stats.n_imported = st.stats.n_imported + (rows_of env regexpat examined_now).length ∧
      st2.stats.n_ignored = st.stats.n_ignored + (unmatched env regexpat examined_now).length ∧
      st2.stats.ignored_lines =
        st.stats.ignored_lines ++ ignored_of env regexpat examined_now ∧
      st.n_fgets + examined_now.length ≤ st2.n_fgets := by
  induction fuel generalizing st with
  | zero => simp [read_loop] at h
  | succ fuel ih =>
    unfold read_loop at h
    split at h
    · cases hg : (fgets buffer_size st.f).1 with
      | none =>
        rw [hg] at h
        simp only [Option.some.injEq] at h
        subst h
        exact ⟨[], by simp [rows_of, unmatched, ignored_of, String.join]⟩
      | some line =>
        rw [hg] at h
        simp only at h
        obtain ⟨ex, h1, h2, h3, h4, h5, h6⟩ := ih _ h
        obtain ⟨b1, b2, b3, b4, b5, b6⟩ := read_body_spec env regexpat line
          { st with f := (fgets buffer_size st.f).2, n_fgets := st.n_fgets + 1 }
        refine ⟨[strip_newline line] ++ ex, ?_, ?_, ?_, ?_, ?_, ?_⟩
        · rw [h1, b1]; simp
        · rw [h2, b2, rows_of_append]; simp
        · rw [h3, b3, rows_of_append, List.length_append]; simp only; omega
        · rw [h4, b4, unmatched_append, List.length_append]; simp only; omega
        · rw [h5, b5, ignored_of_append]; simp only [String.append_assoc]
        · rw [b6] at h6; simp only [List.length_append, List.length_singleton] at h6 ⊢; omega
    · simp only [Option.some.injEq] at h
      subst h
      exact ⟨[], by simp [rows_of, unmatched, ignored_of, String.join]⟩

theorem fgets_chars_line (n : Nat) (l rest : List Char) (hn : newline ∉ l)
    (hl : l.length < n) :
    fgets_chars n (l ++ newline :: rest) = (l ++ [newline], rest, false) := by
  induction l generalizing n with
  | nil =>
    cases n with
    | zero => simp at hl
    | succ n => simp [fgets_chars]
  | cons c l ih =>
    cases n with
    | zero => simp at hl
    | succ n =>
      have hc : c ≠ newline := fun h => hn (by simp [h])
      have hn2 : newline ∉ l := fun h => hn (by simp [h])
      have := ih n hn2 (by simpa using hl)
      simp [fgets_chars, hc, this]

theorem fgets_chars_last (n : Nat) (l : List Char) (hn : newline ∉ l) (hl : l.length < n) :
    fgets_chars n l = (l, [], true) := by
  induction l generalizing n with
  | nil =>
    cases n with
    | zero => simp at hl
    | succ n => simp [fgets_chars]
  | cons c l ih =>
    cases n with
    | zero => simp at hl
    | succ n =>
      have hc : c ≠ newline := fun h => hn (by simp [h])
      have hn2 : newline ∉ l := fun h => hn (by simp [h])
      have := ih n hn2 (by simpa using hl)
      simp [fgets_chars, hc, this]

theorem strip_newline_line (l : String) :
    strip_newline (String.mk (l.data ++ [newline])) = l := by
  simp [strip_newline]

theorem strip_newline_none (l : String) (hn : newline ∉ l.data) : strip_newline l = l := by
  unfold strip_newline
  have : l.data.getLast? ≠ some newline := by
    intro h
    exact hn (List.mem_of_getLast?_eq_some h)
  simp [this]

/-- The `fgets` of a line that fits the buffer gives the line with its
newline and leaves the stream after it. -/
theorem fgets_line (f : FILE) (l : String) (rest : List Char) (hf : fits_buffer l)
    (hr : f.rest = l.data ++ newline :: rest) :
    fgets buffer_size f = (some (String.mk (l.data ++ [newline])), { rest := rest, eof := f.eof }) := by
  have h := fgets_chars_line (buffer_size - 1) l.data rest hf.1
    (by have := hf.2; simp only [String.length] at this; omega)
  unfold fgets
  simp [hr, h]

theorem fgets_last (f : FILE) (l : String) (hf : fits_buffer l) (hne : l ≠ "")
    (hr : f.rest = l.data) :
    fgets buffer_size f = (some l, { rest := [], eof := true }) := by
  have h := fgets_chars_last (buffer_size - 1) l.data hf.1
    (by have := hf.2; simp only [String.length] at this; omega)
  have hd : l.data ≠ [] := by
    intro hd
    apply hne
    apply String.ext
    simpa using hd
  unfold fgets
  simp [hr, h, hd]

theorem fgets_end (f : FILE) (hr : f.rest = []) :
    (fgets buffer_size f).1 = none := by
  unfold fgets
  simp [hr, buffer_size, fgets_chars]

/-- The body counts the line: one of the two counters grows by one. -/
theorem read_body_count (env : ReadEnv) (regexpat : GRegex) (line : String) (st : ReadState) :
    (read_body env regexpat line st).stats.n_imported +
      (read_body env regexpat line st).stats.n_ignored =
    st.stats.n_imported + st.stats.n_ignored + 1 := by
  obtain ⟨-, -, b3, b4, -, -⟩ := read_body_spec env regexpat line st
  have := rows_unmatched_length env regexpat [strip_newline line]
  rw [b3, b4]
  simp only [List.length_singleton] at this
  omega

theorem read_body_lines (env : ReadEnv) (regexpat : GRegex) (line : String) (st : ReadState) :
    (read_body env regexpat line st).lines = st.lines ++ [strip_newline line] :=
  (read_body_spec env regexpat line st).1

theorem budget_cons (max_rows done : Nat) (l : String) (ls : List String)
    (h : max_rows = 0 ∨ done < max_rows) :
    budget max_rows done (l :: ls) = l :: budget max_rows (done + 1) ls := by
  unfold budget
  by_cases h0 : max_rows = 0
  · simp [h0]
  · simp only [h0, if_false]
    have hd : done < max_rows := by rcases h with h | h; exact absurd h h0; exact h
    have : max_rows - done = (max_rows - (done + 1)) + 1 := by omega
    rw [this, List.take_succ_cons]

theorem budget_stop (max_rows done : Nat) (ls : List String)
    (h : ¬ (max_rows = 0 ∨ done < max_rows)) : budget max_rows done ls = [] := by
  unfold budget
  have h0 : max_rows ≠ 0 := fun e => h (Or.inl e)
  have hd : max_rows - done = 0 := by
    have : ¬ done < max_rows := fun e => h (Or.inr e)
    omega
  simp [h0, hd]

/-- On a file of lines that fit the buffer the loop examines the lines of the
file one by one, as far as the limit allows. -/
theorem read_loop_lines (env : ReadEnv) (regexpat : GRegex) (max_rows : Nat)
    (lines : List String) (last : String) (hlast : fits_buffer last) :
    ∀ (fuel : Nat) (st : ReadState), (∀ l ∈ lines, fits_buffer l) →
      st.f.rest = file_of lines last → st.f.eof = false → st.f.rest.length < fuel →
      ∃ st2, read_loop env regexpat max_rows fuel st = some st2 ∧
        st2.lines = st.lines ++
          budget max_rows (st.stats.n_imported + st.stats.n_ignored) (lines_of lines last) := by
  induction lines with
  | nil =>
    intro fuel st _ hr he hfuel
    have hr2 : st.f.rest = last.data := by simpa [file_of] using hr
    cases fuel with
    | zero => omega
    | succ fuel =>
      unfold read_loop
      by_cases hb : max_rows = 0 ∨ st.stats.n_imported + st.stats.n_ignored < max_rows
      · simp only [he, hb, and_self, if_true]
        by_cases hne : last = ""
        · have hnil : st.f.rest = [] := by rw [hr2, hne]
          rw [fgets_end st.f hnil]
          exact ⟨_, rfl, by simp [lines_of, hne, budget]⟩
        · rw [fgets_last st.f last hlast hne hr2]
          simp only
          have hpos : 0 < last.data.length := by
            apply List.length_pos.mpr
            intro hd
            apply hne
            apply String.ext
            simpa using hd
          cases fuel with
          | zero => rw [hr2] at hfuel; omega
          | succ fuel =>
            refine ⟨read_body env regexpat last
              { st with f := { rest := [], eof := true }, n_fgets := st.n_fgets + 1 }, ?_, ?_⟩
            · unfold read_loop
              rw [if_neg (by rw [read_body_f]; simp)]
            · rw [read_body_lines, strip_newline_none last hlast.1]
              simp only [lines_of, hne, if_false, List.nil_append]
              rw [budget_cons max_rows _ last [] hb]
              simp [budget]
      · rw [if_neg (by simp only [he, true_and]; exact hb)]
        exact ⟨st, rfl, by rw [budget_stop max_rows _ _ hb]; simp⟩
  | cons l ls ih =>
    intro fuel st hfit hr he hfuel
    have hl : fits_buffer l := hfit l (by simp)
    have hr2 : st.f.rest = l.data ++ newline :: file_of ls last := by
      simpa [file_of, List.append_assoc] using hr
    cases fuel with
    | zero => omega
    | succ fuel =>
      unfold read_loop
      by_cases hb : max_rows = 0 ∨ st.stats.n_imported + st.stats.n_ignored < max_rows
      · simp only [he, hb, and_self, if_true]
        rw [fgets_line st.f l (file_of ls last) hl hr2]
        simp only
        obtain ⟨st2, h1, h2⟩ := ih fuel
          (read_body env regexpat (String.mk (l.data ++ [newline]))
            { st with f := { rest := file_of ls last, eof := st.f.eof },
                      n_fgets := st.n_fgets + 1 })
          (fun x hx => hfit x (by simp [hx]))
          (by rw [read_body_f])
          (by rw [read_body_f]; exact he)
          (by rw [read_body_f]; simp only; rw [hr2] at hfuel; simp at hfuel; omega)
        refine ⟨st2, h1, ?_⟩
        rw [h2, read_body_lines, strip_newline_line, read_body_count]
        have : lines_of (l :: ls) last = l :: lines_of ls last := by simp [lines_of]
        rw [this, budget_cons max_rows _ l _ hb]
        simp
      · rw [if_neg (by simp only [he, true_and]; exact hb)]
        exact ⟨st, rfl, by rw [budget_stop max_rows _ _ hb]; simp⟩

theorem dropWhile_head_false (p : Char → Bool) (l : List Char) (c : Char)
    (h : (l.dropWhile p).head? = some c) : p c = false := by
  induction l with
  | nil => simp at h
  | cons a l ih =>
    by_cases ha : p a = true
    · rw [List.dropWhile_cons_of_pos ha] at h
      exact ih h
    · rw [List.dropWhile_cons_of_neg ha] at h
      simp at h
      subst h
      simpa using ha

theorem takeWhile_all_true (p : Char → Bool) (l : List Char) : ∀ c ∈ l.takeWhile p, p c = true := by
  intro c hc
  exact List.mem_takeWhile_imp hc

/-- The call `g_strstrip` removes the white space around the text and nothing
else. -/
theorem g_strstrip_spec (s : String) : trimmed_of s (g_strstrip s) := by
  unfold trimmed_of g_strstrip
  simp only
  set d := s.data.dropWhile g_ascii_isspace with hd
  refine ⟨⟨s.data.takeWhile g_ascii_isspace,
    (d.reverse.takeWhile g_ascii_isspace).reverse, ?_, takeWhile_all_true _ _, ?_⟩, ?_, ?_⟩
  · rw [List.append_assoc, ← List.reverse_append, List.takeWhile_append_dropWhile,
      List.reverse_reverse, hd, List.takeWhile_append_dropWhile]
  · intro c hc
    exact takeWhile_all_true g_ascii_isspace d.reverse c (List.mem_reverse.mp hc)
  · intro c hc
    have hpre : (d.reverse.dropWhile g_ascii_isspace).reverse <+: d := by
      refine ⟨(d.reverse.takeWhile g_ascii_isspace).reverse, ?_⟩
      rw [← List.reverse_append, List.takeWhile_append_dropWhile, List.reverse_reverse]
    have hdc : d.head? = some c := by
      obtain ⟨t, ht⟩ := hpre
      rw [← ht]
      cases hx : (d.reverse.dropWhile g_ascii_isspace).reverse with
      | nil => rw [hx] at hc; simp at hc
      | cons a l => rw [hx] at hc; simpa using hc
    exact dropWhile_head_false g_ascii_isspace s.data c hdc
  · intro c hc
    rw [List.getLast?_reverse] at hc
    exact dropWhile_head_false g_ascii_isspace d.reverse c hc

/-- C12: `gnc_bi_import_read_file` returns `RESULT_OPEN_FAILED` when the file
cannot be opened, `RESULT_ERROR_IN_REGEXP` when the file opens and the pattern
does not compile, and `RESULT_OK` in every other case. In the two error cases
`fgets` is never called, no line is examined, the table is the table of the
caller and the statistics are the statistics the caller had before. -/
theorem C12_result_codes_and_untouched_state (env : ReadEnv) (filename parser_regexp : String)
    (store : List StoreRow) (max_rows : Nat) (stats : Option bi_import_stats) :
    (env.g_fopen filename = none →
      ∃ out, gnc_bi_import_read_file env filename parser_regexp store max_rows stats = some out ∧
        out.result = bi_import_result.RESULT_OPEN_FAILED ∧ out.n_fgets = 0 ∧ out.lines = [] ∧
        out.store = store ∧ out.stats = stats ∧ out.dialog = none) ∧
    (∀ content message, env.g_fopen filename = some content →
      env.g_regex_new parser_regexp = Except.error message →
      ∃ out, gnc_bi_import_read_file env filename parser_regexp store max_rows stats = some out ∧
        out.result = bi_import_result.RESULT_ERROR_IN_REGEXP ∧ out.n_fgets = 0 ∧
        out.lines = [] ∧ out.store = store ∧ out.stats = stats ∧
        out.dialog = some ("Error in regular expression " ++ sq ++ parser_regexp ++ sq ++
          ":\n" ++ message)) ∧
    (∀ content regexpat, env.g_fopen filename = some content →
      env.g_regex_new parser_regexp = Except.ok regexpat →
      ∃ out, gnc_bi_import_read_file env filename parser_regexp store max_rows stats = some out ∧
        out.result = bi_import_result.RESULT_OK) := by
  refine ⟨fun hf => ?_, fun content message hf hr => ?_, fun content regexpat hf hr => ?_⟩
  · unfold gnc_bi_import_read_file
    rw [hf]
    exact ⟨_, rfl, rfl, rfl, rfl, rfl, rfl, rfl⟩
  · unfold gnc_bi_import_read_file
    rw [hf]
    simp only [hr]
    exact ⟨_, rfl, rfl, rfl, rfl, rfl, rfl, rfl⟩
  · unfold gnc_bi_import_read_file
    rw [hf]
    simp only [hr]
    have ht := read_loop_total env regexpat max_rows (content.length + 1)
      { f := { rest := content, eof := false }, store := store,
        stats := { n_imported := 0, n_ignored := 0, ignored_lines := "" },
        n_fgets := 0, lines := [] } (Nat.lt_succ_self _)
    obtain ⟨st2, hst2⟩ := Option.isSome_iff_exists.mp ht
    rw [hst2]
    exact ⟨_, rfl, rfl⟩

/-- C12 on the sample files: the file "missing.csv" cannot be opened, so the
call returns `RESULT_OPEN_FAILED` and leaves the table and the statistics. -/
theorem C12_witness :
    ∃ out, gnc_bi_import_read_file sample_read_env "missing.csv" "(" [StoreRow.of_row line1] 0
        (some old_stats) = some out ∧
      out.result = bi_import_result.RESULT_OPEN_FAILED ∧ out.n_fgets = 0 ∧ out.lines = [] ∧
      out.store = [StoreRow.of_row line1] ∧ out.stats = some old_stats ∧ out.dialog = none :=
  (C12_result_codes_and_untouched_state sample_read_env "missing.csv" "(" [StoreRow.of_row line1]
    0 (some old_stats)).1 (by decide)

theorem FILL_IN_HELPER_unset (m : GMatchInfo) (name : String) :
    FILL_IN_HELPER m name none = (m name).map g_strstrip := by
  unfold FILL_IN_HELPER
  cases m name <;> rfl

theorem g_ascii_isspace_iff (c : Char) :
    g_ascii_isspace c = true ↔
      c = Char.ofNat 32 ∨ c = Char.ofNat 9 ∨ c = Char.ofNat 10 ∨ c = Char.ofNat 12 ∨
        c = Char.ofNat 13 := by
  have key : ∀ n : Nat, (Char.ofNat n).toNat = n → (c.toNat = n ↔ c = Char.ofNat n) := by
    intro n hn
    constructor
    · intro h
      rw [← h, Char.ofNat_toNat]
    · intro h
      rw [h]
      exact hn
  unfold g_ascii_isspace
  simp only [Bool.or_eq_true, decide_eq_true_eq]
  rw [key 32 (by decide), key 9 (by decide), key 10 (by decide), key 12 (by decide),
    key 13 (by decide)]
  tauto

/-- C13: when the file opens and the pattern compiles, the call returns
`RESULT_OK`, and with `out.lines` the lines it examined, in order: the table is
the table of the caller followed by one row for each line the pattern matches,
in the order of the lines; `n_imported` is the number of these rows, so the
number of rows appended and of matching lines; `n_ignored` is the number of
the other lines; `ignored_lines` is the text of the other lines in order, each
followed by a newline; every examined line is counted in exactly one of the
two counters. The row of a match holds, in each of its twenty-two columns, the
text of the group that bears the name of the column, stripped, and the cell is
unset when the pattern has no group of that name. The stripped text is the
text of the group without the white space around it, white space being the
space, the tab, the newline, the form feed and the carriage return. The text
compared and recorded is the line converted by `g_locale_to_utf8`. -/
theorem C13_rows_and_ignored_lines_in_order (env : ReadEnv) (filename parser_regexp : String)
    (store : List StoreRow) (max_rows : Nat) (stats : Option bi_import_stats)
    (content : List Char) (regexpat : GRegex)
    (hf : env.g_fopen filename = some content)
    (hr : env.g_regex_new parser_regexp = Except.ok regexpat) :
    (∃ out, gnc_bi_import_read_file env filename parser_regexp store max_rows stats = some out ∧
      out.result = bi_import_result.RESULT_OK ∧
      out.store = store ++ rows_of env regexpat out.lines ∧
      out.stats = stats.map (fun _ =>
        { n_imported := (rows_of env regexpat out.lines).length,
          n_ignored := (unmatched env regexpat out.lines).length,
          ignored_lines := ignored_of env regexpat out.lines }) ∧
      out.store.length = store.length + (rows_of env regexpat out.lines).length ∧
      (rows_of env regexpat out.lines).length + (unmatched env regexpat out.lines).length =
        out.lines.length) ∧
    (∀ (l : String) (ls : List String) (m : GMatchInfo), line_match env regexpat l = some m →
      rows_of env regexpat (l :: ls) = fill_in m :: rows_of env regexpat ls ∧
      unmatched env regexpat (l :: ls) = unmatched env regexpat ls ∧
      ignored_of env regexpat (l :: ls) = ignored_of env regexpat ls) ∧
    (∀ (l : String) (ls : List String), line_match env regexpat l = none →
      rows_of env regexpat (l :: ls) = rows_of env regexpat ls ∧
      unmatched env regexpat (l :: ls) = l :: unmatched env regexpat ls ∧
      ignored_of env regexpat (l :: ls) =
        ((env.g_locale_to_utf8 l).getD "" ++ "\n") ++ ignored_of env regexpat ls) ∧
    (∀ m : GMatchInfo, fill_in m =
        { id := (m "id").map g_strstrip,
          date_opened := (m "date_opened").map g_strstrip,
          owner_id := (m "owner_id").map g_strstrip,
          billing_id := (m "billing_id").map g_strstrip,
          notes := (m "notes").map g_strstrip,
          date := (m "date").map g_strstrip,
          desc := (m "desc").map g_strstrip,
          action := (m "action").map g_strstrip,
          account := (m "account").map g_strstrip,
          quantity := (m "quantity").map g_strstrip,
          price := (m "price").map g_strstrip,
          disc_type := (m "disc_type").map g_strstrip,
          disc_how := (m "disc_how").map g_strstrip,
          discount := (m "discount").map g_strstrip,
          taxable := (m "taxable").map g_strstrip,
          taxincluded := (m "taxincluded").map g_strstrip,
          tax_table := (m "tax_table").map g_strstrip,
          date_posted := (m "date_posted").map g_strstrip,
          due_date := (m "due_date").map g_strstrip,
          account_posted := (m "account_posted").map g_strstrip,
          memo_posted := (m "memo_posted").map g_strstrip,
          accu_splits := (m "accu_splits").map g_strstrip }) ∧
    (∀ t : String, trimmed_of t (g_strstrip t)) ∧
    (∀ c : Char, g_ascii_isspace c = true ↔
      c = Char.ofNat 32 ∨ c = Char.ofNat 9 ∨ c = Char.ofNat 10 ∨ c = Char.ofNat 12 ∨
        c = Char.ofNat 13) := by
  refine ⟨?_, ?_, ?_, ?_, g_strstrip_spec, g_ascii_isspace_iff⟩
  · unfold gnc_bi_import_read_file
    rw [hf]
    simp only [hr]
    have ht := read_loop_total env regexpat max_rows (content.length + 1)
      { f := { rest := content, eof := false }, store := store,
        stats := { n_imported := 0, n_ignored := 0, ignored_lines := "" },
        n_fgets := 0, lines := [] } (Nat.lt_succ_self _)
    obtain ⟨st2, hst2⟩ := Option.isSome_iff_exists.mp ht
    obtain ⟨ex, h1, h2, h3, h4, h5, -⟩ := read_loop_spec env regexpat max_rows _ _ st2 hst2
    simp only [List.nil_append, Nat.zero_add] at h1 h3 h4
    have h5b : st2.stats.ignored_lines = ignored_of env regexpat ex := by
      rw [h5]; apply String.ext; simp
    rw [hst2]
    refine ⟨_, rfl, rfl, ?_, ?_, ?_, ?_⟩
    · simp only [h1, h2]
    · simp only [h1]
      cases stats with
      | none => rfl
      | some s0 =>
        simp only [Option.map_some', Option.some.injEq]
        rw [← h3, ← h4, ← h5b]
    · simp only [h1, h2, List.length_append]
    · simp only [h1]
      exact rows_unmatched_length env regexpat ex
  · intro l ls m hm
    refine ⟨?_, ?_, ?_⟩
    · simp [rows_of, List.filterMap_cons, hm]
    · simp [unmatched, List.filter_cons, hm]
    · simp [ignored_of, unmatched, List.filter_cons, hm]
  · intro l ls hm
    refine ⟨?_, ?_, ?_⟩
    · simp [rows_of, List.filterMap_cons, hm]
    · simp [unmatched, List.filter_cons, hm]
    · simp [ignored_of, unmatched, List.filter_cons, hm, String.join_eq, ignored_text]
      apply String.ext
      simp [String.join_eq]
  · intro m
    simp only [fill_in, unset_row, FILL_IN_HELPER_unset]

/-- C13 on the sample file of the lines " INV1 ", "xx" and "INV2", read with a
pattern whose only group is "id": the two matching lines give the rows with
the ids "INV1" (trimmed) and "INV2" after the row already in the table, their
other cells are unset, and the line "xx" is recorded as ignored. -/
theorem C13_witness :
    (∃ out, gnc_bi_import_read_file sample_read_env "bills.csv" "id" [StoreRow.of_row line1] 0
        (some old_stats) = some out ∧
      out.result = bi_import_result.RESULT_OK ∧
      out.store = [StoreRow.of_row line1] ++ rows_of sample_read_env sample_regex out.lines ∧
      out.stats = (some old_stats).map (fun _ =>
        { n_imported := (rows_of sample_read_env sample_regex out.lines).length,
          n_ignored := (unmatched sample_read_env sample_regex out.lines).length,
          ignored_lines := ignored_of sample_read_env sample_regex out.lines }) ∧
      out.store.length = [StoreRow.of_row line1].length +
        (rows_of sample_read_env sample_regex out.lines).length ∧
      (rows_of sample_read_env sample_regex out.lines).length +
        (unmatched sample_read_env sample_regex out.lines).length = out.lines.length) ∧
    (gnc_bi_import_read_file sample_read_env "bills.csv" "id" [StoreRow.of_row line1] 0
        (some old_stats)).map
        (fun out => (out.store.map (fun r => (r.id, r.date_opened)), out.stats, out.lines)) =
      some ([(some "INV1", some line1.date_opened), (some "INV1", none), (some "INV2", none)],
        some { n_imported := 2, n_ignored := 1, ignored_lines := "xx\n" },
        [" INV1 ", "xx", "INV2"]) :=
  ⟨(C13_rows_and_ignored_lines_in_order sample_read_env "bills.csv" "id" [StoreRow.of_row line1]
      0 (some old_stats) " INV1 \nxx\nINV2\n".data sample_regex (by decide) rfl).1,
    by decide⟩

theorem budget_zero (max_rows : Nat) (lines : List String) :
    budget max_rows 0 lines = examined max_rows lines := by
  simp [budget, examined]

theorem examined_length (max_rows : Nat) (lines : List String) :
    (examined max_rows lines).length =
      if max_rows = 0 then lines.length else min max_rows lines.length := by
  unfold examined
  split <;> simp

/-- C14 fails for a line one character shorter than the line buffer: in the
file of the two lines of 999 letters and "b", each shorter than the buffer of
1000 bytes, `fgets` stores the 999 letters and leaves the newline, which the
next call returns as a line of its own. With no limit the call examines three
lines and appends three rows for a file of two lines; with the limit 2 it stops
after the empty line and never examines the line "b". -/
theorem C14_line_of_999_characters_is_split :
    long_line.length = 999 ∧ long_line.length < buffer_size ∧ newline ∉ long_line.data ∧
    "b".length < buffer_size ∧
    (lines_of [long_line, "b"] "").length = 2 ∧
    long_read_env.g_fopen "long.csv" = some (file_of [long_line, "b"] "") ∧
    (gnc_bi_import_read_file long_read_env "long.csv" "id" [] 0 (some old_stats)).map
        (fun out => (out.lines.map String.length, out.store.length,
          out.stats.map (fun st => (st.n_imported, st.n_ignored)))) =
      some ([999, 0, 1], 3, some (3, 0)) ∧
    (gnc_bi_import_read_file long_read_env "long.csv" "id" [] 2 (some old_stats)).map
        (fun out => (out.lines.map String.length, out.store.length,
          out.stats.map (fun st => (st.n_imported, st.n_ignored)))) =
      some ([999, 0], 2, some (2, 0)) := by
  set_option maxRecDepth 8000 in decide

/-- C14, amended: for a file of L lines, each of which fits the line buffer
together with its newline, so has at most 998 characters (the characters after
the last newline, if any, being one more line): the call examines exactly the first `min max_rows L` lines when `max_rows > 0`
and all L lines when `max_rows = 0`; the two counters add up to that number;
the rows appended and the ignored text come from the examined lines only. -/
theorem C14_examines_first_max_rows_lines (env : ReadEnv) (filename parser_regexp : String)
    (store : List StoreRow) (max_rows : Nat) (stats0 : bi_import_stats)
    (lines : List String) (last : String) (regexpat : GRegex)
    (hfit : ∀ l ∈ lines, fits_buffer l) (hlast : fits_buffer last)
    (hf : env.g_fopen filename = some (file_of lines last))
    (hr : env.g_regex_new parser_regexp = Except.ok regexpat) :
    ∃ out st, gnc_bi_import_read_file env filename parser_regexp store max_rows (some stats0) =
        some out ∧
      out.result = bi_import_result.RESULT_OK ∧
      out.lines = examined max_rows (lines_of lines last) ∧
      out.lines.length =
        (if max_rows = 0 then (lines_of lines last).length
         else min max_rows (lines_of lines last).length) ∧
      out.stats = some st ∧
      st.n_imported + st.n_ignored =
        (if max_rows = 0 then (lines_of lines last).length
         else min max_rows (lines_of lines last).length) ∧
      out.store = store ++ rows_of env regexpat (examined max_rows (lines_of lines last)) ∧
      st.ignored_lines = ignored_of env regexpat (examined max_rows (lines_of lines last)) := by
  unfold gnc_bi_import_read_file
  rw [hf]
  simp only [hr]
  obtain ⟨st2, hst2, hl⟩ := read_loop_lines env regexpat max_rows lines last hlast
    ((file_of lines last).length + 1)
    { f := { rest := file_of lines last, eof := false }, store := store,
      stats := { n_imported := 0, n_ignored := 0, ignored_lines := "" },
      n_fgets := 0, lines := [] } hfit rfl rfl (Nat.lt_succ_self _)
  obtain ⟨ex, h1, h2, h3, h4, h5, -⟩ := read_loop_spec env regexpat max_rows _ _ st2 hst2
  simp only [List.nil_append, Nat.zero_add, Nat.add_zero] at h1 h3 h4 hl
  rw [budget_zero] at hl
  have hex : ex = examined max_rows (lines_of lines last) := by rw [← h1, hl]
  have h5b : st2.stats.ignored_lines = ignored_of env regexpat ex := by
    rw [h5]; apply String.ext; simp
  rw [hst2]
  refine ⟨_, st2.stats, rfl, rfl, hl, ?_, rfl, ?_, ?_, ?_⟩
  · simp only [hl]
    exact examined_length max_rows _
  · rw [h3, h4, rows_unmatched_length, hex]
    exact examined_length max_rows _
  · simp only [h2, hex]
  · rw [h5b, hex]

/-- C14 on a file of the three lines " INV1 ", "xx" and "INV2" with the limit
2: the first two lines are examined, one row is appended and one line is
ignored. -/
theorem C14_witness :
    ∃ out st, gnc_bi_import_read_file sample_read_env "bills.csv" "id" [] 2 (some old_stats) =
        some out ∧
      out.result = bi_import_result.RESULT_OK ∧
      out.lines = examined 2 (lines_of [" INV1 ", "xx", "INV2"] "") ∧
      out.lines.length =
        (if 2 = 0 then (lines_of [" INV1 ", "xx", "INV2"] "").length
         else min 2 (lines_of [" INV1 ", "xx", "INV2"] "").length) ∧
      out.stats = some st ∧
      st.n_imported + st.n_ignored =
        (if 2 = 0 then (lines_of [" INV1 ", "xx", "INV2"] "").length
         else min 2 (lines_of [" INV1 ", "xx", "INV2"] "").length) ∧
      out.store = [] ++ rows_of sample_read_env sample_regex
        (examined 2 (lines_of [" INV1 ", "xx", "INV2"] "")) ∧
      st.ignored_lines = ignored_of sample_read_env sample_regex
        (examined 2 (lines_of [" INV1 ", "xx", "INV2"] "")) :=
  C14_examines_first_max_rows_lines sample_read_env "bills.csv" "id" [] 2 old_stats
    [" INV1 ", "xx", "INV2"] "" sample_regex
    (by decide) (by decide) (by decide) rfl

/-! ## The function `un_escape` (C21, C24) -/

theorem un_escape_chars_other (c : Char) (cs : List Char) (h : c ≠ quote) :
    un_escape_chars (c :: cs) = c :: un_escape_chars cs := by
  rw [un_escape_chars.eq_def]
  simp [h]

theorem un_escape_chars_quote (c2 : Char) (cs : List Char) :
    un_escape_chars (quote :: c2 :: cs) = c2 :: un_escape_chars cs := by
  rw [un_escape_chars.eq_def]
  simp

theorem un_escape_chars_quote_end : un_escape_chars [quote] = [] := by
  rw [un_escape_chars.eq_def]
  simp

theorem un_escape_chars_double (cs : List Char) :
    un_escape_chars (double_quotes cs) = cs := by
  induction cs with
  | nil => rfl
  | cons c cs ih =>
    by_cases hc : c = quote
    · subst hc
      simp only [double_quotes, if_true]
      rw [un_escape_chars_quote, ih]
    · simp only [double_quotes, hc, if_false]
      rw [un_escape_chars_other _ _ hc, ih]

theorem un_escape_chars_no_quote (cs : List Char) (h : quote ∉ cs) :
    un_escape_chars cs = cs := by
  induction cs with
  | nil => rfl
  | cons c cs ih =>
    have hc : c ≠ quote := fun e => h (by simp [e])
    have h2 : quote ∉ cs := fun e => h (by simp [e])
    rw [un_escape_chars_other _ _ hc, ih h2]

/-- C21: `un_escape` undoes the doubling of quotes: for every text `s`, the
text `s` with every quote character doubled is turned back into `s`; and
`un_escape` leaves a text without quote character as it is. -/
theorem C21_un_escape_undoes_doubling (s : String) :
    un_escape (String.mk (double_quotes s.data)) = s ∧
    (quote ∉ s.data → un_escape s = s) := by
  constructor
  · unfold un_escape
    simp only [un_escape_chars_double]
  · intro h
    unfold un_escape
    simp only [un_escape_chars_no_quote s.data h]

/-- C21 on a sample text without quote character. -/
theorem C21_witness : un_escape "5 pipe" = "5 pipe" :=
  (C21_un_escape_undoes_doubling "5 pipe").2 (by decide)

/-- C24 fails: a single quote followed by another character is part of no
doubled quote, yet `un_escape` drops it (the character after it is copied in
its place): the text a, quote, b becomes ab. A single quote at the end of the
text is dropped as well. The comment of the function says that escaped quotes
(two quote characters) are changed to one quote character. -/
theorem C24_single_quote_is_dropped :
    un_escape ("a" ++ dq ++ "b") = "ab" ∧
    un_escape ("a" ++ dq) = "a" ∧
    un_escape ("a" ++ dq ++ dq ++ "b") = "a" ++ dq ++ "b" := by
  decide

/-! ## The update dialog (C23) -/

theorem asked_answers_append (a b : List Event) :
    asked_answers (a ++ b) = asked_answers a ++ asked_answers b := by
  induction a with
  | nil => rfl
  | cons e a ih => cases e <;> simp [asked_answers, ih]

theorem open_tab_frame (open_mode : String) (posted : Bool) (idx : Nat) (s : CreateState) :
    (open_tab open_mode posted idx s).update = s.update ∧
    (open_tab open_mode posted idx s).returned = s.returned ∧
    (open_tab open_mode posted idx s).n_dialogs = s.n_dialogs ∧
    asked_answers (open_tab open_mode posted idx s).trace = asked_answers s.trace ∧
    entries_added (open_tab open_mode posted idx s).trace = entries_added s.trace ∧
    (open_tab open_mode posted idx s).iter = s.iter := by
  unfold open_tab
  split_ifs <;> simp [asked_answers_append, asked_answers, entries_added_append, entries_added]

/-- The closing of a group runs no dialog, adds no entry and leaves `update`,
`returned` and the iterator alone. -/
theorem try_post_frame (env : Env) (bill : Bool) (open_mode : String) (first : Row) (idx : Nat)
    (s : CreateState) :
    (try_post env bill open_mode first idx s).update = s.update ∧
    (try_post env bill open_mode first idx s).returned = s.returned ∧
    (try_post env bill open_mode first idx s).n_dialogs = s.n_dialogs ∧
    asked_answers (try_post env bill open_mode first idx s).trace = asked_answers s.trace ∧
    entries_added (try_post env bill open_mode first idx s).trace = entries_added s.trace ∧
    (try_post env bill open_mode first idx s).iter = s.iter ∧
    (try_post env bill open_mode first idx s).on_first_row_of_invoice = true := by
  unfold try_post
  by_cases c1 : first.date_posted = ""
  · simp [c1, open_tab_frame]
  · cases hb : s.book[idx]? with
    | none => simp [c1, open_tab_frame]
    | some inv =>
      by_cases c2 : env.curr_count inv = 0
      · by_cases c3 : inv.currency = env.gnc_account_get_currency_or_parent
            (env.gnc_account_lookup_for_register first.account_posted)
        · simp [c1, c2, c3, open_tab_frame, asked_answers_append, asked_answers,
            entries_added_append, entries_added]
        · simp [c1, c2, c3, open_tab_frame]
      · simp [c1, c2, open_tab_frame]

/-- Adding an entry runs no dialog and leaves `update` and `returned` alone. -/
theorem add_entry_frame (env : Env) (bill : Bool) (open_mode : String) (store : List Row)
    (idx : Nat) (r : Row) (notes : String) (s : CreateState) :
    (add_entry env bill open_mode store idx r notes s).update = s.update ∧
    (add_entry env bill open_mode store idx r notes s).returned = s.returned ∧
    (add_entry env bill open_mode store idx r notes s).n_dialogs = s.n_dialogs ∧
    asked_answers (add_entry env bill open_mode store idx r notes s).trace =
      asked_answers s.trace := by
  unfold add_entry
  simp only
  split_ifs
  · simp [asked_answers_append, asked_answers]
  · split
    · obtain ⟨h1, h2, h3, h4, -⟩ := try_post_frame env bill open_mode ‹Row› idx
        { s with denom := current_denom s idx,
                 book := update_invoice s.book idx (fun inv => { inv with entries := inv.entries ++
                   [new_entry env bill (current_denom s idx) r notes] }),
                 trace := s.trace ++ [Event.entry_added idx],
                 iter := s.iter + 1 }
      rw [h1, h2, h3, h4]
      simp [asked_answers_append, asked_answers]
    · simp [asked_answers_append, asked_answers]

theorem start_group_frame (s : CreateState) (r : Row) :
    (start_group s r).update = s.update ∧ (start_group s r).returned = s.returned ∧
    (start_group s r).n_dialogs = s.n_dialogs ∧ (start_group s r).trace = s.trace := by
  unfold start_group
  split_ifs <;> simp

/-- The invariant on the dialog is kept by an iteration that starts before the
function has returned. -/
theorem create_body_ask (env : Env) (bill : Bool) (open_mode : String) (store : List Row)
    (s : CreateState) (r : Row)
    (hyn : ∀ n, env.gtk_dialog_run n = update.YES ∨ env.gtk_dialog_run n = update.NO)
    (h : AskInv s) (hret : s.returned = false) :
    AskInv (create_body env bill open_mode store s r) := by
  obtain ⟨g1, g2, g3, g4⟩ := start_group_frame s r
  obtain ⟨hn, hcase⟩ := h
  unfold create_body
  simp only
  split
  · -- a new document
    obtain ⟨a1, a2, a3, a4⟩ := add_entry_frame env bill open_mode store (start_group s r).book.length
      r (un_escape r.notes) (create_invoice env bill r (start_group s r))
    have ht : asked_answers (create_invoice env bill r (start_group s r)).trace =
        asked_answers s.trace := by
      simp [create_invoice, g4, asked_answers_append, asked_answers]
    refine ⟨by rw [a3, a4, ht]; simpa [create_invoice, g3] using hn, ?_⟩
    rw [a4, ht, a1, a2]
    rcases hcase with ⟨c1, c2⟩ | ⟨c1, c2, c3⟩ | ⟨c1, c2, c3⟩
    · exact Or.inl ⟨c1, by simpa [create_invoice, g2] using c2⟩
    · exact Or.inr (Or.inl ⟨c1, rfl, by simpa [create_invoice, g2] using c3⟩)
    · rw [hret] at c2; exact absurd c2 (by simp)
  · split_ifs with c1 c2 c3
    · -- the document is posted
      refine ⟨by simpa [g3, g4] using hn, ?_⟩
      simp only [g4, g1, g2]
      exact hcase
    · -- the dialog answers no
      have hnone : asked_answers s.trace = [] := by
        rcases hcase with ⟨d1, -⟩ | ⟨-, d2, -⟩ | ⟨-, d2, -⟩
        · exact d1
        · rw [g1] at c2; exact absurd d2 c2
        · rw [hret] at d2; exact absurd d2 (by simp)
      have hans : env.gtk_dialog_run (start_group s r).n_dialogs = update.NO := by
        simpa [ask_update] using c3
      refine ⟨by simp [ask_update, g3, g4, asked_answers_append, asked_answers, hn], ?_⟩
      refine Or.inr (Or.inr ⟨?_, rfl, ⟨s.trace, ?_⟩⟩)
      · simp [ask_update, g4, asked_answers_append, asked_answers, hnone, hans]
      · simp [ask_update, g4, hans]
    · -- the dialog answers yes
      have hnone : asked_answers s.trace = [] := by
        rcases hcase with ⟨d1, -⟩ | ⟨-, d2, -⟩ | ⟨-, d2, -⟩
        · exact d1
        · rw [g1] at c2; exact absurd d2 c2
        · rw [hret] at d2; exact absurd d2 (by simp)
      have hans : env.gtk_dialog_run (start_group s r).n_dialogs = update.YES := by
        rcases hyn (start_group s r).n_dialogs with hq | hq
        · exact hq
        · exact absurd (by simp [ask_update, hq]) c3
      obtain ⟨a1, a2, a3, a4⟩ := add_entry_frame env bill open_mode store ‹Nat› r r.notes
        { ask_update env (start_group s r) with
          n_invoices_updated := (ask_update env (start_group s r)).n_invoices_updated + 1 }
      refine ⟨?_, ?_⟩
      · rw [a3, a4]
        simp [ask_update, g3, g4, asked_answers_append, asked_answers, hn]
      · rw [a4, a1, a2]
        refine Or.inr (Or.inl ⟨?_, ?_, ?_⟩)
        · simp [ask_update, g4, asked_answers_append, asked_answers, hnone, hans]
        · simp [ask_update, hans]
        · simp [ask_update, g2, hret]
    · -- an update was accepted before
      obtain ⟨a1, a2, a3, a4⟩ := add_entry_frame env bill open_mode store ‹Nat› r r.notes
        { start_group s r with
          n_invoices_updated := (start_group s r).n_invoices_updated + 1 }
      refine ⟨by rw [a3, a4]; simpa [g3, g4] using hn, ?_⟩
      rw [a4, a1, a2]
      simp only [g4, g1, g2]
      rcases hcase with ⟨d1, d2⟩ | ⟨d1, d2, d3⟩ | ⟨-, d2, -⟩
      · exact Or.inl ⟨d1, d2⟩
      · exact Or.inr (Or.inl ⟨d1, d2, d3⟩)
      · rw [hret] at d2; exact absurd d2 (by simp)

theorem create_loop_ask (env : Env) (bill : Bool) (open_mode : String) (store : List Row)
    (hyn : ∀ n, env.gtk_dialog_run n = update.YES ∨ env.gtk_dialog_run n = update.NO) :
    ∀ (fuel : Nat) (s : CreateState), AskInv s →
      AskInv (create_loop env bill open_mode store fuel s) := by
  intro fuel
  induction fuel with
  | zero => intro s h; exact h
  | succ n ih =>
    intro s h
    unfold create_loop
    split_ifs with hret
    · exact h
    · split
      · exact ih _ (create_body_ask env bill open_mode store s _ hyn h (by simpa using hret))
      · exact h

theorem create_init_ask (book : List GncInvoice) (info : String) :
    AskInv (create_init book info) := by
  refine ⟨rfl, Or.inl ⟨rfl, rfl⟩⟩

/-- When every response of the dialog is yes or no, the dialog is run at most
once in a run: after a yes it is not run again and the function does not
return early; a no is the last call of the run. -/
theorem dialog_at_most_once_of_yes_no (env : Env) (store : List Row)
    (book : List GncInvoice) (type open_mode info : String) (s : CreateState)
    (hyn : ∀ n, env.gtk_dialog_run n = update.YES ∨ env.gtk_dialog_run n = update.NO)
    (h : gnc_bi_import_create_bis env store book type open_mode info = some s) :
    (asked_answers s.trace).length ≤ 1 ∧
    s.n_dialogs = (asked_answers s.trace).length ∧
    (Event.asked update.YES ∈ s.trace →
      asked_answers s.trace = [update.YES] ∧ s.returned = false) ∧
    (Event.asked update.NO ∈ s.trace →
      asked_answers s.trace = [update.NO] ∧ s.returned = true ∧
      ∃ before, s.trace = before ++ [Event.asked update.NO]) := by
  have hmem : ∀ (a : update) (t : List Event), Event.asked a ∈ t → a ∈ asked_answers t := by
    intro a t
    induction t with
    | nil => simp
    | cons e t ih =>
      intro hm
      cases e <;> simp [asked_answers] at hm ⊢ <;> first | exact ih hm | skip
      rcases hm with hm | hm
      · exact Or.inl hm
      · exact Or.inr (ih hm)
  unfold gnc_bi_import_create_bis at h
  split_ifs at h
  simp only [Option.some.injEq] at h
  have hinv := create_loop_ask env (g_ascii_strcasecmp_eq type "BILL") open_mode store hyn
    store.length (create_init book info) (create_init_ask book info)
  rw [h] at hinv
  obtain ⟨hn, hcase⟩ := hinv
  rcases hcase with ⟨c1, c2⟩ | ⟨c1, c2, c3⟩ | ⟨c1, c2, c3⟩
  · refine ⟨by simp [c1], hn, ?_, ?_⟩
    · intro hm; have := hmem _ _ hm; rw [c1] at this; simp at this
    · intro hm; have := hmem _ _ hm; rw [c1] at this; simp at this
  · refine ⟨by simp [c1], hn, fun _ => ⟨c1, c3⟩, ?_⟩
    intro hm; have := hmem _ _ hm; rw [c1] at this; simp at this
    exact absurd this.symm yes_ne_no
  · refine ⟨by simp [c1], hn, ?_, fun _ => ⟨c1, c2, c3⟩⟩
    intro hm; have := hmem _ _ hm; rw [c1] at this; simp at this
    exact absurd this yes_ne_no

/-- C23 fails when the dialog is closed without an answer: the response,
`GTK_RESPONSE_DELETE_EVENT`, is stored in `update`; it is not `NO`, so the
function does not return and the entry is added; it is not `YES`, so the next
row of an existing document runs the dialog again. On two rows of the open
invoice "INV1" the dialog is run twice. -/
theorem C23_closed_dialog_is_run_again :
    (gnc_bi_import_create_bis sample_env_closed [line1, line2_inv1] [inv1_open]
        "INVOICE" "NONE" "").map (fun s => (s.trace, s.n_dialogs, s.returned)) =
      some ([Event.asked GTK_RESPONSE_DELETE_EVENT, Event.entry_added 0,
             Event.asked GTK_RESPONSE_DELETE_EVENT, Event.entry_added 0], 2, false) := by
  decide

/-! ## One posting evaluation for each run of rows (C22) -/

theorem un_escape_chars_sub : ∀ (n : Nat) (cs : List Char), cs.length ≤ n →
    (∀ c ∈ un_escape_chars cs, c ∈ cs) ∧ (un_escape_chars cs).length ≤ cs.length := by
  intro n
  induction n with
  | zero =>
    intro cs h
    have : cs = [] := List.length_eq_zero.mp (by omega)
    subst this
    simp [un_escape_chars]
  | succ n ih =>
    intro cs h
    cases cs with
    | nil => simp [un_escape_chars]
    | cons c rest =>
      by_cases hc : c = quote
      · subst hc
        cases rest with
        | nil => rw [un_escape_chars_quote_end]; simp
        | cons c2 rest2 =>
          rw [un_escape_chars_quote]
          obtain ⟨h1, h2⟩ := ih rest2 (by simp at h; omega)
          constructor
          · intro x hx
            simp only [List.mem_cons] at hx ⊢
            rcases hx with hx | hx
            · exact Or.inr (Or.inl hx)
            · exact Or.inr (Or.inr (h1 x hx))
          · simp; omega
      · rw [un_escape_chars_other _ _ hc]
        obtain ⟨h1, h2⟩ := ih rest (by simp at h; omega)
        constructor
        · intro x hx
          simp only [List.mem_cons] at hx ⊢
          rcases hx with hx | hx
          · exact Or.inl hx
          · exact Or.inr (h1 x hx)
        · simp; omega

theorem peek_append (done rest : List Char) (k : Nat) :
    peek (done ++ rest) (done.length + k) = peek rest k := by
  unfold peek
  induction done with
  | nil => simp
  | cons d ds ih =>
    have : (d :: ds).length + k = (ds.length + k) + 1 := by simp; omega
    rw [List.cons_append, this, List.getD_cons_succ]
    exact ih

theorem peek_append_zero (done rest : List Char) :
    peek (done ++ rest) done.length = peek rest 0 := by
  have := peek_append done rest 0
  simpa using this

theorem set_replicate_NUL (out : List Char) (m : Nat) (c : Char) :
    (out ++ List.replicate (m + 1) NUL).set out.length c = (out ++ [c]) ++ List.replicate m NUL := by
  rw [List.replicate_succ, set_append_length]
  simp

theorem c_string_append_NUL (out : List Char) (m : Nat) (h : ∀ c ∈ out, c ≠ NUL) :
    c_string (out ++ List.replicate m NUL) = out := by
  unfold c_string
  induction out with
  | nil =>
    cases m with
    | zero => simp
    | succ m => simp [List.replicate_succ]
  | cons c cs ih =>
    have hc : c ≠ NUL := h c (by simp)
    simp only [List.cons_append, List.takeWhile_cons]
    simp only [bne_iff_ne, ne_eq, hc, not_false_eq_true, if_true]
    rw [ih (fun x hx => h x (by simp [hx]))]

theorem un_escape_loop_stop (mem : List Char) (fuel : Nat) (s : UnEscape)
    (h : peek mem s.tmpstr = NUL) :
    ∃ s2, un_escape_loop mem (fuel + 1) s = some s2 ∧ s2.newStr = s.newStr ∧
      s2.reads = s.reads ++ [s.tmpstr] ∧ s2.writes = s.writes := by
  simp only [un_escape_loop, h, if_true]
  exact ⟨_, rfl, rfl, rfl, rfl⟩

/-- A turn of the loop on a character that is not a quote: the character is
copied and both indexes step by one. -/
theorem un_escape_loop_other (mem : List Char) (fuel : Nat) (s : UnEscape)
    (h0 : peek mem s.tmpstr ≠ NUL) (hq : peek mem s.tmpstr ≠ quote) :
    ∃ s1, un_escape_loop mem (fuel + 1) s = un_escape_loop mem fuel s1 ∧
      s1.i = s.i + 1 ∧ s1.tmpstr = s.tmpstr + 1 ∧
      s1.newStr = s.newStr.set s.i (peek mem s.tmpstr) ∧
      s1.reads = s.reads ++ [s.tmpstr] ++ [s.tmpstr, s.tmpstr, s.tmpstr] ∧
      s1.writes = s.writes ++ [s.i] := by
  simp only [un_escape_loop, h0, if_false, un_escape_body, hq]
  exact ⟨_, rfl, rfl, rfl, rfl, rfl, rfl⟩

/-- A turn of the loop on a quote followed by the terminator: the terminator
is written and the loop is left. -/
theorem un_escape_loop_quote_end (mem : List Char) (fuel : Nat) (s : UnEscape)
    (hq : peek mem s.tmpstr = quote) (h1 : peek mem (s.tmpstr + 1) = NUL) :
    ∃ s2, un_escape_loop mem (fuel + 1) s = some s2 ∧
      s2.newStr = s.newStr.set s.i NUL ∧
      s2.reads = s.reads ++ [s.tmpstr] ++ [s.tmpstr, s.tmpstr + 1, s.tmpstr + 1] ∧
      s2.writes = s.writes ++ [s.i] := by
  have h0 : peek mem s.tmpstr ≠ NUL := by rw [hq]; decide
  simp only [un_escape_loop, h0, if_false, un_escape_body, hq, if_true, h1]
  exact ⟨_, rfl, rfl, rfl, rfl⟩

/-- A turn of the loop on a quote followed by a character: the quote is
skipped and the character is copied. -/
theorem un_escape_loop_quote (mem : List Char) (fuel : Nat) (s : UnEscape)
    (hq : peek mem s.tmpstr = quote) (h1 : peek mem (s.tmpstr + 1) ≠ NUL) :
    ∃ s1, un_escape_loop mem (fuel + 1) s = un_escape_loop mem fuel s1 ∧
      s1.i = s.i + 1 ∧ s1.tmpstr = s.tmpstr + 2 ∧
      s1.newStr = s.newStr.set s.i (peek mem (s.tmpstr + 1)) ∧
      s1.reads = s.reads ++ [s.tmpstr] ++ [s.tmpstr, s.tmpstr + 1, s.tmpstr + 1] ∧
      s1.writes = s.writes ++ [s.i] := by
  have h0 : peek mem s.tmpstr ≠ NUL := by rw [hq]; decide
  simp only [un_escape_loop, h0, if_false, un_escape_body, hq, if_true, h1]
  exact ⟨_, rfl, rfl, rfl, rfl, rfl, rfl⟩

/-- The loop of `un_escape` from a state that has read `done` and written
`out`: it returns, the block then holds `out` followed by the un-escaped rest
and zero bytes, and every offset read or written is at most `N`, the length of
the string. -/
theorem un_escape_loop_spec (N : Nat) :
    ∀ (fuel : Nat) (rest done tl out : List Char) (m : Nat) (s : UnEscape),
      (∀ c ∈ rest, c ≠ NUL) → peek tl 0 = NUL →
      N = done.length + rest.length →
      s.tmpstr = done.length → s.i = out.length → out.length ≤ done.length →
      s.newStr = out ++ List.replicate (m + 1) NUL → out.length + m = N →
      rest.length < fuel →
      (∀ k ∈ s.reads, k ≤ N) → (∀ k ∈ s.writes, k ≤ N) →
      ∃ s2 m2, un_escape_loop (done ++ (rest ++ tl)) fuel s = some s2 ∧
        s2.newStr = (out ++ un_escape_chars rest) ++ List.replicate (m2 + 1) NUL ∧
        (out ++ un_escape_chars rest).length + m2 = N ∧
        (∀ k ∈ s2.reads, k ≤ N) ∧ (∀ k ∈ s2.writes, k ≤ N) := by
  intro fuel
  induction fuel with
  | zero => intro rest done tl out m s _ _ _ _ _ _ _ _ hf; omega
  | succ fuel ih =>
    intro rest done tl out m s hrest htl hN ht hi hle hnew hm hf hreads hwrites
    cases rest with
    | nil =>
      have hp : peek (done ++ ([] ++ tl)) s.tmpstr = NUL := by
        rw [ht, List.nil_append, peek_append_zero]; exact htl
      obtain ⟨s2, e1, e2, e3, e4⟩ := un_escape_loop_stop _ fuel s hp
      refine ⟨s2, m, e1, ?_, ?_, ?_, ?_⟩
      · rw [e2, hnew]; simp [un_escape_chars]
      · simp [un_escape_chars]; omega
      · intro k hk
        rw [e3] at hk
        rcases List.mem_append.1 hk with h | h
        · exact hreads k h
        · simp at h; rw [h, ht, hN]; omega
      · rw [e4]; exact hwrites
    | cons c rest1 =>
      have hc0 : c ≠ NUL := hrest c (by simp)
      have hp : peek (done ++ (c :: rest1 ++ tl)) s.tmpstr = c := by
        rw [ht, peek_append_zero]; rfl
      have hlen : N = done.length + rest1.length + 1 := by rw [hN]; simp; omega
      by_cases hq : c = quote
      · subst hq
        cases rest1 with
        | nil =>
          have hp1 : peek (done ++ ([quote] ++ tl)) (s.tmpstr + 1) = NUL := by
            have : done ++ ([quote] ++ tl) = (done ++ [quote]) ++ tl := by simp
            rw [this, ht]
            have h2 := peek_append_zero (done ++ [quote]) tl
            simp only [List.length_append, List.length_singleton] at h2
            rw [h2]; exact htl
          obtain ⟨s2, e1, e2, e3, e4⟩ := un_escape_loop_quote_end _ fuel s hp hp1
          refine ⟨s2, m, e1, ?_, ?_, ?_, ?_⟩
          · rw [e2, hnew, hi, set_replicate_NUL, un_escape_chars_quote_end]
            simp [List.replicate_succ]
          · rw [un_escape_chars_quote_end]; simp; omega
          · intro k hk
            rw [e3] at hk
            simp only [List.mem_append, List.mem_cons, List.mem_singleton, List.not_mem_nil,
              or_false] at hk
            rcases hk with (h | h) | h | h | h
            · exact hreads k h
            · rw [h, ht, hN]; omega
            · rw [h, ht, hN]; omega
            · rw [h, ht, hN]; simp
            · rw [h, ht, hN]; simp
          · intro k hk
            rw [e4] at hk
            rcases List.mem_append.1 hk with h | h
            · exact hwrites k h
            · simp at h; rw [h, hi]; omega
        | cons c2 rest2 =>
          have hc2 : c2 ≠ NUL := hrest c2 (by simp)
          have hp1 : peek (done ++ (quote :: c2 :: rest2 ++ tl)) (s.tmpstr + 1) = c2 := by
            have : done ++ (quote :: c2 :: rest2 ++ tl) =
                (done ++ [quote]) ++ (c2 :: rest2 ++ tl) := by simp
            rw [this, ht]
            have h2 := peek_append_zero (done ++ [quote]) (c2 :: rest2 ++ tl)
            simp only [List.length_append, List.length_singleton] at h2
            rw [h2]; rfl
          obtain ⟨s1, e1, e2, e3, e4, e5, e6⟩ := un_escape_loop_quote _ fuel s hp
            (by rw [hp1]; exact hc2)
          have hN2 : N = done.length + rest2.length + 2 := by rw [hN]; simp; omega
          obtain ⟨m1, hm1⟩ : ∃ m1, m = m1 + 1 := ⟨m - 1, by omega⟩
          have hmem : done ++ (quote :: c2 :: rest2 ++ tl) =
              (done ++ [quote, c2]) ++ (rest2 ++ tl) := by simp
          obtain ⟨s2, m2, k1, k2, k3, k4, k5⟩ := ih rest2 (done ++ [quote, c2]) tl (out ++ [c2]) m1 s1
            (fun x hx => hrest x (by simp [hx])) htl (by rw [hN2]; simp; omega)
            (by rw [e3, ht]; simp) (by rw [e2, hi]; simp) (by simp; omega)
            (by rw [e4, hp1, hnew, hi, hm1, set_replicate_NUL]) (by simp; omega)
            (by simp at hf; omega)
            (by
              intro k hk
              rw [e5] at hk
              simp only [List.mem_append, List.mem_cons, List.mem_singleton, List.not_mem_nil,
                or_false] at hk
              rcases hk with (h | h) | h | h | h
              · exact hreads k h
              · rw [h, ht, hN2]; omega
              · rw [h, ht, hN2]; omega
              · rw [h, ht, hN2]; omega
              · rw [h, ht, hN2]; omega)
            (by
              intro k hk
              rw [e6] at hk
              rcases List.mem_append.1 hk with h | h
              · exact hwrites k h
              · simp at h; rw [h, hi]; omega)
          refine ⟨s2, m2, ?_, ?_, ?_, k4, k5⟩
          · rw [e1, hmem]; exact k1
          · rw [k2, un_escape_chars_quote]; simp
          · rw [un_escape_chars_quote]; simpa using k3
      · have hp0 : peek (done ++ (c :: rest1 ++ tl)) s.tmpstr ≠ NUL := by rw [hp]; exact hc0
        obtain ⟨s1, e1, e2, e3, e4, e5, e6⟩ := un_escape_loop_other _ fuel s hp0
          (by rw [hp]; exact hq)
        obtain ⟨m1, hm1⟩ : ∃ m1, m = m1 + 1 := ⟨m - 1, by omega⟩
        have hmem : done ++ (c :: rest1 ++ tl) = (done ++ [c]) ++ (rest1 ++ tl) := by simp
        obtain ⟨s2, m2, k1, k2, k3, k4, k5⟩ := ih rest1 (done ++ [c]) tl (out ++ [c]) m1 s1
          (fun x hx => hrest x (by simp [hx])) htl (by rw [hlen]; simp; omega)
          (by rw [e3, ht]; simp) (by rw [e2, hi]; simp) (by simp; omega)
          (by rw [e4, hp, hnew, hi, hm1, set_replicate_NUL]) (by simp; omega)
          (by simp at hf; omega)
          (by
            intro k hk
            rw [e5] at hk
            simp only [List.mem_append, List.mem_cons, List.mem_singleton, List.not_mem_nil,
              or_false] at hk
            rcases hk with (h | h) | h | h | h
            · exact hreads k h
            · rw [h, ht, hlen]; omega
            · rw [h, ht, hlen]; omega
            · rw [h, ht, hlen]; omega
            · rw [h, ht, hlen]; omega)
          (by
            intro k hk
            rw [e6] at hk
            rcases List.mem_append.1 hk with h | h
            · exact hwrites k h
            · simp at h; rw [h, hi]; omega)
        refine ⟨s2, m2, ?_, ?_, ?_, k4, k5⟩
        · rw [e1, hmem]; exact k1
        · rw [k2, un_escape_chars_other _ _ hq]; simp
        · rw [un_escape_chars_other _ _ hq]; simpa using k3

theorem c_string_split (mem : List Char) :
    mem = [] ++ (c_string mem ++ mem.dropWhile (fun c => c != NUL)) ∧
    (∀ c ∈ c_string mem, c ≠ NUL) ∧
    peek (mem.dropWhile (fun c => c != NUL)) 0 = NUL ∧
    strlen mem = (c_string mem).length := by
  refine ⟨?_, ?_, ?_, rfl⟩
  · unfold c_string
    simp [List.takeWhile_append_dropWhile]
  · intro c hc
    have := List.mem_takeWhile_imp hc
    simpa using this
  · cases h : mem.dropWhile (fun c => c != NUL) with
    | nil => rfl
    | cons y ys =>
      have := dropWhile_head_not _ _ _ _ h
      simp only [bne_eq_false_iff_eq] at this
      simp [peek, this]

theorem c_string_no_NUL (mem : List Char) (h : NUL ∉ mem) : c_string mem = mem := by
  unfold c_string
  rw [List.takeWhile_eq_self_iff]
  intro c hc
  simp only [bne_iff_ne, ne_eq]
  intro e
  exact h (e ▸ hc)

/-- C25: on every string, whose length `strlen` is `n`, `un_escape` returns
(the loop ends within `n + 1` turns); every offset of the string that it reads
is at most `n`, the offset of the terminator; every offset of `newStr` that it
writes is at most `n`, inside the block of `n + 1` bytes; the block keeps its
`n + 1` bytes; the string left in the block is the un-escaped string and is
not longer than the input. This covers the string that ends with a single
quote. For a text without zero character the string left in the block is
`un_escape` of the text. -/
theorem C25_un_escape_stays_in_bounds (mem : List Char) :
    ∃ s, un_escape_run mem = some s ∧
      (∀ k ∈ s.reads, k ≤ strlen mem) ∧
      (∀ k ∈ s.writes, k ≤ strlen mem) ∧
      s.newStr.length = strlen mem + 1 ∧
      c_string s.newStr = un_escape_chars (c_string mem) ∧
      (c_string s.newStr).length ≤ strlen mem ∧
      (NUL ∉ mem → String.mk (c_string s.newStr) = un_escape (String.mk mem)) := by
  obtain ⟨h1, h2, h3, h4⟩ := c_string_split mem
  obtain ⟨s2, m2, k1, k2, k3, k4, k5⟩ := un_escape_loop_spec (strlen mem) (strlen mem + 1)
    (c_string mem) [] (mem.dropWhile (fun c => c != NUL)) [] (strlen mem)
    { i := 0, tmpstr := 0, newStr := List.replicate (strlen mem + 1) NUL,
      reads := [], writes := [] }
    h2 h3 (by simp [h4]) rfl rfl (by simp) (by simp) (by simp) (by rw [h4]; omega)
    (by simp) (by simp)
  rw [← h1] at k1
  have hsub := un_escape_chars_sub (c_string mem).length (c_string mem) (le_refl _)
  have hc : c_string s2.newStr = un_escape_chars (c_string mem) := by
    rw [k2]
    simp only [List.nil_append]
    exact c_string_append_NUL _ _ (fun c hc => h2 c (hsub.1 c hc))
  refine ⟨s2, k1, k4, k5, ?_, hc, ?_, ?_⟩
  · rw [k2]
    simp only [List.length_append, List.length_replicate]
    simp only [List.length_append] at k3
    omega
  · rw [hc, h4]; exact hsub.2
  · intro hn
    rw [hc, c_string_no_NUL mem hn]
    rfl

/-- C25 on the text a, quote: a string that ends with a single quote. The
offsets read are at most 2, the offset of the terminator, the offsets written
are at most 2, and the result is the text a. -/
theorem C25_witness :
    (un_escape_run ("a" ++ dq).data).map (fun s => (s.reads, s.writes, s.newStr)) =
      some ([0, 0, 0, 0, 1, 1, 2, 2], [0, 1], ['a', NUL, NUL]) ∧
    ∃ s, un_escape_run ("a" ++ dq).data = some s ∧
      String.mk (c_string s.newStr) = un_escape (String.mk ("a" ++ dq).data) :=
  ⟨by decide,
    (C25_un_escape_stays_in_bounds ("a" ++ dq).data).elim
      (fun s h => ⟨s, h.1, h.2.2.2.2.2.2 (by decide)⟩)⟩

end BiImport
